import Mathlib

/-!
# baton-sentinel-one: a shallow embedding of the connector

The development follows the Go sources:

* `pkg/sentinelone/models.go`, `pkg/sentinelone/client.go` : records and API client;
* `pkg/connector/{connector,account,user,serviceUser,role,site}.go` : resource mappers
  and the traversal units (List / Entitlements / Grants);
* `cmd/baton-sentinel-one/config.go` : configuration validation.

Go functions returning `(..., error)` are embedded as functions into `Except Err`.
Functions that talk to the management console additionally return the list of
HTTP requests they sent (`Traced`), so that "no request is issued" is a statement
about a value.
-/

namespace BatonSentinelOne

/-! ## Errors -/

/-- Go `error` values: `text` is an error built from a message alone
(`fmt.Errorf` without `%w`, `errors.New`, transport and decoding errors),
`wrapped` is `fmt.Errorf("<msg>: %w", cause)`. -/
inductive Err where
  | text (msg : String)
  | wrapped (msg : String) (cause : Err)
  deriving DecidableEq, Repr

/-- The `Error()` string of an error value. -/
def Err.Error : Err → String
  | .text msg => msg
  | .wrapped msg cause => msg ++ ": " ++ cause.Error

/-! ## pkg/sentinelone/models.go -/

/-- Combination of predefined role and scope role. -/
structure Role where
  AccountName : String
  RoleName : String
  RoleID : String
  ID : String
  Name : String
  deriving DecidableEq, Repr

structure User where
  Email : String
  Scope : String
  ID : String
  /-- `none` is the nil slice. -/
  ScopeRoles : Option (List Role)
  FullName : String
  deriving DecidableEq, Repr

structure ServiceUser where
  ID : String
  Description : String
  Name : String
  /-- `none` is the nil slice. -/
  ScopeRoles : Option (List Role)
  Scope : String
  deriving DecidableEq, Repr

structure Account where
  AccountType : String
  ID : String
  Name : String
  IsDefault : Bool
  deriving DecidableEq, Repr

structure Site where
  Description : String
  ID : String
  Name : String
  SiteType : String
  AccountID : String
  deriving DecidableEq, Repr

/-! ## SDK data types (`v2.ResourceId`, `v2.Resource`, `v2.Grant`) -/

structure ResourceId where
  ResourceType : String
  Resource : String
  deriving DecidableEq, Repr

/-- The `rs.RoleTraitOption` values the connector passes. The profile is the
`map[string]interface{}` literal of the mapper, kept as a key/value list in the
order it is written in the source. -/
inductive RoleTraitOption where
  | WithRoleProfile (profile : List (String × String))
  deriving DecidableEq, Repr

/-- The `rs.UserTraitOption` values the connector passes. -/
inductive UserTraitOption where
  | WithUserProfile (profile : List (String × String))
  | WithStatus (status : String)
  | WithEmail (email : String) (primary : Bool)
  | WithAccountType (accountType : String)
  deriving DecidableEq, Repr

/-- Annotations and traits attached to a resource. -/
inductive Anno where
  | ChildResourceType (ResourceTypeId : String)
  | RoleTrait (opts : List RoleTraitOption)
  | UserTrait (opts : List UserTraitOption)
  deriving DecidableEq, Repr

structure Resource where
  Id : ResourceId
  ParentResourceId : Option ResourceId
  DisplayName : String
  Annotations : List Anno
  deriving DecidableEq, Repr

/-- The triple `grant.NewGrant(resource, entitlementName, principalId)` records. -/
structure Grant where
  resource : Resource
  entitlement : String
  principal : ResourceId
  deriving DecidableEq, Repr

def NewGrant (resource : Resource) (entitlementName : String) (principal : ResourceId) :
    Grant :=
  { resource := resource, entitlement := entitlementName, principal := principal }

/-! ## pkg/connector/connector.go : resource types -/

structure ResourceType where
  Id : String
  DisplayName : String
  deriving DecidableEq, Repr

def resourceTypeAccount : ResourceType := { Id := "account", DisplayName := "Account" }
def resourceTypeUser : ResourceType := { Id := "user", DisplayName := "User" }
def resourceTypeServiceUser : ResourceType :=
  { Id := "service_user", DisplayName := "Service User" }
def resourceTypeRole : ResourceType := { Id := "role", DisplayName := "Role" }
def resourceTypeSite : ResourceType := { Id := "site", DisplayName := "Site" }

/-! ## SDK resource constructors

`rs.NewResource`, `rs.NewRoleResource` and `rs.NewUserResource` fail only on an
identifier of an unsupported Go type or on a profile string that is not valid
UTF-8; the connector always passes `string` identifiers and Lean strings are
valid by construction, so the constructors below always return `.ok`. The
mappers keep the `Except` shape of their Go signatures. -/

def NewResource (name : String) (resourceType : ResourceType) (objectID : String)
    (parent : Option ResourceId) (annos : List Anno) : Except Err Resource :=
  .ok { Id := { ResourceType := resourceType.Id, Resource := objectID },
        ParentResourceId := parent, DisplayName := name, Annotations := annos }

def NewRoleResource (name : String) (resourceType : ResourceType) (objectID : String)
    (roleOpts : List RoleTraitOption) : Except Err Resource :=
  NewResource name resourceType objectID none [Anno.RoleTrait roleOpts]

def NewUserResource (name : String) (resourceType : ResourceType) (objectID : String)
    (userOpts : List UserTraitOption) (parent : Option ResourceId) : Except Err Resource :=
  NewResource name resourceType objectID parent [Anno.UserTrait userOpts]

/-! ## pkg/connector/role.go : `roleResource` -/

/-- Create a new connector resource for a SentinelOne role
(`roleResource`, role.go lines 38-72). -/
def roleResource (role : Role) : Except Err Resource :=
  -- scope roles and predefined roles have different fields
  let idName : String × String :=
    if role.RoleName ≠ "" ∧ role.RoleID ≠ "" then (role.RoleID, role.RoleName)
    else (role.ID, role.Name)
  let id := idName.1
  let name := idName.2
  let profile : List (String × String) := [("role_name", name), ("role_id", id)]
  let roleTraitOptions := [RoleTraitOption.WithRoleProfile profile]
  match NewRoleResource name resourceTypeRole id roleTraitOptions with
  | .error err => .error err
  | .ok resource => .ok resource

/-! ## pkg/sentinelone/client.go -/

/-- The `Client` struct without its `httpClient`; the transport is the
`Remote` argument of the request functions. -/
structure Client where
  token : String
  baseUrl : String
  deriving DecidableEq, Repr

def NewClient (baseUrl token : String) : Client :=
  { token := token, baseUrl := baseUrl }

/-- Go `ParamsMap` (`map[string]string`) as an association list. A possibly nil
map is an `Option ParamsMap`. -/
abbrev ParamsMap := List (String × String)

/-- Go `url.Values` (`map[string][]string`) as an association list. -/
abbrev Values := List (String × List String)

/-- Go `url.Values.Add`: append the value to the list stored under the key. -/
def Values.Add (vs : Values) (key value : String) : Values :=
  if vs.any (fun kv => kv.1 == key) then
    vs.map (fun kv => if kv.1 == key then (kv.1, kv.2 ++ [value]) else kv)
  else
    vs ++ [(key, [value])]

structure PaginationInfo where
  TotalItems : Int
  NextCursor : String
  deriving DecidableEq, Repr

/-- Go `sentinelone.Error`, one entry of the in-band `errors` array. -/
structure Error where
  Code : Int
  Detail : String
  Title : String
  deriving DecidableEq, Repr

/-- Go `Response[T]`, as decoded from the body. `Errors = none` is the nil
slice (key absent or null), `some []` a present, empty array. -/
structure Response (T : Type) where
  Pagination : PaginationInfo
  Errors : Option (List Error)
  Data : List T

/-- The anonymous response struct of `GetSites`: records nest under `data.sites`. -/
structure SitesResponse where
  Pagination : PaginationInfo
  Errors : Option (List Error)
  Sites : List Site

def usersEndpoint : String := "users"
def serviceUsersEndpoint : String := "service-users"
def accountsEndpoint : String := "accounts"
def sitesEndpoint : String := "sites"
def rolesEndpoint : String := "rbac/roles"

/-- The request `doRequest` builds. `Query` is the `url.Values` handed to
`Encode` (`none`: `RawQuery` is left unset). -/
structure Request where
  Method : String
  URL : String
  Query : Option Values
  Header : List (String × String)
  deriving DecidableEq, Repr

/-- The world outside the connector as `doRequest` sees it. `newRequest` is
`http.NewRequestWithContext(ctx, http.MethodGet, url, nil)`: the error it returns
for a URL that does not parse, `none` when the request is built. The other
fields are `httpClient.Do` followed by the JSON decoding of the body into the
response struct of each call: the decoded body, or the transport / decoding
error. -/
structure Remote where
  newRequest : String → Option Err
  users : Request → Except Err (Response User)
  serviceUsers : Request → Except Err (Response ServiceUser)
  accounts : Request → Except Err (Response Account)
  sites : Request → Except Err SitesResponse
  roles : Request → Except Err (Response Role)

/-- A result together with the requests that were sent to obtain it: the
requests handed to `httpClient.Do`, in order. -/
structure Traced (α : Type) where
  result : Except Err α
  sent : List Request

/-- Go `%v` of a `[]Error`. -/
def formatErrors (errs : List Error) : String :=
  "[" ++ String.intercalate " " (errs.map fun e =>
    "\x7b" ++ toString e.Code ++ " " ++ e.Detail ++ " " ++ e.Title ++ "\x7d") ++ "]"

def createParams (params : ParamsMap) : Values :=
  let urlParams : Values := params.foldl (fun acc kv => Values.Add acc kv.1 kv.2) []
  -- this will speed up the execution time.
  Values.Add urlParams "skipCount" "true"

/-- Go `Client.doRequest`; `newRequest` is `http.NewRequestWithContext`, `exchange`
the field of `Remote` for the type of `res`. When the request cannot be built
the function returns before `httpClient.Do`: nothing is sent. -/
def Client.doRequest {β : Type} (c : Client) (newRequest : String → Option Err)
    (exchange : Request → Except Err β) (url : String) (queryParams : Option Values) :
    Traced β :=
  match newRequest url with
  | some err => ⟨.error err, []⟩
  | none =>
    let req : Request :=
      { Method := "GET", URL := url, Query := queryParams,
        Header := [("Accept", "application/json"), ("Authorization", "ApiToken " ++ c.token)] }
    match exchange req with
    | .error err => ⟨.error err, [req]⟩
    | .ok res => ⟨.ok res, [req]⟩

/-- The `if params != nil` prologue shared by the five calls. -/
def queryOf (params : Option ParamsMap) : Option Values :=
  match params with
  | none => none
  | some p => some (createParams p)

/-- GetUsers returns a list of all users. -/
def Client.GetUsers (c : Client) (remote : Remote) (params : Option ParamsMap) :
    Traced (List User × String) :=
  let queryParams := queryOf params
  let r := c.doRequest remote.newRequest remote.users (c.baseUrl ++ usersEndpoint) queryParams
  match r.result with
  | .error err => ⟨.error err, r.sent⟩
  | .ok res =>
    match res.Errors with
    | some errs => ⟨.error (.text ("failed to get users: " ++ formatErrors errs)), r.sent⟩
    | none =>
      if res.Pagination.NextCursor ≠ "" then
        ⟨.ok (res.Data, res.Pagination.NextCursor), r.sent⟩
      else ⟨.ok (res.Data, ""), r.sent⟩

/-- GetServiceUsers returns a list of all service users. -/
def Client.GetServiceUsers (c : Client) (remote : Remote) (params : Option ParamsMap) :
    Traced (List ServiceUser × String) :=
  let queryParams := queryOf params
  let r := c.doRequest remote.newRequest remote.serviceUsers (c.baseUrl ++ serviceUsersEndpoint)
    queryParams
  match r.result with
  | .error err => ⟨.error err, r.sent⟩
  | .ok res =>
    match res.Errors with
    | some errs =>
      ⟨.error (.text ("failed to get service users: " ++ formatErrors errs)), r.sent⟩
    | none =>
      if res.Pagination.NextCursor ≠ "" then
        ⟨.ok (res.Data, res.Pagination.NextCursor), r.sent⟩
      else ⟨.ok (res.Data, ""), r.sent⟩

/-- GetAccounts returns a list of all accounts. -/
def Client.GetAccounts (c : Client) (remote : Remote) (params : Option ParamsMap) :
    Traced (List Account × String) :=
  let queryParams := queryOf params
  let r := c.doRequest remote.newRequest remote.accounts (c.baseUrl ++ accountsEndpoint) queryParams
  match r.result with
  | .error err => ⟨.error err, r.sent⟩
  | .ok res =>
    match res.Errors with
    | some errs => ⟨.error (.text ("failed to get accounts: " ++ formatErrors errs)), r.sent⟩
    | none =>
      if res.Pagination.NextCursor ≠ "" then
        ⟨.ok (res.Data, res.Pagination.NextCursor), r.sent⟩
      else ⟨.ok (res.Data, ""), r.sent⟩

/-- GetSites returns a list of all sites. -/
def Client.GetSites (c : Client) (remote : Remote) (params : Option ParamsMap) :
    Traced (List Site × String) :=
  let queryParams := queryOf params
  let r := c.doRequest remote.newRequest remote.sites (c.baseUrl ++ sitesEndpoint) queryParams
  match r.result with
  | .error err => ⟨.error err, r.sent⟩
  | .ok res =>
    match res.Errors with
    | some errs => ⟨.error (.text ("failed to get sites: " ++ formatErrors errs)), r.sent⟩
    | none =>
      if res.Pagination.NextCursor ≠ "" then
        ⟨.ok (res.Sites, res.Pagination.NextCursor), r.sent⟩
      else ⟨.ok (res.Sites, ""), r.sent⟩

/-- GetPredefinedRoles returns a list of all predefined roles. -/
def Client.GetPredefinedRoles (c : Client) (remote : Remote) (params : Option ParamsMap) :
    Traced (List Role × String) :=
  let queryParams := queryOf params
  let r := c.doRequest remote.newRequest remote.roles (c.baseUrl ++ rolesEndpoint) queryParams
  match r.result with
  | .error err => ⟨.error err, r.sent⟩
  | .ok res =>
    match res.Errors with
    | some errs => ⟨.error (.text ("failed to get roles: " ++ formatErrors errs)), r.sent⟩
    | none =>
      if res.Pagination.NextCursor ≠ "" then
        ⟨.ok (res.Data, res.Pagination.NextCursor), r.sent⟩
      else ⟨.ok (res.Data, ""), r.sent⟩

/-! ## Go standard library: `path.Clean`, `path.Join`

`New` builds the client's base URL with `path.Join`, so the two functions are
embedded after the Go standard library (`path/path.go`). The output buffer
`lazybuf` is the list `out`, its write index `out.w` is `out.length`. Only the
bytes `/` and `.` are inspected, so reading characters instead of bytes makes
no difference on valid UTF-8. -/

/-- The inner loop of the `..` case: `for out.w > dotdot && out.index(out.w) != '/' { out.w-- }`,
as a function of the current `out.w`. -/
def path.backtrack (out : List Char) (dotdot : Nat) : Nat → Nat
  | 0 => 0
  | w + 1 =>
    if w + 1 > dotdot ∧ out.getD (w + 1) ' ' ≠ '/' then path.backtrack out dotdot w
    else w + 1

/-- The loop `for r < n` of `path.Clean`: `rest` is `path[r:]`. Every round
consumes at least one character, so `fuel = len(path)` rounds are enough. -/
def path.cleanLoop (rooted : Bool) : Nat → List Char → List Char → Nat → List Char
  | 0, _, out, _ => out
  | _ + 1, [], out, _ => out
  | fuel + 1, c :: rest, out, dotdot =>
    if c = '/' then
      -- empty path element
      path.cleanLoop rooted fuel rest out dotdot
    else if c = '.' ∧ (rest = [] ∨ rest.head? = some '/') then
      -- . element
      path.cleanLoop rooted fuel rest out dotdot
    else if c = '.' ∧ rest.head? = some '.' ∧
        (rest.tail = [] ∨ rest.tail.head? = some '/') then
      -- .. element: remove to last /
      if out.length > dotdot then
        -- can backtrack
        let w := path.backtrack out dotdot (out.length - 1)
        path.cleanLoop rooted fuel rest.tail (out.take w) dotdot
      else if rooted = false then
        -- cannot backtrack, but not rooted, so append .. element.
        let out1 := if out.length > 0 then out ++ ['/'] else out
        let out2 := out1 ++ ['.', '.']
        path.cleanLoop rooted fuel rest.tail out2 out2.length
      else
        path.cleanLoop rooted fuel rest.tail out dotdot
    else
      -- real path element. add slash if needed
      let out1 :=
        if (rooted = true ∧ out.length ≠ 1) ∨ (rooted = false ∧ out.length ≠ 0) then
          out ++ ['/']
        else out
      -- copy element
      let whole := c :: rest
      path.cleanLoop rooted fuel (whole.dropWhile (fun x => x != '/'))
        (out1 ++ whole.takeWhile (fun x => x != '/')) dotdot

/-- Go `path.Clean`. -/
def path.Clean (p : String) : String :=
  if p = "" then "."
  else
    let cs := p.data
    let out :=
      if cs.head? = some '/' then path.cleanLoop true cs.length cs.tail ['/'] 1
      else path.cleanLoop false cs.length cs [] 0
    -- Turn empty string into "."
    if out.length = 0 then "." else String.mk out

/-- Go `path.Join`. -/
def path.Join (elems : List String) : String :=
  let size := (elems.map String.length).sum
  if size = 0 then ""
  else
    let buf := elems.foldl (fun (buf : String) e =>
      if buf.length > 0 ∨ e ≠ "" then
        (if buf.length > 0 then buf ++ "/" else buf) ++ e
      else buf) ""
    path.Clean buf

/-! ## pkg/connector/connector.go : `New`, `Validate` -/

structure SentinelOne where
  client : Client
  deriving DecidableEq, Repr

/-- New returns the SentinelOne connector. `httpClient` is the outcome of
`uhttp.NewClient`. -/
def New (httpClient : Except Err Unit) (baseUrl token : String) : Except Err SentinelOne :=
  match httpClient with
  | .error err => .error err
  | .ok _ =>
    let client := NewClient (path.Join [baseUrl, "web/api/v2.1/"]) token
    .ok { client := client }

/-- Validates that the user has access to all relevant resources
(`SentinelOne.Validate`, connector.go lines 72-110). -/
def SentinelOne.Validate (s : SentinelOne) (remote : Remote) : Traced Unit :=
  let r1 := s.client.GetAccounts remote (some [("limit", "1")])
  match r1.result with
  | .error err => ⟨.error (.wrapped "failed to get accounts" err), r1.sent⟩
  | .ok _ =>
  let r2 := s.client.GetSites remote (some [("limit", "1")])
  match r2.result with
  | .error err => ⟨.error (.wrapped "failed to get sites" err), r1.sent ++ r2.sent⟩
  | .ok _ =>
  let r3 := s.client.GetUsers remote (some [("limit", "1")])
  match r3.result with
  | .error err => ⟨.error (.wrapped "failed to get users" err), r1.sent ++ r2.sent ++ r3.sent⟩
  | .ok _ =>
  let r4 := s.client.GetServiceUsers remote (some [("limit", "1")])
  match r4.result with
  | .error err =>
    ⟨.error (.wrapped "failed to get service users" err),
      r1.sent ++ r2.sent ++ r3.sent ++ r4.sent⟩
  | .ok _ =>
  let r5 := s.client.GetPredefinedRoles remote (some [("limit", "1")])
  match r5.result with
  | .error err =>
    ⟨.error (.wrapped "failed to get roles" err),
      r1.sent ++ r2.sent ++ r3.sent ++ r4.sent ++ r5.sent⟩
  | .ok _ => ⟨.ok (), r1.sent ++ r2.sent ++ r3.sent ++ r4.sent ++ r5.sent⟩

/-! ## SDK pagination: `pagination.PageState`, `pagination.Bag`, page tokens -/

structure PageState where
  Token : String
  ResourceTypeID : String
  ResourceID : String
  deriving DecidableEq, Repr

/-- Modelled from the spec: the SDK's `pagination.Bag`, "a LIFO stack of pending
resource-type markers carried inside the opaque page token"; the connector "only
pushes/pops frames and reads/writes the top cursor". The head of the list is the
current frame (the most recently pushed one). -/
abbrev Bag := List PageState

/-- Modelled from the spec: the page token (`pagination.Token`), "an opaque, caller-serialized stack
of {resourceTypeId, cursor} frames" whose encoding is owned by the SDK. A token
is the stack it decodes to (`frames`), or a string that does not decode
(`garbled`). The empty token is the empty stack. -/
inductive Token where
  | frames (stack : List PageState)
  | garbled (raw : String)
  deriving DecidableEq, Repr

/-- The empty page token `""`. -/
def Token.empty : Token := .frames []

/-- Modelled from the spec: `Bag.Unmarshal`, decoding the token into the stack. -/
def Bag.Unmarshal (input : Token) : Except Err Bag :=
  match input with
  | .frames stack => .ok stack
  | .garbled raw => .error (.text ("page token corrupt: " ++ raw))

/-- Modelled from the spec: `Bag.Marshal`, the token of the stack
("stack empty ⇒ traversal complete": the empty stack gives the empty token). -/
def Bag.Marshal (bag : Bag) : Except Err Token :=
  .ok (.frames bag)

/-- Modelled from the spec: `Bag.Push`, the pushed frame becomes the current one. -/
def Bag.Push (bag : Bag) (state : PageState) : Bag :=
  state :: bag

/-- Modelled from the spec: `Bag.Pop`, drop the current frame; the frame pushed
before it becomes current. -/
def Bag.Pop (bag : Bag) : Bag :=
  bag.tail

/-- Modelled from the spec: `Bag.Current`. -/
def Bag.Current (bag : Bag) : Option PageState :=
  bag.head?

/-- Modelled from the spec: `Bag.ResourceTypeID`, the resource type of the
current frame (`""` without one). -/
def Bag.ResourceTypeID (bag : Bag) : String :=
  match Bag.Current bag with
  | none => ""
  | some st => st.ResourceTypeID

/-- Modelled from the spec: `Bag.PageToken`, the cursor of the current frame. -/
def Bag.PageToken (bag : Bag) : String :=
  match Bag.Current bag with
  | none => ""
  | some st => st.Token

/-- Modelled from the spec: `Bag.Next`, write the cursor into the current frame;
"when that phase's cursor is empty, the state is considered exhausted and the
stack advances to the next pending state". -/
def Bag.Next (bag : Bag) (pageToken : String) : Except Err Bag :=
  match bag with
  | [] => .error (.text "no active page state")
  | st :: rest =>
    if pageToken ≠ "" then .ok (Bag.Push rest { st with Token := pageToken })
    else .ok rest

/-- Modelled from the spec: `Bag.NextToken`, `Next` followed by `Marshal`. -/
def Bag.NextToken (bag : Bag) (pageToken : String) : Except Err Token :=
  match Bag.Next bag pageToken with
  | .error err => .error err
  | .ok bag1 => Bag.Marshal bag1

/-! ## pkg/connector helpers that are not among the sources -/

/-- Modelled from the spec: the query-parameter name constant `cursor`
("query parameters include the cursor, a resource-scoped filter"). -/
def cursor : String := "cursor"

/-- Modelled from the spec: the query-parameter name constant `accountsFilter`. -/
def accountsFilter : String := "accountsFilter"

/-- Modelled from the spec: the query-parameter name constant `rolesFilter`. -/
def rolesFilter : String := "rolesFilter"

/-- Modelled from the spec: the query-parameter name constant `sitesFilter`. -/
def sitesFilter : String := "sitesFilter"

/-- Modelled from the spec: `parsePageToken`, which decodes the page token into
the stack, starts a fresh traversal (empty token) in the root state of the unit
("Initial state: root type of the unit") and reads the top cursor. -/
def parsePageToken (i : Token) (resourceID : ResourceId) : Except Err (Bag × String) :=
  match Bag.Unmarshal i with
  | .error err => .error err
  | .ok b =>
    let b1 :=
      if Bag.Current b = none then
        Bag.Push b { Token := "", ResourceTypeID := resourceID.ResourceType,
                     ResourceID := resourceID.Resource }
      else b
    .ok (b1, Bag.PageToken b1)

/-- Modelled from the spec: `splitFullName`, "a full name string is split into
first/last name by first whitespace boundary (no whitespace ⇒ whole string is
first name, last name empty)". -/
def splitFullName (name : String) : String × String :=
  let cs := name.data
  (String.mk (cs.takeWhile (fun ch => !ch.isWhitespace)),
   String.mk ((cs.dropWhile (fun ch => !ch.isWhitespace)).tail))

/-! ## Resource mappers (account.go, user.go, serviceUser.go, site.go) -/

/-- Create a new connector resource for a SentinelOne account. -/
def accountResource (account : Account) : Except Err Resource :=
  match NewResource account.Name resourceTypeAccount account.ID none
      [Anno.ChildResourceType resourceTypeUser.Id,
       Anno.ChildResourceType resourceTypeServiceUser.Id,
       Anno.ChildResourceType resourceTypeSite.Id] with
  | .error err => .error err
  | .ok ret => .ok ret

/-- Create a new connector resource for a SentinelOne user. -/
def userResource (user : User) (parentResourceID : Option ResourceId) : Except Err Resource :=
  let names := splitFullName user.FullName
  let profile : List (String × String) :=
    [("first_name", names.1), ("last_name", names.2), ("login", user.Email),
     ("user_id", user.ID)]
  let userTraitOptions :=
    [UserTraitOption.WithUserProfile profile, UserTraitOption.WithStatus "STATUS_ENABLED",
     UserTraitOption.WithEmail user.Email true]
  match NewUserResource user.FullName resourceTypeUser user.ID userTraitOptions
      parentResourceID with
  | .error err => .error err
  | .ok ret => .ok ret

/-- Create a new connector resource for a SentinelOne service user. -/
def serviceUserResource (serviceUser : ServiceUser) (parentResourceID : Option ResourceId) :
    Except Err Resource :=
  let names := splitFullName serviceUser.Name
  let profile : List (String × String) :=
    [("first_name", names.1), ("last_name", names.2), ("user_id", serviceUser.ID)]
  let userTraitOptions :=
    [UserTraitOption.WithUserProfile profile,
     UserTraitOption.WithStatus "STATUS_UNSPECIFIED",
     UserTraitOption.WithAccountType "ACCOUNT_TYPE_SERVICE"]
  match NewUserResource serviceUser.Name resourceTypeServiceUser serviceUser.ID
      userTraitOptions parentResourceID with
  | .error err => .error err
  | .ok ret => .ok ret

/-- Create a new connector resource for a SentinelOne site. -/
def siteResource (site : Site) (parentResourceID : Option ResourceId) : Except Err Resource :=
  match NewResource site.Name resourceTypeSite site.ID parentResourceID [] with
  | .error err => .error err
  | .ok resource => .ok resource

/-! ## Traversal units: shared shapes

The child cases of the three `Grants` switches are the same code up to the
client call, the two failure messages, the mapper and the entitlement name;
`grantLoop` is their `for ... range` loop, `grantsPhase` the case body followed
by the `bag.Marshal()` epilogue of `Grants`. `resourceLoop` is the loop of the
`List` functions. -/

/-- `for _, x := range records { r, err := mapper(&x, ...); if err != nil { return ... };
rv = append(rv, r) }`. -/
def resourceLoop {α : Type} (mapper : α → Except Err Resource) :
    List α → Except Err (List Resource)
  | [] => .ok []
  | x :: rest =>
    match mapper x with
    | .error err => .error err
    | .ok r =>
      match resourceLoop mapper rest with
      | .error err => .error err
      | .ok rv => .ok (r :: rv)

/-- `for _, x := range records { ur, err := mapper(&x, resource.Id); if err != nil { return
..., fmt.Errorf("<mapFailure>: %w", err) }; rv = append(rv, grant.NewGrant(resource,
membership, ur.Id)) }`. -/
def grantLoop {α : Type} (mapper : α → Except Err Resource) (mapFailure : String)
    (membership : α → String) (resource : Resource) : List α → Except Err (List Grant)
  | [] => .ok []
  | x :: rest =>
    match mapper x with
    | .error err => .error (.wrapped mapFailure err)
    | .ok ur =>
      match grantLoop mapper mapFailure membership resource rest with
      | .error err => .error err
      | .ok rv => .ok (NewGrant resource (membership x) ur.Id :: rv)

/-- One child case of a `Grants` switch, from the result of the client call to
the returned page token. -/
def grantsPhase {α : Type} (fetched : Traced (List α × String))
    (listFailure mapFailure : String) (mapper : α → Except Err Resource)
    (membership : α → String) (resource : Resource) (bag : Bag) :
    Traced (List Grant × Token) :=
  match fetched.result with
  | .error err => ⟨.error (.wrapped listFailure err), fetched.sent⟩
  | .ok (records, nextCursor) =>
    match Bag.Next bag nextCursor with
    | .error paginationErr => ⟨.error paginationErr, fetched.sent⟩
    | .ok bag1 =>
      match grantLoop mapper mapFailure membership resource records with
      | .error err => ⟨.error err, fetched.sent⟩
      | .ok rv =>
        match Bag.Marshal bag1 with
        | .error err => ⟨.error err, fetched.sent⟩
        | .ok pageToken => ⟨.ok (rv, pageToken), fetched.sent⟩

/-- The body of the `List` functions of the account, user, service-user and
site units after the client call: the error of the call (wrapped by `wrap` where
the source wraps it), `bag.NextToken(nextCursor)`, then the mapping loop. -/
def listPage {α : Type} (fetched : Traced (List α × String))
    (wrap : Err → Err) (mapper : α → Except Err Resource) (bag : Bag) :
    Traced (List Resource × Token) :=
  match fetched.result with
  | .error err => ⟨.error (wrap err), fetched.sent⟩
  | .ok (records, nextCursor) =>
    match Bag.NextToken bag nextCursor with
    | .error err => ⟨.error err, fetched.sent⟩
    | .ok pageToken =>
      match resourceLoop mapper records with
      | .error err => ⟨.error err, fetched.sent⟩
      | .ok rv => ⟨.ok (rv, pageToken), fetched.sent⟩

/-- What a `List` call returns: the resources and the next page token, or the
error, with the requests sent. -/
abbrev ListResult := Traced (List Resource × Token)

/-- What a `Grants` call returns: the grants and the next page token, or the
error, with the requests sent. -/
abbrev GrantsResult := Traced (List Grant × Token)

/-! ## pkg/connector/account.go -/

def accountMembership : String := "member"

structure accountResourceType where
  resourceType : ResourceType
  client : Client

def accountBuilder (client : Client) : accountResourceType :=
  { resourceType := resourceTypeAccount, client := client }

/-- Go `accountResourceType.List` (account.go lines 46-75). -/
def accountResourceType.List (a : accountResourceType) (remote : Remote)
    (_parentId : Option ResourceId) (pToken : Token) : ListResult :=
  match parsePageToken pToken { ResourceType := resourceTypeAccount.Id, Resource := "" } with
  | .error err => ⟨.error err, []⟩
  | .ok (bag, page) =>
    listPage (a.client.GetAccounts remote (some [(cursor, page)])) id accountResource bag

/-- Go `accountResourceType.Grants` (account.go lines 95-194). -/
def accountResourceType.Grants (a : accountResourceType) (remote : Remote)
    (resource : Resource) (pToken : Token) : GrantsResult :=
  match parsePageToken pToken { ResourceType := resourceTypeAccount.Id, Resource := "" } with
  | .error err => ⟨.error err, []⟩
  | .ok (bag, page) =>
    if Bag.ResourceTypeID bag = resourceTypeAccount.Id then
      let bag1 := Bag.Pop bag
      let bag2 := Bag.Push bag1
        { Token := "", ResourceTypeID := resourceTypeUser.Id, ResourceID := "" }
      let bag3 := Bag.Push bag2
        { Token := "", ResourceTypeID := resourceTypeServiceUser.Id, ResourceID := "" }
      let bag4 := Bag.Push bag3
        { Token := "", ResourceTypeID := resourceTypeSite.Id, ResourceID := "" }
      match Bag.Marshal bag4 with
      | .error err => ⟨.error err, []⟩
      | .ok pageToken => ⟨.ok ([], pageToken), []⟩
    else if Bag.ResourceTypeID bag = resourceTypeUser.Id then
      grantsPhase
        (a.client.GetUsers remote
          (some [(accountsFilter, resource.Id.Resource), (cursor, page)]))
        ("failed to list users for account " ++ resource.Id.Resource)
        ("error creating user resource for account " ++ resource.Id.Resource)
        (fun u => userResource u (some resource.Id)) (fun _ => accountMembership)
        resource bag
    else if Bag.ResourceTypeID bag = resourceTypeServiceUser.Id then
      grantsPhase
        (a.client.GetServiceUsers remote
          (some [(accountsFilter, resource.Id.Resource), (cursor, page)]))
        ("failed to list service users for account " ++ resource.Id.Resource)
        ("error creating service user resource for account " ++ resource.Id.Resource)
        (fun u => serviceUserResource u (some resource.Id)) (fun _ => accountMembership)
        resource bag
    else if Bag.ResourceTypeID bag = resourceTypeSite.Id then
      grantsPhase
        (a.client.GetSites remote
          (some [(accountsFilter, resource.Id.Resource), (cursor, page)]))
        ("failed to list sites for account " ++ resource.Id.Resource)
        ("error creating site resource for account " ++ resource.Id.Resource)
        (fun st => siteResource st (some resource.Id)) (fun _ => accountMembership)
        resource bag
    else
      ⟨.error (.text "unexpected resource type while fetching grants for an account"), []⟩

/-! ## pkg/connector/user.go, pkg/connector/serviceUser.go -/

structure userResourceType where
  resourceType : ResourceType
  client : Client

def userBuilder (client : Client) : userResourceType :=
  { resourceType := resourceTypeUser, client := client }

/-- Go `userResourceType.List` (user.go lines 53-86). -/
def userResourceType.List (u : userResourceType) (remote : Remote)
    (parentId : Option ResourceId) (pToken : Token) : ListResult :=
  match parentId with
  | none => ⟨.ok ([], Token.empty), []⟩
  | some parent =>
    match parsePageToken pToken { ResourceType := resourceTypeUser.Id, Resource := "" } with
    | .error err => ⟨.error err, []⟩
    | .ok (bag, page) =>
      listPage (u.client.GetUsers remote (some [(cursor, page)])) id
        (fun x => userResource x (some parent)) bag

/-- Go `userResourceType.Grants`. -/
def userResourceType.Grants (_u : userResourceType) (_remote : Remote)
    (_resource : Resource) (_pToken : Token) : GrantsResult :=
  ⟨.ok ([], Token.empty), []⟩

structure serviceUserResourceType where
  resourceType : ResourceType
  client : Client

def serviceUserBuilder (client : Client) : serviceUserResourceType :=
  { resourceType := resourceTypeServiceUser, client := client }

/-- Go `serviceUserResourceType.List` (serviceUser.go lines 52-85). -/
def serviceUserResourceType.List (s : serviceUserResourceType) (remote : Remote)
    (parentId : Option ResourceId) (pToken : Token) : ListResult :=
  match parentId with
  | none => ⟨.ok ([], Token.empty), []⟩
  | some parent =>
    match parsePageToken pToken
        { ResourceType := resourceTypeServiceUser.Id, Resource := "" } with
    | .error err => ⟨.error err, []⟩
    | .ok (bag, page) =>
      listPage (s.client.GetServiceUsers remote (some [(cursor, page)])) id
        (fun x => serviceUserResource x (some parent)) bag

/-- Go `serviceUserResourceType.Grants`. -/
def serviceUserResourceType.Grants (_s : serviceUserResourceType) (_remote : Remote)
    (_resource : Resource) (_pToken : Token) : GrantsResult :=
  ⟨.ok ([], Token.empty), []⟩

/-! ## pkg/connector/role.go -/

def scopeAccountMember : String := "account scope"
def scopeSiteMember : String := "site scope"
def scopeTenantMember : String := "tenant scope"

/-- The Go map `memberships`. -/
def memberships : List (String × String) :=
  [("account", scopeAccountMember), ("site", scopeSiteMember), ("tenant", scopeTenantMember)]

/-- An order in which a Go `range` loop visits the entries of the map `m`: every
entry once, in an order Go leaves unspecified and that may change from one loop
to the next. A function that ranges over a map takes the order as an argument. -/
structure RangeOrder (m : List (String × String)) where
  visited : List (String × String)
  all : visited.Perm m

/-- Go `memberships[scope]`: the zero value `""` for a missing key. -/
def membershipsAt (scope : String) : String :=
  (memberships.lookup scope).getD ""

structure roleResourceType where
  resourceType : ResourceType
  client : Client

def roleBuilder (client : Client) : roleResourceType :=
  { resourceType := resourceTypeRole, client := client }

/-- `for _, user := range users { if user.ScopeRoles != nil { allRoles = append(allRoles,
user.ScopeRoles...) } }`. -/
def scopeRolesOf {α : Type} (scopeRoles : α → Option (List Role)) : List α → List Role
  | [] => []
  | x :: rest =>
    match scopeRoles x with
    | some roles => roles ++ scopeRolesOf scopeRoles rest
    | none => scopeRolesOf scopeRoles rest

/-- The epilogue of role `List`: map `allRoles` to resources, then marshal the bag. -/
def roleListFinish (allRoles : List Role) (bag : Bag) (sent : List Request) : ListResult :=
  match resourceLoop roleResource allRoles with
  | .error err => ⟨.error err, sent⟩
  | .ok rv =>
    match Bag.Marshal bag with
    | .error err => ⟨.error err, sent⟩
    | .ok pageToken => ⟨.ok (rv, pageToken), sent⟩

/-- Go `roleResourceType.List` (role.go lines 74-169). -/
def roleResourceType.List (r : roleResourceType) (remote : Remote)
    (_parentId : Option ResourceId) (pToken : Token) : ListResult :=
  match parsePageToken pToken { ResourceType := resourceTypeRole.Id, Resource := "" } with
  | .error err => ⟨.error err, []⟩
  | .ok (bag, page) =>
    if Bag.ResourceTypeID bag = resourceTypeRole.Id then
      let fetched := r.client.GetPredefinedRoles remote (some [(cursor, page)])
      match fetched.result with
      | .error err => ⟨.error (.wrapped "failed to list predefined roles" err), fetched.sent⟩
      | .ok (predefinedRoles, nextCursor) =>
        match Bag.Next bag nextCursor with
        | .error paginationErr => ⟨.error paginationErr, fetched.sent⟩
        | .ok bag1 =>
          let bag2 :=
            if nextCursor = "" then
              Bag.Push
                (Bag.Push (Bag.Pop bag1)
                  { Token := "", ResourceTypeID := resourceTypeUser.Id, ResourceID := "" })
                { Token := "", ResourceTypeID := resourceTypeServiceUser.Id, ResourceID := "" }
            else bag1
          roleListFinish predefinedRoles bag2 fetched.sent
    else if Bag.ResourceTypeID bag = resourceTypeUser.Id then
      -- we have to fetch all users and service users to get the custom roles
      let fetched := r.client.GetUsers remote (some [(cursor, page)])
      match fetched.result with
      | .error err =>
        ⟨.error (.wrapped "failed to get users for custom roles" err), fetched.sent⟩
      | .ok (users, nextCursor) =>
        match Bag.Next bag nextCursor with
        | .error paginationErr => ⟨.error paginationErr, fetched.sent⟩
        | .ok bag1 =>
          roleListFinish (scopeRolesOf User.ScopeRoles users) bag1 fetched.sent
    else if Bag.ResourceTypeID bag = resourceTypeServiceUser.Id then
      let fetched := r.client.GetServiceUsers remote (some [(cursor, page)])
      match fetched.result with
      | .error err =>
        ⟨.error (.wrapped "failed to get service users for custom roles" err), fetched.sent⟩
      | .ok (serviceUsers, nextCursor) =>
        match Bag.Next bag nextCursor with
        | .error paginationErr => ⟨.error paginationErr, fetched.sent⟩
        | .ok bag1 =>
          roleListFinish (scopeRolesOf ServiceUser.ScopeRoles serviceUsers) bag1 fetched.sent
    else
      ⟨.error (.text "unexpected resource type while fetching roles"), []⟩

/-- Go `roleResourceType.Grants` (role.go lines 191-264). -/
def roleResourceType.Grants (r : roleResourceType) (remote : Remote)
    (resource : Resource) (pToken : Token) : GrantsResult :=
  match parsePageToken pToken { ResourceType := resourceTypeRole.Id, Resource := "" } with
  | .error err => ⟨.error err, []⟩
  | .ok (bag, page) =>
    if Bag.ResourceTypeID bag = resourceTypeRole.Id then
      let bag1 := Bag.Pop bag
      let bag2 := Bag.Push bag1
        { Token := "", ResourceTypeID := resourceTypeUser.Id, ResourceID := "" }
      let bag3 := Bag.Push bag2
        { Token := "", ResourceTypeID := resourceTypeServiceUser.Id, ResourceID := "" }
      match Bag.Marshal bag3 with
      | .error err => ⟨.error err, []⟩
      | .ok pageToken => ⟨.ok ([], pageToken), []⟩
    else if Bag.ResourceTypeID bag = resourceTypeUser.Id then
      grantsPhase
        (r.client.GetUsers remote (some [(rolesFilter, resource.Id.Resource), (cursor, page)]))
        ("failed to list users for role " ++ resource.Id.Resource)
        ("error creating user resource for role " ++ resource.Id.Resource)
        (fun u => userResource u (some resource.Id)) (fun u => membershipsAt u.Scope)
        resource bag
    else if Bag.ResourceTypeID bag = resourceTypeServiceUser.Id then
      grantsPhase
        (r.client.GetServiceUsers remote
          (some [(rolesFilter, resource.Id.Resource), (cursor, page)]))
        ("failed to list service users for role " ++ resource.Id.Resource)
        ("error creating service user resource for role " ++ resource.Id.Resource)
        (fun u => serviceUserResource u (some resource.Id)) (fun u => membershipsAt u.Scope)
        resource bag
    else
      ⟨.error (.text "unexpected resource type while fetching grants for a role"), []⟩

/-! ## pkg/connector/site.go -/

def siteMembership : String := "member"

structure siteResourceType where
  resourceType : ResourceType
  client : Client

def siteBuilder (client : Client) : siteResourceType :=
  { resourceType := resourceTypeSite, client := client }

/-- Go `siteResourceType.List` (site.go lines 42-77). -/
def siteResourceType.List (s : siteResourceType) (remote : Remote)
    (parentId : Option ResourceId) (pToken : Token) : ListResult :=
  match parentId with
  | none => ⟨.ok ([], Token.empty), []⟩
  | some parent =>
    match parsePageToken pToken { ResourceType := resourceTypeSite.Id, Resource := "" } with
    | .error err => ⟨.error err, []⟩
    | .ok (bag, page) =>
      listPage (s.client.GetSites remote (some [(cursor, page)]))
        (fun err => .wrapped "failed to list sites" err)
        (fun x => siteResource x (some parent)) bag

/-- Go `siteResourceType.Grants` (site.go lines 97-174). -/
def siteResourceType.Grants (s : siteResourceType) (remote : Remote)
    (resource : Resource) (pToken : Token) : GrantsResult :=
  match parsePageToken pToken { ResourceType := resourceTypeSite.Id, Resource := "" } with
  | .error err => ⟨.error err, []⟩
  | .ok (bag, page) =>
    if Bag.ResourceTypeID bag = resourceTypeSite.Id then
      let bag1 := Bag.Pop bag
      let bag2 := Bag.Push bag1
        { Token := "", ResourceTypeID := resourceTypeUser.Id, ResourceID := "" }
      let bag3 := Bag.Push bag2
        { Token := "", ResourceTypeID := resourceTypeServiceUser.Id, ResourceID := "" }
      match Bag.Marshal bag3 with
      | .error err => ⟨.error err, []⟩
      | .ok pageToken => ⟨.ok ([], pageToken), []⟩
    else if Bag.ResourceTypeID bag = resourceTypeUser.Id then
      grantsPhase
        (s.client.GetUsers remote (some [(sitesFilter, resource.Id.Resource), (cursor, page)]))
        ("failed to list users for site " ++ resource.Id.Resource)
        ("error creating user resource for site " ++ resource.Id.Resource)
        (fun u => userResource u (some resource.Id)) (fun _ => siteMembership)
        resource bag
    else if Bag.ResourceTypeID bag = resourceTypeServiceUser.Id then
      grantsPhase
        (s.client.GetServiceUsers remote
          (some [(sitesFilter, resource.Id.Resource), (cursor, page)]))
        ("failed to list service users for site " ++ resource.Id.Resource)
        ("error creating service user resource for site " ++ resource.Id.Resource)
        (fun u => serviceUserResource u (some resource.Id)) (fun _ => siteMembership)
        resource bag
    else
      ⟨.error (.text "unexpected resource type while fetching grants for a site"), []⟩

/-! ## Entitlements (account.go, role.go, site.go, user.go, serviceUser.go)

`ent.NewAssignmentEntitlement(resource, name, opts...)` builds an entitlement
on `resource` whose slug is `name`; the three options the connector passes
(`WithGrantableTo`, `WithDisplayName`, `WithDescription`) are taken as
arguments. Every `Entitlements` function returns the empty next-page token and
a nil error and calls no client function, so it is embedded as the list it
returns. -/

structure Entitlement where
  Resource : Resource
  Slug : String
  DisplayName : String
  Description : String
  GrantableTo : List String
  Purpose : String
  deriving DecidableEq, Repr

def NewAssignmentEntitlement (resource : Resource) (name : String)
    (grantableTo : List ResourceType) (displayName description : String) : Entitlement :=
  { Resource := resource, Slug := name, DisplayName := displayName,
    Description := description, GrantableTo := grantableTo.map ResourceType.Id,
    Purpose := "PURPOSE_VALUE_ASSIGNMENT" }

/-- What an `Entitlements` call returns. -/
abbrev EntitlementsResult := List Entitlement

/-- Go `accountResourceType.Entitlements` (account.go lines 77-93). -/
def accountResourceType.Entitlements (_a : accountResourceType) (resource : Resource) :
    EntitlementsResult :=
  [NewAssignmentEntitlement resource accountMembership
    [resourceTypeUser, resourceTypeSite, resourceTypeServiceUser]
    (resource.DisplayName ++ " Account " ++ accountMembership)
    ("Access to " ++ resource.DisplayName ++ " account in SentinelOne")]

/-- Go `roleResourceType.Entitlements` (role.go lines 171-189): one entitlement
per value of the map `memberships`, appended in the order `order` in which the
`range` loop of the call visits the map. -/
def roleResourceType.Entitlements (_r : roleResourceType) (order : RangeOrder memberships)
    (resource : Resource) : EntitlementsResult :=
  order.visited.map fun kv =>
    NewAssignmentEntitlement resource kv.2 [resourceTypeUser, resourceTypeServiceUser]
      (resource.DisplayName ++ " Role with " ++ kv.2)
      (resource.DisplayName ++ " role in SentinelOne")

/-- Go `siteResourceType.Entitlements` (site.go lines 79-95). -/
def siteResourceType.Entitlements (_s : siteResourceType) (resource : Resource) :
    EntitlementsResult :=
  [NewAssignmentEntitlement resource siteMembership
    [resourceTypeUser, resourceTypeServiceUser]
    (resource.DisplayName ++ " Site " ++ siteMembership)
    ("Access to " ++ resource.DisplayName ++ " site in SentinelOne")]

/-- Go `userResourceType.Entitlements`. -/
def userResourceType.Entitlements (_u : userResourceType) (_resource : Resource) :
    EntitlementsResult :=
  []

/-- Go `serviceUserResourceType.Entitlements`. -/
def serviceUserResourceType.Entitlements (_s : serviceUserResourceType)
    (_resource : Resource) : EntitlementsResult :=
  []

/-! ## cmd/baton-sentinel-one/config.go -/

/-- The connector part of `config`. -/
structure Config where
  Token : String
  ManagementUrl : String
  deriving DecidableEq, Repr

/-- Go `validateConfig`: `none` is the nil error. -/
def validateConfig (cfg : Config) : Option Err :=
  if cfg.Token = "" then
    some (.text "api token must be provided")
  else if cfg.ManagementUrl = "" then
    some (.text "management console url must be provided")
  else
    none

/-! ## Specification-side vocabulary -/

/-- The pair (`RoleName`, `RoleID`) makes `roleResource` treat a record as a
predefined role: whatever the other fields hold, the resource's id and display
name are the record's `ID` and `Name`. -/
def usesPredefinedFields (roleName roleID : String) : Prop :=
  ∀ accountName id name : String, ∃ res,
    roleResource { AccountName := accountName, RoleName := roleName, RoleID := roleID,
                   ID := id, Name := name } = .ok res ∧
    res.Id.Resource = id ∧ res.DisplayName = name

/-- The request `doRequest` builds for an endpoint path and a parameter map. -/
def Client.requestFor (c : Client) (endpoint : String) (params : Option ParamsMap) : Request :=
  { Method := "GET", URL := c.baseUrl ++ endpoint, Query := queryOf params,
    Header := [("Accept", "application/json"), ("Authorization", "ApiToken " ++ c.token)] }

/-- What `doRequest` sends for an endpoint path and a parameter map: the one
request when `http.NewRequestWithContext` builds it, nothing when it refuses the
URL. -/
def Client.sentFor (c : Client) (remote : Remote) (endpoint : String)
    (params : Option ParamsMap) : List Request :=
  match remote.newRequest (c.baseUrl ++ endpoint) with
  | some _ => []
  | none => [c.requestFor endpoint params]

/-- What `doRequest` hands back for an endpoint path and a parameter map: the
error of `http.NewRequestWithContext`, or the answer to the request. -/
def Client.answerFor {β : Type} (c : Client) (remote : Remote)
    (exchange : Request → Except Err β) (endpoint : String) (params : Option ParamsMap) :
    Except Err β :=
  match remote.newRequest (c.baseUrl ++ endpoint) with
  | some err => .error err
  | none => exchange (c.requestFor endpoint params)

/-- The five client calls. -/
inductive Endpoint where
  | users
  | serviceUsers
  | accounts
  | sites
  | roles
  deriving DecidableEq, Repr

/-- The endpoint constant of each call. -/
def Endpoint.path : Endpoint → String
  | .users => usersEndpoint
  | .serviceUsers => serviceUsersEndpoint
  | .accounts => accountsEndpoint
  | .sites => sitesEndpoint
  | .roles => rolesEndpoint

/-- A traced result with the records replaced by their number. -/
def Traced.count {α β : Type} (t : Traced (List α × β)) : Traced (Nat × β) :=
  ⟨match t.result with
    | .error err => .error err
    | .ok (records, next) => .ok (records.length, next),
   t.sent⟩

/-- The client call of each endpoint (`GetUsers`, `GetServiceUsers`, `GetAccounts`,
`GetSites`, `GetPredefinedRoles`), the returned records counted. -/
def Endpoint.call (c : Client) (remote : Remote) (params : Option ParamsMap) :
    Endpoint → Traced (Nat × String)
  | .users => (c.GetUsers remote params).count
  | .serviceUsers => (c.GetServiceUsers remote params).count
  | .accounts => (c.GetAccounts remote params).count
  | .sites => (c.GetSites remote params).count
  | .roles => (c.GetPredefinedRoles remote params).count

/-- What `doRequest` hands back to each call: the request-building, transport
or decoding error, or the `errors` field and the `nextCursor` of the decoded
body. -/
def Endpoint.decoded (c : Client) (remote : Remote) (params : Option ParamsMap) :
    Endpoint → Except Err (Option (List Error) × String)
  | .users =>
    match (c.doRequest remote.newRequest remote.users (c.baseUrl ++ usersEndpoint)
        (queryOf params)).result with
    | .error err => .error err
    | .ok res => .ok (res.Errors, res.Pagination.NextCursor)
  | .serviceUsers =>
    match (c.doRequest remote.newRequest remote.serviceUsers
        (c.baseUrl ++ serviceUsersEndpoint) (queryOf params)).result with
    | .error err => .error err
    | .ok res => .ok (res.Errors, res.Pagination.NextCursor)
  | .accounts =>
    match (c.doRequest remote.newRequest remote.accounts (c.baseUrl ++ accountsEndpoint)
        (queryOf params)).result with
    | .error err => .error err
    | .ok res => .ok (res.Errors, res.Pagination.NextCursor)
  | .sites =>
    match (c.doRequest remote.newRequest remote.sites (c.baseUrl ++ sitesEndpoint)
        (queryOf params)).result with
    | .error err => .error err
    | .ok res => .ok (res.Errors, res.Pagination.NextCursor)
  | .roles =>
    match (c.doRequest remote.newRequest remote.roles (c.baseUrl ++ rolesEndpoint)
        (queryOf params)).result with
    | .error err => .error err
    | .ok res => .ok (res.Errors, res.Pagination.NextCursor)

/-- The order in which `Validate` is said to probe the endpoints, with the
message each failure is reported under. -/
def validateOrder : List (Endpoint × String) :=
  [(.accounts, "failed to get accounts"), (.sites, "failed to get sites"),
   (.users, "failed to get users"), (.serviceUsers, "failed to get service users"),
   (.roles, "failed to get roles")]

/-- Probe the endpoints of the list in order with `limit=1`; stop at the first
failure and report it wrapped under its message, the later endpoints not being
called. -/
def probeInOrder (c : Client) (remote : Remote) : List (Endpoint × String) → Traced Unit
  | [] => ⟨.ok (), []⟩
  | (e, name) :: rest =>
    let r := e.call c remote (some [("limit", "1")])
    match r.result with
    | .error err => ⟨.error (.wrapped name err), r.sent⟩
    | .ok _ =>
      let t := probeInOrder c remote rest
      ⟨t.result, r.sent ++ t.sent⟩

/-- A URL check for the examples: it refuses every URL that holds a `%`, as
`http.NewRequestWithContext` refuses an invalid escape such as `%zz`, and
accepts every other URL. -/
def refusePercent (url : String) : Option Err :=
  if url.data.contains '%' then some (.text "invalid URL escape") else none

/-- A management console that answers every request with one empty last page. -/
def emptyRemote : Remote :=
  { newRequest := refusePercent,
    users := fun _ => .ok ⟨⟨0, ""⟩, none, []⟩,
    serviceUsers := fun _ => .ok ⟨⟨0, ""⟩, none, []⟩,
    accounts := fun _ => .ok ⟨⟨0, ""⟩, none, []⟩,
    sites := fun _ => .ok ⟨⟨0, ""⟩, none, []⟩,
    roles := fun _ => .ok ⟨⟨0, ""⟩, none, []⟩ }

/-- A management console that answers every users request with HTTP 200 and an
in-band error, next to a record and a cursor. -/
def inbandErrorRemote : Remote :=
  { emptyRemote with
    users := fun _ => .ok
      ⟨⟨1, "next"⟩, some [⟨4010010, "Unauthorized access", "Authentication Failed"⟩],
       [⟨"a@example.com", "account", "1", none, "Ann Lee"⟩]⟩ }

/-- The three units whose `Grants` walks a stack of states. -/
inductive TraversalUnit where
  | account
  | role
  | site
  deriving DecidableEq, Repr

/-- The root state of a unit. -/
def TraversalUnit.root : TraversalUnit → String
  | .account => "account"
  | .role => "role"
  | .site => "site"

/-- The filter parameter a unit scopes its child fetches with. -/
def TraversalUnit.filter : TraversalUnit → String
  | .account => accountsFilter
  | .role => rolesFilter
  | .site => sitesFilter

/-- `Grants` of the unit built on the client `c`. -/
def TraversalUnit.Grants (u : TraversalUnit) (c : Client) (remote : Remote)
    (resource : Resource) (pToken : Token) : GrantsResult :=
  match u with
  | .account => (accountBuilder c).Grants remote resource pToken
  | .role => (roleBuilder c).Grants remote resource pToken
  | .site => (siteBuilder c).Grants remote resource pToken

/-- The client call `Grants` of a unit makes in the child state `state` with the
cursor `page` (records counted); `none` when `state` is not a child state of
the unit. -/
def TraversalUnit.fetch (u : TraversalUnit) (c : Client) (remote : Remote)
    (resource : Resource) (state page : String) : Option (Traced (Nat × String)) :=
  let params : Option ParamsMap := some [(u.filter, resource.Id.Resource), (cursor, page)]
  if state = "user" then some (Endpoint.users.call c remote params)
  else if state = "service_user" then some (Endpoint.serviceUsers.call c remote params)
  else if state = "site" ∧ u = .account then some (Endpoint.sites.call c remote params)
  else none

/-- The operations that dispatch on the current frame of the page token. -/
inductive StackOperation where
  | accountGrants
  | roleGrants
  | siteGrants
  | roleList
  deriving DecidableEq, Repr

/-- The resource types each operation is said to handle. -/
def StackOperation.handled : StackOperation → List String
  | .accountGrants => ["account", "user", "service_user", "site"]
  | .roleGrants => ["role", "user", "service_user"]
  | .siteGrants => ["site", "user", "service_user"]
  | .roleList => ["role", "user", "service_user"]

/-- Run the operation on the client `c` (grants or resources counted). -/
def StackOperation.run (op : StackOperation) (c : Client) (remote : Remote)
    (resource : Resource) (parentId : Option ResourceId) (pToken : Token) :
    Traced (Nat × Token) :=
  match op with
  | .accountGrants => ((accountBuilder c).Grants remote resource pToken).count
  | .roleGrants => ((roleBuilder c).Grants remote resource pToken).count
  | .siteGrants => ((siteBuilder c).Grants remote resource pToken).count
  | .roleList => ((roleBuilder c).List remote parentId pToken).count

/-- The state a call dispatches on: the resource type of the current frame
after `parsePageToken` (`""` when the token does not decode). -/
def stateOf (root : String) (pToken : Token) : String :=
  match parsePageToken pToken { ResourceType := root, Resource := "" } with
  | .error _ => ""
  | .ok (bag, _) => Bag.ResourceTypeID bag

/-- The record of a traversal: the states of the calls in order, and whether
the traversal ended on an empty page token. -/
structure Traversal where
  visited : List String
  finished : Bool
  deriving DecidableEq, Repr

/-- Modelled from the spec: the caller's loop ("the caller ... owns the
page-token between calls"; "stack empty ⇒ traversal for this resource instance
is complete; caller must stop requesting further pages"). It calls `grants`
with the token, feeds each returned token back, and stops on the empty token or
on an error; `fuel` bounds the number of calls. -/
def traverse (root : String) (grants : Token → GrantsResult) : Nat → Token → Traversal
  | 0, _ => ⟨[], false⟩
  | fuel + 1, pToken =>
    match (grants pToken).result with
    | .error _ => ⟨[stateOf root pToken], false⟩
    | .ok (_, next) =>
      if next = Token.empty then ⟨[stateOf root pToken], true⟩
      else
        let t := traverse root grants fuel next
        ⟨stateOf root pToken :: t.visited, t.finished⟩

/-- The listing served by `fetch` from the cursor `page` on ends after exactly
`n` pages: each of the first `n - 1` pages comes back with a non-empty
`nextCursor`, which is the cursor of the next request, and the `n`-th with the
empty one. -/
def endsAfter (fetch : String → Option (Traced (Nat × String))) : Nat → String → Bool
  | 0, _ => false
  | n + 1, page =>
    match fetch page with
    | none => false
    | some t =>
      match t.result with
      | .error _ => false
      | .ok (_, next) => if next = "" then n == 0 else endsAfter fetch n next

/-- The order of states the specification gives for the account unit. -/
def statedOrder (pu ps pt : Nat) : List String :=
  "account" :: (List.replicate pu "user" ++ List.replicate ps "service_user" ++
    List.replicate pt "site")

/-- The cursor parameter of a request (`""` when absent). -/
def Request.cursorParam (req : Request) : String :=
  match (req.Query.getD []).lookup cursor with
  | some (v :: _) => v
  | _ => ""

/-- A management console with one page of users, one page of service users and
two pages of sites. -/
def pagedRemote : Remote :=
  { emptyRemote with
    users := fun _ => .ok ⟨⟨1, ""⟩, none, [⟨"a@example.com", "account", "u1", none, "Ann Lee"⟩]⟩,
    sites := fun req =>
      if req.cursorParam = "" then .ok ⟨⟨2, "page2"⟩, none, [⟨"", "s1", "HQ", "Paid", "acc1"⟩]⟩
      else .ok ⟨⟨2, ""⟩, none, [⟨"", "s2", "Lab", "Trial", "acc1"⟩]⟩ }

/-- An account resource and a client for the examples. -/
def exampleAccount : Resource :=
  { Id := { ResourceType := "account", Resource := "acc1" }, ParentResourceId := none,
    DisplayName := "Acme", Annotations := [] }

def exampleClient : Client := { token := "t", baseUrl := "https://host.example/" }

/-- The frame stack after a child fetch came back with the cursor `next`. -/
def advance (cur : PageState) (rest : List PageState) (next : String) : List PageState :=
  if next ≠ "" then { cur with Token := next } :: rest else rest

/-- The query holds the pair `key=value`. -/
def Values.holds (vs : Values) (key value : String) : Bool :=
  vs.any fun kv => kv.1 == key && kv.2.contains value

/-- What a client call is said to return, given what `doRequest` handed back:
the transport or decoding error; a failure naming the operation when the
decoded `errors` field is non-nil; otherwise the decoded records and the
decoded `nextCursor`. -/
def expectedGet {R T : Type} (operation : String) (errorsOf : R → Option (List Error))
    (dataOf : R → List T) (cursorOf : R → String) (decoded : Except Err R) :
    Except Err (List T × String) :=
  match decoded with
  | .error err => .error err
  | .ok res =>
    match errorsOf res with
    | some errs => .error (.text ("failed to get " ++ operation ++ ": " ++ formatErrors errs))
    | none => .ok (dataOf res, cursorOf res)

/-- A management console whose users body carries `"errors": []`, a present but
empty array, next to one record. -/
def emptyErrorsRemote : Remote :=
  { emptyRemote with
    users := fun _ => .ok
      ⟨⟨1, "next"⟩, some [], [⟨"a@example.com", "account", "1", none, "Ann Lee"⟩]⟩ }

/-- A management console whose users body carries one record and a cursor
and no `errors` key. -/
def nextPageRemote : Remote :=
  { emptyRemote with
    users := fun _ => .ok
      ⟨⟨1, "next"⟩, none, [⟨"a@example.com", "account", "1", none, "Ann Lee"⟩]⟩ }

/-- What `Grants` reads of a fetched record: its id and its scope (`""` for a
site, which has none). -/
structure Holder where
  ID : String
  Scope : String
  deriving DecidableEq, Repr

/-- A traced page with every record replaced by its image under `f`. -/
def Traced.mapRecords {α β γ : Type} (f : α → β) (t : Traced (List α × γ)) :
    Traced (List β × γ) :=
  ⟨match t.result with
    | .error err => .error err
    | .ok (records, next) => .ok (records.map f, next),
   t.sent⟩

/-- The client call `Grants` of a unit makes in the child state `state` with the
cursor `page`, every record reduced to its id and scope; `none` when `state` is
not a child state of the unit. -/
def TraversalUnit.fetchHolders (u : TraversalUnit) (c : Client) (remote : Remote)
    (resource : Resource) (state page : String) : Option (Traced (List Holder × String)) :=
  let params : Option ParamsMap := some [(u.filter, resource.Id.Resource), (cursor, page)]
  if state = "user" then
    some ((c.GetUsers remote params).mapRecords fun x => ⟨x.ID, x.Scope⟩)
  else if state = "service_user" then
    some ((c.GetServiceUsers remote params).mapRecords fun x => ⟨x.ID, x.Scope⟩)
  else if state = "site" ∧ u = .account then
    some ((c.GetSites remote params).mapRecords fun x => ⟨x.ID, ""⟩)
  else none

/-- `Entitlements` of the unit built on the client `c`; `order` is the order in
which the role unit ranges over `memberships` (the account and site units range
over no map). -/
def TraversalUnit.Entitlements (u : TraversalUnit) (c : Client)
    (order : RangeOrder memberships) (resource : Resource) : EntitlementsResult :=
  match u with
  | .account => (accountBuilder c).Entitlements resource
  | .role => (roleBuilder c).Entitlements order resource
  | .site => (siteBuilder c).Entitlements resource

/-- Another visiting order of `memberships`: tenant, account, site. -/
def tenantFirstOrder : RangeOrder memberships :=
  ⟨[("tenant", scopeTenantMember), ("account", scopeAccountMember),
    ("site", scopeSiteMember)], by decide⟩

/-- The entitlement name `Grants` of a unit gives to a holder: the membership
constant of the account and site units, `memberships[scope]` for the role unit. -/
def TraversalUnit.membership (u : TraversalUnit) (h : Holder) : String :=
  match u with
  | .account => accountMembership
  | .role => membershipsAt h.Scope
  | .site => siteMembership

/-- A role resource for the examples. -/
def exampleRole : Resource :=
  { Id := { ResourceType := "role", Resource := "42" }, ParentResourceId := none,
    DisplayName := "Admin", Annotations := [] }

/-- A management console with one page of two users, one of scope "site" and
one of scope "global". -/
def scopedRemote : Remote :=
  { emptyRemote with
    users := fun _ => .ok
      ⟨⟨2, ""⟩, none, [⟨"a@example.com", "site", "u1", none, "Ann Lee"⟩,
                      ⟨"b@example.com", "global", "u2", none, "Bo Chen"⟩]⟩ }

/-- The five traversal units. -/
inductive ResourceUnit where
  | account
  | user
  | serviceUser
  | role
  | site
  deriving DecidableEq, Repr

/-- The two paged operations of a unit. -/
inductive PagedCall where
  | list
  | grants
  deriving DecidableEq, Repr

/-- `List` or `Grants` of the unit built on the client `c` (resources or grants
counted). -/
def ResourceUnit.run (unit : ResourceUnit) (call : PagedCall) (c : Client) (remote : Remote)
    (resource : Resource) (parentId : Option ResourceId) (pToken : Token) :
    Traced (Nat × Token) :=
  match unit, call with
  | .account, .list => ((accountBuilder c).List remote parentId pToken).count
  | .account, .grants => ((accountBuilder c).Grants remote resource pToken).count
  | .user, .list => ((userBuilder c).List remote parentId pToken).count
  | .user, .grants => ((userBuilder c).Grants remote resource pToken).count
  | .serviceUser, .list => ((serviceUserBuilder c).List remote parentId pToken).count
  | .serviceUser, .grants => ((serviceUserBuilder c).Grants remote resource pToken).count
  | .role, .list => ((roleBuilder c).List remote parentId pToken).count
  | .role, .grants => ((roleBuilder c).Grants remote resource pToken).count
  | .site, .list => ((siteBuilder c).List remote parentId pToken).count
  | .site, .grants => ((siteBuilder c).Grants remote resource pToken).count

/-- The page token decodes to a stack of frames. -/
def Token.decodes : Token → Bool
  | .frames _ => true
  | .garbled _ => false

/-- The calls that reach a client function: `List` of the account unit on a
token that decodes; `List` of the user, service-user and site units with a
parent id on a token that decodes; `List` of the role unit in the role, user or
service_user state; `Grants` of the account unit in the user, service_user or
site state; `Grants` of the role and site units in the user or service_user
state. `Grants` of the user and service-user units never does. -/
def ResourceUnit.reachesClient (unit : ResourceUnit) (call : PagedCall)
    (parentId : Option ResourceId) (pToken : Token) : Bool :=
  match unit, call with
  | .account, .list => pToken.decodes
  | .user, .list => parentId.isSome && pToken.decodes
  | .serviceUser, .list => parentId.isSome && pToken.decodes
  | .site, .list => parentId.isSome && pToken.decodes
  | .role, .list =>
    stateOf "role" pToken == "role" || stateOf "role" pToken == "user" ||
      stateOf "role" pToken == "service_user"
  | .account, .grants =>
    stateOf "account" pToken == "user" || stateOf "account" pToken == "service_user" ||
      stateOf "account" pToken == "site"
  | .role, .grants =>
    stateOf "role" pToken == "user" || stateOf "role" pToken == "service_user"
  | .site, .grants =>
    stateOf "site" pToken == "user" || stateOf "site" pToken == "service_user"
  | .user, .grants => false
  | .serviceUser, .grants => false

/-- A management console whose sites listing is one page holding a site of the
account "acc2". -/
def foreignSiteRemote : Remote :=
  { emptyRemote with
    sites := fun _ => .ok ⟨⟨1, ""⟩, none, [⟨"", "s2", "Lab", "Trial", "acc2"⟩]⟩ }

/-- The child states of a unit, in the order its root state pushes them. -/
def TraversalUnit.children : TraversalUnit → List String
  | .account => ["user", "service_user", "site"]
  | .role => ["user", "service_user"]
  | .site => ["user", "service_user"]

/-- The page counts of `pagedRemote`: two pages of sites, one page of users and
of service users. -/
def pagedRemotePages (state : String) : Nat :=
  if state = "site" then 2 else 1

/-- The record of a `List` traversal: the resources returned by the calls, in
order; the requests sent, in order; whether the traversal ended on an empty page
token. -/
structure Listing where
  resources : List Resource
  sent : List Request
  finished : Bool

/-- Modelled from the spec: the caller's loop around `List` ("the caller ... owns
the page-token between calls"; an empty token ends the traversal). It calls
`list` with the token, feeds each returned token back, and stops on the empty
token or on an error; `fuel` bounds the number of calls. -/
def listTraversal (list : Token → ListResult) : Nat → Token → Listing
  | 0, _ => ⟨[], [], false⟩
  | fuel + 1, pToken =>
    match (list pToken).result with
    | .error _ => ⟨[], (list pToken).sent, false⟩
    | .ok (rs, next) =>
      if next = Token.empty then ⟨rs, (list pToken).sent, true⟩
      else
        let t := listTraversal list fuel next
        ⟨rs ++ t.resources, (list pToken).sent ++ t.sent, t.finished⟩

/-- The pages of the listing served by `fetch` from the cursor `page` on, when
it ends after exactly `n` pages: for each page the cursor it was requested with
and its records. -/
def pagesFrom {α : Type} (fetch : String → Traced (List α × String)) :
    Nat → String → Option (List (String × List α))
  | 0, _ => none
  | n + 1, page =>
    match (fetch page).result with
    | .error _ => none
    | .ok (records, next) =>
      if next = "" then (if n = 0 then some [(page, records)] else none)
      else
        match pagesFrom fetch n next with
        | none => none
        | some rest => some ((page, records) :: rest)

/-- All records of a list of pages, in page order. -/
def recordsOf {α : Type} (pages : List (String × List α)) : List α :=
  (pages.map Prod.snd).flatten

/-- Every entry of the `scope_roles` of every record, in the order of the
records and, within a record, in the order of its entries (a record without
`scope_roles` contributes none). -/
def scopeRoleEntries {α : Type} (scopeRoles : α → Option (List Role)) (records : List α) :
    List Role :=
  (records.map fun x => (scopeRoles x).getD []).flatten

/-- The number of scope roles a list of records holds. -/
def scopeRoleCount {α : Type} (scopeRoles : α → Option (List Role)) (records : List α) : Nat :=
  (records.map fun x => ((scopeRoles x).getD []).length).sum

/-- A management console with two pages of predefined roles, one page of two
service users and one page of one user, each carrying scope roles. -/
def rolesRemote : Remote :=
  { emptyRemote with
    roles := fun req =>
      if req.cursorParam = "" then .ok ⟨⟨2, "r2"⟩, none, [⟨"", "", "", "7", "Viewer"⟩]⟩
      else .ok ⟨⟨2, ""⟩, none, [⟨"", "", "", "8", "Admin"⟩]⟩,
    serviceUsers := fun _ => .ok
      ⟨⟨2, ""⟩, none,
       [⟨"su1", "", "Bot One", some [⟨"Acme", "IR Team", "42", "", ""⟩], "account"⟩,
        ⟨"su2", "", "Bot Two", none, "site"⟩]⟩,
    users := fun _ => .ok
      ⟨⟨1, ""⟩, none,
       [⟨"a@example.com", "account", "u1",
         some [⟨"Acme", "IR Team", "42", "", ""⟩, ⟨"Acme", "SOC", "43", "", ""⟩],
         "Ann Lee"⟩]⟩ }

/-- The client call a `List` or `Grants` call reaches, if any: the endpoint it
requests. `List` of the account unit requests accounts on a token that decodes;
`List` of the user, service-user and site units requests its own endpoint with
a parent id on a token that decodes; `List` of the role unit requests roles,
users or service users in the role, user or service_user state; `Grants` of
the account unit requests users, service users or sites in the user,
service_user or site state; `Grants` of the role and site units requests users
or service users in the user or service_user state. Every other call reaches no
client function. -/
def ResourceUnit.requested (unit : ResourceUnit) (call : PagedCall)
    (parentId : Option ResourceId) (pToken : Token) : Option Endpoint :=
  match unit, call with
  | .account, .list => if pToken.decodes = true then some .accounts else none
  | .user, .list =>
    if parentId.isSome = true ∧ pToken.decodes = true then some .users else none
  | .serviceUser, .list =>
    if parentId.isSome = true ∧ pToken.decodes = true then some .serviceUsers else none
  | .site, .list =>
    if parentId.isSome = true ∧ pToken.decodes = true then some .sites else none
  | .role, .list =>
    if stateOf "role" pToken = "role" then some .roles
    else if stateOf "role" pToken = "user" then some .users
    else if stateOf "role" pToken = "service_user" then some .serviceUsers
    else none
  | .account, .grants =>
    if stateOf "account" pToken = "user" then some .users
    else if stateOf "account" pToken = "service_user" then some .serviceUsers
    else if stateOf "account" pToken = "site" then some .sites
    else none
  | .role, .grants =>
    if stateOf "role" pToken = "user" then some .users
    else if stateOf "role" pToken = "service_user" then some .serviceUsers
    else none
  | .site, .grants =>
    if stateOf "site" pToken = "user" then some .users
    else if stateOf "site" pToken = "service_user" then some .serviceUsers
    else none
  | .user, .grants => none
  | .serviceUser, .grants => none

/-- The number of requests the client call of an endpoint sends: one when
`http.NewRequestWithContext` accepts the URL of the endpoint, none when it
refuses it; none without a client call. -/
def Client.requestCountFor (c : Client) (remote : Remote) : Option Endpoint → Nat
  | none => 0
  | some e => if (remote.newRequest (c.baseUrl ++ e.path)).isNone = true then 1 else 0

/-- The number of requests a call is said to send: one when it reaches a client
function and `http.NewRequestWithContext` accepts the URL of the endpoint, none
otherwise. -/
def ResourceUnit.requestCount (unit : ResourceUnit) (call : PagedCall) (c : Client)
    (remote : Remote) (parentId : Option ResourceId) (pToken : Token) : Nat :=
  c.requestCountFor remote (unit.requested call parentId pToken)

/-- A client whose base URL holds the invalid escape `%zz`. -/
def badUrlClient : Client := { token := "t", baseUrl := "https://host.example/%zz/" }

/-! ## Theorems -/

theorem roleResource_scope (role : Role) (h : role.RoleName ≠ "" ∧ role.RoleID ≠ "") :
    roleResource role = .ok
      { Id := { ResourceType := "role", Resource := role.RoleID }, ParentResourceId := none,
        DisplayName := role.RoleName,
        Annotations := [Anno.RoleTrait [RoleTraitOption.WithRoleProfile
          [("role_name", role.RoleName), ("role_id", role.RoleID)]]] } := by
  simp [roleResource, NewRoleResource, NewResource, h, resourceTypeRole]

theorem roleResource_predefined (role : Role) (h : ¬ (role.RoleName ≠ "" ∧ role.RoleID ≠ "")) :
    roleResource role = .ok
      { Id := { ResourceType := "role", Resource := role.ID }, ParentResourceId := none,
        DisplayName := role.Name,
        Annotations := [Anno.RoleTrait [RoleTraitOption.WithRoleProfile
          [("role_name", role.Name), ("role_id", role.ID)]]] } := by
  simp only [roleResource, NewRoleResource, NewResource, resourceTypeRole, if_neg h]

/-- C2: for every role record `roleResource` succeeds with a resource of type
`role` whose id, display name and profile entries `role_id` / `role_name` are
`RoleID` and `RoleName` when both are non-empty, and `ID` and `Name` in every
other case; the two records of the specification map to ("42", "Admin") and
("7", "Viewer"). -/
theorem roleResource_selects_fields (role : Role) :
    (∃ res, roleResource role = .ok res ∧ res.Id.ResourceType = "role" ∧
      ((role.RoleName ≠ "" ∧ role.RoleID ≠ "" ∧
          res.Id.Resource = role.RoleID ∧ res.DisplayName = role.RoleName ∧
          res.Annotations = [Anno.RoleTrait [RoleTraitOption.WithRoleProfile
            [("role_name", role.RoleName), ("role_id", role.RoleID)]]]) ∨
       (¬ (role.RoleName ≠ "" ∧ role.RoleID ≠ "") ∧
          res.Id.Resource = role.ID ∧ res.DisplayName = role.Name ∧
          res.Annotations = [Anno.RoleTrait [RoleTraitOption.WithRoleProfile
            [("role_name", role.Name), ("role_id", role.ID)]]]))) ∧
    (∀ accountName id name, ∃ res,
      roleResource { AccountName := accountName, RoleName := "Admin", RoleID := "42",
                     ID := id, Name := name } = .ok res ∧
      res.Id.Resource = "42" ∧ res.DisplayName = "Admin") ∧
    (∀ accountName, ∃ res,
      roleResource { AccountName := accountName, RoleName := "", RoleID := "",
                     ID := "7", Name := "Viewer" } = .ok res ∧
      res.Id.Resource = "7" ∧ res.DisplayName = "Viewer") := by
  refine ⟨?_, ?_, ?_⟩
  · by_cases h : role.RoleName ≠ "" ∧ role.RoleID ≠ ""
    · exact ⟨_, roleResource_scope role h, rfl, Or.inl ⟨h.1, h.2, rfl, rfl, rfl⟩⟩
    · exact ⟨_, roleResource_predefined role h, rfl, Or.inr ⟨h, rfl, rfl, rfl⟩⟩
  · intro accountName id name
    exact ⟨_, roleResource_scope _ ⟨by simp, by simp⟩, rfl, rfl⟩
  · intro accountName
    exact ⟨_, roleResource_predefined _ (fun h => h.1 rfl), rfl, rfl⟩

/-- C3, as stated, fails: with `RoleName = "Admin"` and `RoleID = ""` the record
is treated as a predefined role (id and name come from `ID` and `Name`) although
the two scope fields are not both empty. -/
theorem predefined_iff_both_empty_fails :
    ¬ (∀ roleName roleID : String,
        usesPredefinedFields roleName roleID ↔ (roleName = "" ∧ roleID = "")) := by
  intro h
  have hp : usesPredefinedFields "Admin" "" := by
    intro accountName id name
    exact ⟨_, roleResource_predefined _ (fun h => h.2 rfl), rfl, rfl⟩
  exact absurd ((h "Admin" "").mp hp).1 (by decide)

/-- C3, amended: `roleResource` treats a record as a predefined role (takes id
and name from `ID` and `Name`) if and only if `RoleName` or `RoleID` is empty. -/
theorem predefined_iff_some_empty (roleName roleID : String) :
    usesPredefinedFields roleName roleID ↔ (roleName = "" ∨ roleID = "") := by
  constructor
  · intro h
    by_contra hne
    push_neg at hne
    obtain ⟨res, hres, hid, _⟩ := h "" (roleID ++ "x") ""
    rw [roleResource_scope _ hne] at hres
    injection hres with hres
    subst hres
    have hlen := congrArg String.length hid
    simp [String.length_append] at hlen
    exact absurd hlen (by decide)
  · intro h accountName id name
    have hc : ¬ (roleName ≠ "" ∧ roleID ≠ "") := by
      rintro ⟨h1, h2⟩
      rcases h with h | h
      · exact h1 h
      · exact h2 h
    exact ⟨_, roleResource_predefined _ hc, rfl, rfl⟩

/-- C9: `validateConfig` reports an error exactly when the API token or the
management-console URL is empty, returns nil exactly when both are non-empty,
and reports the API-token error whenever the token is empty, in particular
when both are empty. -/
theorem validateConfig_error_iff (cfg : Config) :
    ((∃ err, validateConfig cfg = some err) ↔ (cfg.Token = "" ∨ cfg.ManagementUrl = "")) ∧
    (validateConfig cfg = none ↔ (cfg.Token ≠ "" ∧ cfg.ManagementUrl ≠ "")) ∧
    validateConfig { Token := "", ManagementUrl := cfg.ManagementUrl } =
      some (.text "api token must be provided") ∧
    validateConfig { Token := "", ManagementUrl := "" } =
      some (.text "api token must be provided") := by
  refine ⟨?_, ?_, ?_, ?_⟩
  · by_cases ht : cfg.Token = "" <;> by_cases hu : cfg.ManagementUrl = "" <;>
      simp [validateConfig, ht, hu]
  · by_cases ht : cfg.Token = "" <;> by_cases hu : cfg.ManagementUrl = "" <;>
      simp [validateConfig, ht, hu]
  · simp [validateConfig]
  · simp [validateConfig]

/-- C6: called without a parent id, the `List` operation of the user,
service-user and site units returns no resources, the empty page token and no
error, and sends no request, for every page token, including one that does not
decode. -/
theorem list_without_parent (c : Client) (remote : Remote) (pToken : Token) :
    (userBuilder c).List remote none pToken = ⟨.ok ([], Token.empty), []⟩ ∧
    (serviceUserBuilder c).List remote none pToken = ⟨.ok ([], Token.empty), []⟩ ∧
    (siteBuilder c).List remote none pToken = ⟨.ok ([], Token.empty), []⟩ ∧
    (userBuilder c).List remote none (.garbled "not a token") = ⟨.ok ([], Token.empty), []⟩ :=
  ⟨rfl, rfl, rfl, rfl⟩

/-! ### The client -/

theorem doRequest_eq {β : Type} (c : Client) (remote : Remote)
    (exchange : Request → Except Err β) (endpoint : String) (params : Option ParamsMap) :
    c.doRequest remote.newRequest exchange (c.baseUrl ++ endpoint) (queryOf params) =
      ⟨c.answerFor remote exchange endpoint params, c.sentFor remote endpoint params⟩ := by
  unfold Client.doRequest Client.answerFor Client.sentFor Client.requestFor
  cases remote.newRequest (c.baseUrl ++ endpoint) with
  | some err => rfl
  | none =>
    simp only []
    split <;> simp [*]

theorem sentFor_ite (c : Client) (remote : Remote) (endpoint : String)
    (params : Option ParamsMap) :
    c.sentFor remote endpoint params =
      if (remote.newRequest (c.baseUrl ++ endpoint)).isNone = true then
        [c.requestFor endpoint params]
      else [] := by
  unfold Client.sentFor
  cases remote.newRequest (c.baseUrl ++ endpoint) <;> rfl

theorem sentFor_of_ok {β : Type} (c : Client) (remote : Remote)
    (exchange : Request → Except Err β) (endpoint : String) (params : Option ParamsMap)
    (res : β) (h : c.answerFor remote exchange endpoint params = .ok res) :
    c.sentFor remote endpoint params = [c.requestFor endpoint params] := by
  unfold Client.answerFor at h
  unfold Client.sentFor
  cases hn : remote.newRequest (c.baseUrl ++ endpoint) with
  | some err => simp [hn] at h
  | none => rfl

theorem GetUsers_sent (c : Client) (remote : Remote) (params : Option ParamsMap) :
    (c.GetUsers remote params).sent = c.sentFor remote usersEndpoint params := by
  unfold Client.GetUsers
  simp only [doRequest_eq]
  split
  · rfl
  · split
    · rfl
    · split <;> rfl

theorem GetServiceUsers_sent (c : Client) (remote : Remote) (params : Option ParamsMap) :
    (c.GetServiceUsers remote params).sent = c.sentFor remote serviceUsersEndpoint params := by
  unfold Client.GetServiceUsers
  simp only [doRequest_eq]
  split
  · rfl
  · split
    · rfl
    · split <;> rfl

theorem GetAccounts_sent (c : Client) (remote : Remote) (params : Option ParamsMap) :
    (c.GetAccounts remote params).sent = c.sentFor remote accountsEndpoint params := by
  unfold Client.GetAccounts
  simp only [doRequest_eq]
  split
  · rfl
  · split
    · rfl
    · split <;> rfl

theorem GetSites_sent (c : Client) (remote : Remote) (params : Option ParamsMap) :
    (c.GetSites remote params).sent = c.sentFor remote sitesEndpoint params := by
  unfold Client.GetSites
  simp only [doRequest_eq]
  split
  · rfl
  · split
    · rfl
    · split <;> rfl

theorem GetPredefinedRoles_sent (c : Client) (remote : Remote) (params : Option ParamsMap) :
    (c.GetPredefinedRoles remote params).sent = c.sentFor remote rolesEndpoint params := by
  unfold Client.GetPredefinedRoles
  simp only [doRequest_eq]
  split
  · rfl
  · split
    · rfl
    · split <;> rfl

theorem Endpoint.call_sent (e : Endpoint) (c : Client) (remote : Remote)
    (params : Option ParamsMap) :
    (e.call c remote params).sent = c.sentFor remote e.path params := by
  cases e <;> simp only [Endpoint.call, Traced.count, Endpoint.path, GetUsers_sent,
    GetServiceUsers_sent, GetAccounts_sent, GetSites_sent, GetPredefinedRoles_sent]

theorem Join_example :
    path.Join ["https://host.example", "web/api/v2.1/"] = "https:/host.example/web/api/v2.1" := by
  decide

/-- C4 at the base URL "https://host.example": the client built by `New` hands
"https:/host.example/web/api/v2.1" followed directly by the endpoint (for users:
"https:/host.example/web/api/v2.1users") to `http.NewRequestWithContext` and
sends its GET request there whenever that URL is accepted (nothing is sent
otherwise); this is not the base URL followed by "/web/api/v2.1/" and the
endpoint. -/
theorem New_request_url_at_example (remote : Remote) (params : Option ParamsMap)
    (token : String) (e : Endpoint) :
    ∃ s, New (.ok ()) "https://host.example" token = .ok s ∧
      (e.call s.client remote params).sent.map Request.URL =
        (if (remote.newRequest ("https:/host.example/web/api/v2.1" ++ e.path)).isNone = true
          then ["https:/host.example/web/api/v2.1" ++ e.path] else []) ∧
      (s.client.GetUsers remote params).sent.map Request.URL =
        (if (remote.newRequest "https:/host.example/web/api/v2.1users").isNone = true
          then ["https:/host.example/web/api/v2.1users"] else []) ∧
      "https:/host.example/web/api/v2.1" ++ e.path ≠
        "https://host.example" ++ "/web/api/v2.1/" ++ e.path := by
  refine ⟨_, rfl, ?_, ?_, ?_⟩
  · rw [Endpoint.call_sent, sentFor_ite]
    simp only [NewClient, Join_example]
    split <;> simp [Client.requestFor]
  · rw [GetUsers_sent, sentFor_ite]
    simp only [NewClient, Join_example,
      show "https:/host.example/web/api/v2.1" ++ usersEndpoint =
        "https:/host.example/web/api/v2.1users" by decide]
    split <;> simp [Client.requestFor]
    decide
  · cases e <;> decide

/-- C5: for each of the five client calls, when the request and the decoding
succeed and the decoded body carries a non-empty `errors` array, the call
returns an error (so no records and no cursor), whatever data and pagination
the body holds; the one request has been sent. -/
theorem get_fails_on_inband_errors (e : Endpoint) (c : Client) (remote : Remote)
    (params : Option ParamsMap) (errs : List Error) (next : String)
    (hdecoded : e.decoded c remote params = .ok (some errs, next)) (_hne : errs ≠ []) :
    (∃ err, (e.call c remote params).result = .error err) ∧
    (e.call c remote params).sent = [c.requestFor e.path params] := by
  cases e
  · simp only [Endpoint.decoded, doRequest_eq] at hdecoded
    cases ha : c.answerFor remote remote.users usersEndpoint params with
    | error err => simp [ha] at hdecoded
    | ok res =>
      simp only [ha, Except.ok.injEq, Prod.mk.injEq] at hdecoded
      refine ⟨?_, ?_⟩
      · simp [Endpoint.call, Traced.count, Client.GetUsers, doRequest_eq, ha, hdecoded.1]
      · rw [Endpoint.call_sent]
        exact sentFor_of_ok c remote remote.users usersEndpoint params res ha
  · simp only [Endpoint.decoded, doRequest_eq] at hdecoded
    cases ha : c.answerFor remote remote.serviceUsers serviceUsersEndpoint params with
    | error err => simp [ha] at hdecoded
    | ok res =>
      simp only [ha, Except.ok.injEq, Prod.mk.injEq] at hdecoded
      refine ⟨?_, ?_⟩
      · simp [Endpoint.call, Traced.count, Client.GetServiceUsers, doRequest_eq, ha, hdecoded.1]
      · rw [Endpoint.call_sent]
        exact sentFor_of_ok c remote remote.serviceUsers serviceUsersEndpoint params res ha
  · simp only [Endpoint.decoded, doRequest_eq] at hdecoded
    cases ha : c.answerFor remote remote.accounts accountsEndpoint params with
    | error err => simp [ha] at hdecoded
    | ok res =>
      simp only [ha, Except.ok.injEq, Prod.mk.injEq] at hdecoded
      refine ⟨?_, ?_⟩
      · simp [Endpoint.call, Traced.count, Client.GetAccounts, doRequest_eq, ha, hdecoded.1]
      · rw [Endpoint.call_sent]
        exact sentFor_of_ok c remote remote.accounts accountsEndpoint params res ha
  · simp only [Endpoint.decoded, doRequest_eq] at hdecoded
    cases ha : c.answerFor remote remote.sites sitesEndpoint params with
    | error err => simp [ha] at hdecoded
    | ok res =>
      simp only [ha, Except.ok.injEq, Prod.mk.injEq] at hdecoded
      refine ⟨?_, ?_⟩
      · simp [Endpoint.call, Traced.count, Client.GetSites, doRequest_eq, ha, hdecoded.1]
      · rw [Endpoint.call_sent]
        exact sentFor_of_ok c remote remote.sites sitesEndpoint params res ha
  · simp only [Endpoint.decoded, doRequest_eq] at hdecoded
    cases ha : c.answerFor remote remote.roles rolesEndpoint params with
    | error err => simp [ha] at hdecoded
    | ok res =>
      simp only [ha, Except.ok.injEq, Prod.mk.injEq] at hdecoded
      refine ⟨?_, ?_⟩
      · simp [Endpoint.call, Traced.count, Client.GetPredefinedRoles, doRequest_eq, ha, hdecoded.1]
      · rw [Endpoint.call_sent]
        exact sentFor_of_ok c remote remote.roles rolesEndpoint params res ha

/-- C5 on a console that answers the users request with HTTP 200, one record,
a cursor and one in-band error. -/
theorem get_fails_on_inband_errors_witness :
    (∃ err, (Endpoint.users.call ⟨"t", "https://host.example/"⟩ inbandErrorRemote
        none).result = .error err) ∧
    (Endpoint.users.call ⟨"t", "https://host.example/"⟩ inbandErrorRemote none).sent =
      [Client.requestFor ⟨"t", "https://host.example/"⟩ Endpoint.users.path none] :=
  get_fails_on_inband_errors .users ⟨"t", "https://host.example/"⟩ inbandErrorRemote none
    [⟨4010010, "Unauthorized access", "Authentication Failed"⟩] "next" rfl (by simp)

theorem count_result_error {α β : Type} (t : Traced (List α × β)) (err : Err)
    (h : t.result = .error err) : t.count.result = .error err := by
  simp [Traced.count, h]

theorem count_result_ok {α β : Type} (t : Traced (List α × β)) (p : List α × β)
    (h : t.result = .ok p) : t.count.result = .ok (p.1.length, p.2) := by
  simp [Traced.count, h]

theorem count_sent {α β : Type} (t : Traced (List α × β)) : t.count.sent = t.sent := rfl

/-- C10: `Validate` probes accounts, sites, users, service users and predefined
roles in this order, each with `limit=1`; it stops at the first failing probe,
whose error it returns wrapped under the message of that endpoint, without
calling the later endpoints, and it succeeds exactly when all five probes
succeed. Each probe sends its one request with `limit=1` when
`http.NewRequestWithContext` accepts the URL, and none when it does not. -/
theorem Validate_probes_in_order (s : SentinelOne) (remote : Remote) :
    s.Validate remote = probeInOrder s.client remote validateOrder ∧
    ((s.Validate remote).result = .ok () ↔
      ∀ e : Endpoint, ∃ page, (e.call s.client remote (some [("limit", "1")])).result = .ok page) ∧
    (∀ e : Endpoint, (e.call s.client remote (some [("limit", "1")])).sent =
      if (remote.newRequest (s.client.baseUrl ++ e.path)).isNone = true then
        [{ Method := "GET", URL := s.client.baseUrl ++ e.path,
           Query := some [("limit", ["1"]), ("skipCount", ["true"])],
           Header := [("Accept", "application/json"),
                      ("Authorization", "ApiToken " ++ s.client.token)] }]
      else []) := by
  have hspec : s.Validate remote = probeInOrder s.client remote validateOrder := by
    simp only [SentinelOne.Validate, probeInOrder, validateOrder, Endpoint.call, count_sent]
    cases h1 : (s.client.GetAccounts remote (some [("limit", "1")])).result with
    | error e1 => simp [count_result_error _ _ h1]
    | ok p1 =>
      cases h2 : (s.client.GetSites remote (some [("limit", "1")])).result with
      | error e2 => simp [count_result_ok _ _ h1, count_result_error _ _ h2]
      | ok p2 =>
        cases h3 : (s.client.GetUsers remote (some [("limit", "1")])).result with
        | error e3 =>
          simp [count_result_ok _ _ h1, count_result_ok _ _ h2, count_result_error _ _ h3]
        | ok p3 =>
          cases h4 : (s.client.GetServiceUsers remote (some [("limit", "1")])).result with
          | error e4 =>
            simp [count_result_ok _ _ h1, count_result_ok _ _ h2, count_result_ok _ _ h3,
              count_result_error _ _ h4]
          | ok p4 =>
            cases h5 : (s.client.GetPredefinedRoles remote (some [("limit", "1")])).result with
            | error e5 =>
              simp [count_result_ok _ _ h1, count_result_ok _ _ h2, count_result_ok _ _ h3,
                count_result_ok _ _ h4, count_result_error _ _ h5]
            | ok p5 =>
              simp [count_result_ok _ _ h1, count_result_ok _ _ h2, count_result_ok _ _ h3,
                count_result_ok _ _ h4, count_result_ok _ _ h5]
  refine ⟨hspec, ?_, ?_⟩
  · rw [hspec]
    simp only [probeInOrder, validateOrder]
    constructor
    · intro h e
      cases h1 : (Endpoint.accounts.call s.client remote (some [("limit", "1")])).result with
      | error e1 => simp [h1] at h
      | ok p1 =>
        cases h2 : (Endpoint.sites.call s.client remote (some [("limit", "1")])).result with
        | error e2 => simp [h1, h2] at h
        | ok p2 =>
          cases h3 : (Endpoint.users.call s.client remote (some [("limit", "1")])).result with
          | error e3 => simp [h1, h2, h3] at h
          | ok p3 =>
            cases h4 : (Endpoint.serviceUsers.call s.client remote
                (some [("limit", "1")])).result with
            | error e4 => simp [h1, h2, h3, h4] at h
            | ok p4 =>
              cases h5 : (Endpoint.roles.call s.client remote
                  (some [("limit", "1")])).result with
              | error e5 => simp [h1, h2, h3, h4, h5] at h
              | ok p5 =>
                cases e
                · exact ⟨p3, h3⟩
                · exact ⟨p4, h4⟩
                · exact ⟨p1, h1⟩
                · exact ⟨p2, h2⟩
                · exact ⟨p5, h5⟩
    · intro h
      obtain ⟨p1, h1⟩ := h .accounts
      obtain ⟨p2, h2⟩ := h .sites
      obtain ⟨p3, h3⟩ := h .users
      obtain ⟨p4, h4⟩ := h .serviceUsers
      obtain ⟨p5, h5⟩ := h .roles
      simp [h1, h2, h3, h4, h5]
  · intro e
    rw [Endpoint.call_sent, sentFor_ite]
    rfl

/-! ### The traversal units -/

theorem count_ok_inv {α β : Type} (t : Traced (List α × β)) (n : Nat) (b : β)
    (h : t.count.result = .ok (n, b)) :
    ∃ records, t.result = .ok (records, b) ∧ records.length = n := by
  unfold Traced.count at h
  cases hr : t.result with
  | error err => simp [hr] at h
  | ok p =>
    obtain ⟨records, b1⟩ := p
    simp [hr] at h
    exact ⟨records, by rw [h.2], h.1⟩

theorem userResource_ok (u : User) (parent : Option ResourceId) :
    ∃ r, userResource u parent = .ok r :=
  ⟨_, rfl⟩

theorem serviceUserResource_ok (u : ServiceUser) (parent : Option ResourceId) :
    ∃ r, serviceUserResource u parent = .ok r :=
  ⟨_, rfl⟩

theorem siteResource_ok (st : Site) (parent : Option ResourceId) :
    ∃ r, siteResource st parent = .ok r :=
  ⟨_, rfl⟩

theorem grantLoop_ok {α : Type} (mapper : α → Except Err Resource) (mapFailure : String)
    (membership : α → String) (resource : Resource)
    (hmap : ∀ x, ∃ r, mapper x = .ok r) (records : List α) :
    ∃ grants, grantLoop mapper mapFailure membership resource records = .ok grants ∧
      grants.length = records.length := by
  induction records with
  | nil => exact ⟨[], rfl, rfl⟩
  | cons x rest ih =>
    obtain ⟨r, hr⟩ := hmap x
    obtain ⟨grants, hg, hl⟩ := ih
    refine ⟨NewGrant resource (membership x) r.Id :: grants, ?_, by simp [hl]⟩
    simp [grantLoop, hr, hg]

theorem grantsPhase_step {α : Type} (fetched : Traced (List α × String))
    (listFailure mapFailure : String) (mapper : α → Except Err Resource)
    (membership : α → String) (resource : Resource) (cur : PageState)
    (rest : List PageState) (records : List α) (next : String)
    (hmap : ∀ x, ∃ r, mapper x = .ok r) (hres : fetched.result = .ok (records, next)) :
    ∃ grants,
      grantsPhase fetched listFailure mapFailure mapper membership resource (cur :: rest) =
        ⟨.ok (grants, .frames (advance cur rest next)), fetched.sent⟩ ∧
      grants.length = records.length := by
  obtain ⟨grants, hg, hl⟩ := grantLoop_ok mapper mapFailure membership resource hmap records
  refine ⟨grants, ?_, hl⟩
  unfold grantsPhase
  by_cases hn : next = ""
  · simp [hres, Bag.Next, Bag.Marshal, hg, hn, advance]
  · simp [hres, Bag.Next, Bag.Push, Bag.Marshal, hg, hn, advance]

theorem parsePageToken_frames (cur : PageState) (rest : List PageState) (rid : ResourceId) :
    parsePageToken (.frames (cur :: rest)) rid = .ok (cur :: rest, cur.Token) := by
  simp [parsePageToken, Bag.Unmarshal, Bag.Current, Bag.PageToken]

theorem parsePageToken_empty (rid : ResourceId) :
    parsePageToken Token.empty rid =
      .ok ([{ Token := "", ResourceTypeID := rid.ResourceType, ResourceID := rid.Resource }],
        "") := by
  simp [parsePageToken, Token.empty, Bag.Unmarshal, Bag.Current, Bag.PageToken, Bag.Push]

theorem stateOf_frames (root : String) (cur : PageState) (rest : List PageState) :
    stateOf root (.frames (cur :: rest)) = cur.ResourceTypeID := by
  simp [stateOf, parsePageToken_frames, Bag.ResourceTypeID, Bag.Current]

theorem stateOf_empty (root : String) : stateOf root Token.empty = root := by
  simp [stateOf, parsePageToken_empty, Bag.ResourceTypeID, Bag.Current]

/-- One `Grants` call in a child state: the client call of the state is the
only request, one grant is returned per record, and the returned token is the
stack advanced by the returned cursor. -/
theorem grants_child_step (u : TraversalUnit) (c : Client) (remote : Remote)
    (resource : Resource) (cur : PageState) (rest : List PageState)
    (fetched : Traced (Nat × String)) (n : Nat) (next : String)
    (hfetch : u.fetch c remote resource cur.ResourceTypeID cur.Token = some fetched)
    (hres : fetched.result = .ok (n, next)) :
    ∃ grants, u.Grants c remote resource (.frames (cur :: rest)) =
        ⟨.ok (grants, .frames (advance cur rest next)), fetched.sent⟩ ∧
      grants.length = n := by
  unfold TraversalUnit.fetch at hfetch
  by_cases h1 : cur.ResourceTypeID = "user"
  · simp only [h1, if_true, Option.some.injEq] at hfetch
    subst hfetch
    obtain ⟨records, hr, hl⟩ := count_ok_inv _ _ _ hres
    cases u
    · obtain ⟨grants, hg, hgl⟩ := grantsPhase_step _
        ("failed to list users for account " ++ resource.Id.Resource)
        ("error creating user resource for account " ++ resource.Id.Resource)
        (fun u => userResource u (some resource.Id)) (fun _ => accountMembership)
        resource cur rest records next (fun x => userResource_ok x _) hr
      refine ⟨grants, ?_, hgl.trans hl⟩
      simp [TraversalUnit.Grants, accountResourceType.Grants, accountBuilder,
        parsePageToken_frames, Bag.ResourceTypeID, Bag.Current, h1, resourceTypeAccount,
        resourceTypeUser, TraversalUnit.filter] at hg ⊢
      simpa [Endpoint.call, count_sent] using hg
    · obtain ⟨grants, hg, hgl⟩ := grantsPhase_step _
        ("failed to list users for role " ++ resource.Id.Resource)
        ("error creating user resource for role " ++ resource.Id.Resource)
        (fun u => userResource u (some resource.Id)) (fun u => membershipsAt u.Scope)
        resource cur rest records next (fun x => userResource_ok x _) hr
      refine ⟨grants, ?_, hgl.trans hl⟩
      simp [TraversalUnit.Grants, roleResourceType.Grants, roleBuilder,
        parsePageToken_frames, Bag.ResourceTypeID, Bag.Current, h1, resourceTypeRole,
        resourceTypeUser, TraversalUnit.filter] at hg ⊢
      simpa [Endpoint.call, count_sent] using hg
    · obtain ⟨grants, hg, hgl⟩ := grantsPhase_step _
        ("failed to list users for site " ++ resource.Id.Resource)
        ("error creating user resource for site " ++ resource.Id.Resource)
        (fun u => userResource u (some resource.Id)) (fun _ => siteMembership)
        resource cur rest records next (fun x => userResource_ok x _) hr
      refine ⟨grants, ?_, hgl.trans hl⟩
      simp [TraversalUnit.Grants, siteResourceType.Grants, siteBuilder,
        parsePageToken_frames, Bag.ResourceTypeID, Bag.Current, h1, resourceTypeSite,
        resourceTypeUser, TraversalUnit.filter] at hg ⊢
      simpa [Endpoint.call, count_sent] using hg
  · by_cases h2 : cur.ResourceTypeID = "service_user"
    · simp only [h2, if_true, Option.some.injEq] at hfetch
      simp only [show ¬ ("service_user" = "user") by decide, if_false,
        Option.some.injEq] at hfetch
      subst hfetch
      obtain ⟨records, hr, hl⟩ := count_ok_inv _ _ _ hres
      cases u
      · obtain ⟨grants, hg, hgl⟩ := grantsPhase_step _
          ("failed to list service users for account " ++ resource.Id.Resource)
          ("error creating service user resource for account " ++ resource.Id.Resource)
          (fun u => serviceUserResource u (some resource.Id)) (fun _ => accountMembership)
          resource cur rest records next (fun x => serviceUserResource_ok x _) hr
        refine ⟨grants, ?_, hgl.trans hl⟩
        simp [TraversalUnit.Grants, accountResourceType.Grants, accountBuilder,
          parsePageToken_frames, Bag.ResourceTypeID, Bag.Current, h2, resourceTypeAccount,
          resourceTypeUser, resourceTypeServiceUser, TraversalUnit.filter] at hg ⊢
        simpa [Endpoint.call, count_sent] using hg
      · obtain ⟨grants, hg, hgl⟩ := grantsPhase_step _
          ("failed to list service users for role " ++ resource.Id.Resource)
          ("error creating service user resource for role " ++ resource.Id.Resource)
          (fun u => serviceUserResource u (some resource.Id)) (fun u => membershipsAt u.Scope)
          resource cur rest records next (fun x => serviceUserResource_ok x _) hr
        refine ⟨grants, ?_, hgl.trans hl⟩
        simp [TraversalUnit.Grants, roleResourceType.Grants, roleBuilder,
          parsePageToken_frames, Bag.ResourceTypeID, Bag.Current, h2, resourceTypeRole,
          resourceTypeUser, resourceTypeServiceUser, TraversalUnit.filter] at hg ⊢
        simpa [Endpoint.call, count_sent] using hg
      · obtain ⟨grants, hg, hgl⟩ := grantsPhase_step _
          ("failed to list service users for site " ++ resource.Id.Resource)
          ("error creating service user resource for site " ++ resource.Id.Resource)
          (fun u => serviceUserResource u (some resource.Id)) (fun _ => siteMembership)
          resource cur rest records next (fun x => serviceUserResource_ok x _) hr
        refine ⟨grants, ?_, hgl.trans hl⟩
        simp [TraversalUnit.Grants, siteResourceType.Grants, siteBuilder,
          parsePageToken_frames, Bag.ResourceTypeID, Bag.Current, h2, resourceTypeSite,
          resourceTypeUser, resourceTypeServiceUser, TraversalUnit.filter] at hg ⊢
        simpa [Endpoint.call, count_sent] using hg
    · simp only [h1, h2, if_false] at hfetch
      split at hfetch
      · rename_i h3
        obtain ⟨h3, hu⟩ := h3
        subst hu
        simp only [Option.some.injEq] at hfetch
        subst hfetch
        obtain ⟨records, hr, hl⟩ := count_ok_inv _ _ _ hres
        obtain ⟨grants, hg, hgl⟩ := grantsPhase_step _
          ("failed to list sites for account " ++ resource.Id.Resource)
          ("error creating site resource for account " ++ resource.Id.Resource)
          (fun st => siteResource st (some resource.Id)) (fun _ => accountMembership)
          resource cur rest records next (fun x => siteResource_ok x _) hr
        refine ⟨grants, ?_, hgl.trans hl⟩
        simp [TraversalUnit.Grants, accountResourceType.Grants, accountBuilder,
          parsePageToken_frames, Bag.ResourceTypeID, Bag.Current, h3, resourceTypeAccount,
          resourceTypeUser, resourceTypeServiceUser, resourceTypeSite,
          TraversalUnit.filter] at hg ⊢
        simpa [Endpoint.call, count_sent] using hg
      · exact absurd hfetch (by simp)

/-- C7: when `Grants` of the account, role or site unit runs in a child state
and the fetched page comes back with an empty `nextCursor`, the call succeeds
and the returned page token is the stack without its current frame: the
current frame of the returned token is the next pending frame, and the token is
empty exactly when no frame is pending. -/
theorem grants_pops_exhausted_state (u : TraversalUnit) (c : Client) (remote : Remote)
    (resource : Resource) (cur : PageState) (rest : List PageState)
    (fetched : Traced (Nat × String)) (n : Nat)
    (hfetch : u.fetch c remote resource cur.ResourceTypeID cur.Token = some fetched)
    (hpage : fetched.result = .ok (n, "")) :
    ∃ grants next,
      u.Grants c remote resource (.frames (cur :: rest)) = ⟨.ok (grants, next), fetched.sent⟩ ∧
      next = .frames rest ∧
      Bag.Unmarshal next = .ok rest ∧ Bag.Current rest = rest.head? ∧
      (next = Token.empty ↔ rest = []) := by
  obtain ⟨grants, hg, _⟩ := grants_child_step u c remote resource cur rest fetched n "" hfetch hpage
  refine ⟨grants, .frames rest, ?_, rfl, rfl, rfl, ?_⟩
  · simpa [advance] using hg
  · simp [Token.empty]

/-- C7 on the last page of sites of the account traversal: the service_user
frame becomes current. -/
theorem grants_pops_exhausted_state_witness :
    ∃ grants next,
      TraversalUnit.account.Grants exampleClient pagedRemote exampleAccount
          (.frames (⟨"page2", "site", ""⟩ :: [⟨"", "service_user", ""⟩, ⟨"", "user", ""⟩])) =
        ⟨.ok (grants, next),
          (Endpoint.sites.call exampleClient pagedRemote
            (some [(accountsFilter, "acc1"), (cursor, "page2")])).sent⟩ ∧
      next = .frames [⟨"", "service_user", ""⟩, ⟨"", "user", ""⟩] ∧
      Bag.Unmarshal next = .ok [⟨"", "service_user", ""⟩, ⟨"", "user", ""⟩] ∧
      Bag.Current [⟨"", "service_user", ""⟩, ⟨"", "user", ""⟩] =
        [(⟨"", "service_user", ""⟩ : PageState), ⟨"", "user", ""⟩].head? ∧
      (next = Token.empty ↔ [(⟨"", "service_user", ""⟩ : PageState), ⟨"", "user", ""⟩] = []) :=
  grants_pops_exhausted_state .account exampleClient pagedRemote exampleAccount
    ⟨"page2", "site", ""⟩ [⟨"", "service_user", ""⟩, ⟨"", "user", ""⟩]
    (Endpoint.sites.call exampleClient pagedRemote
      (some [(accountsFilter, "acc1"), (cursor, "page2")])) 1 rfl rfl

/-- C8: when the current frame of the page token names a resource type the
operation does not handle (account `Grants`: other than account, user,
service_user, site; role `Grants` and role `List`: other than role, user,
service_user; site `Grants`: other than site, user, service_user), the
operation fails and sends no request. -/
theorem unhandled_state_fails (op : StackOperation) (c : Client) (remote : Remote)
    (resource : Resource) (parentId : Option ResourceId) (cur : PageState)
    (rest : List PageState) (h : cur.ResourceTypeID ∉ op.handled) :
    (∃ err, (op.run c remote resource parentId (.frames (cur :: rest))).result = .error err) ∧
    (op.run c remote resource parentId (.frames (cur :: rest))).sent = [] := by
  cases op <;>
    simp only [StackOperation.handled, List.mem_cons, List.mem_singleton, not_or,
      List.not_mem_nil, or_false] at h <;>
    simp [StackOperation.run, Traced.count, accountResourceType.Grants,
      roleResourceType.Grants, siteResourceType.Grants, roleResourceType.List,
      accountBuilder, roleBuilder, siteBuilder, parsePageToken_frames, Bag.ResourceTypeID,
      Bag.Current, resourceTypeAccount, resourceTypeUser, resourceTypeServiceUser,
      resourceTypeSite, resourceTypeRole, h]

/-- C8 for role `Grants` on a token whose current frame is a site frame. -/
theorem unhandled_state_fails_witness :
    (∃ err, (StackOperation.roleGrants.run exampleClient emptyRemote exampleAccount none
        (.frames (⟨"", "site", ""⟩ :: []))).result = .error err) ∧
    (StackOperation.roleGrants.run exampleClient emptyRemote exampleAccount none
        (.frames (⟨"", "site", ""⟩ :: []))).sent = [] :=
  unhandled_state_fails .roleGrants exampleClient emptyRemote exampleAccount none
    ⟨"", "site", ""⟩ [] (by decide)

/-! ### The account traversal -/

theorem frames_eq_empty (l : List PageState) : Token.frames l = Token.empty ↔ l = [] := by
  simp [Token.empty]

theorem traverse_step_ok (root : String) (grants : Token → GrantsResult) (fuel : Nat)
    (pToken next : Token) (gs : List Grant) (sent : List Request)
    (h : grants pToken = ⟨.ok (gs, next), sent⟩) :
    traverse root grants (fuel + 1) pToken =
      if next = Token.empty then ⟨[stateOf root pToken], true⟩
      else ⟨stateOf root pToken :: (traverse root grants fuel next).visited,
            (traverse root grants fuel next).finished⟩ := by
  simp [traverse, h]

/-- A whole phase: from a frame of a child state whose listing ends after `p`
pages, `p` calls are made in that state, after which the traversal is complete
(no frame pending) or goes on with the pending frames. -/
theorem traverse_phase (u : TraversalUnit) (c : Client) (remote : Remote)
    (resource : Resource) (state : String) :
    ∀ (p : Nat) (page rid : String) (rest : List PageState) (k : Nat),
      endsAfter (u.fetch c remote resource state) p page = true →
      traverse u.root (u.Grants c remote resource) (p + k)
          (.frames (⟨page, state, rid⟩ :: rest)) =
        if rest = [] then ⟨List.replicate p state, true⟩
        else
          ⟨List.replicate p state ++
              (traverse u.root (u.Grants c remote resource) k (.frames rest)).visited,
            (traverse u.root (u.Grants c remote resource) k (.frames rest)).finished⟩ := by
  intro p
  induction p with
  | zero => intro page rid rest k h; simp [endsAfter] at h
  | succ n ih =>
    intro page rid rest k h
    unfold endsAfter at h
    cases hf : u.fetch c remote resource state page with
    | none => simp [hf] at h
    | some t =>
      cases hr : t.result with
      | error err => simp [hf, hr] at h
      | ok pr =>
        obtain ⟨m, next⟩ := pr
        simp only [hf, hr] at h
        obtain ⟨grants, hg, _⟩ :=
          grants_child_step u c remote resource ⟨page, state, rid⟩ rest t m next hf hr
        have hfuel : n + 1 + k = (n + k) + 1 := by omega
        rw [hfuel, traverse_step_ok _ _ _ _ _ _ _ hg, stateOf_frames]
        by_cases hn : next = ""
        · simp only [hn, if_true, beq_iff_eq] at h
          subst h
          subst hn
          by_cases hrest : rest = []
          · subst hrest
            simp [advance, Token.empty]
          · simp [advance, frames_eq_empty, hrest]
        · simp only [hn, if_false] at h
          have hadv : advance ⟨page, state, rid⟩ rest next = ⟨next, state, rid⟩ :: rest := by
            simp [advance, hn]
          rw [hadv, ih next rid rest k h]
          by_cases hrest : rest = []
          · simp [hrest, List.replicate_succ, Token.empty]
          · simp [hrest, List.replicate_succ, Token.empty]

theorem account_grants_root (c : Client) (remote : Remote) (resource : Resource) :
    TraversalUnit.account.Grants c remote resource Token.empty =
      ⟨.ok ([], .frames [⟨"", "site", ""⟩, ⟨"", "service_user", ""⟩, ⟨"", "user", ""⟩]), []⟩ := by
  simp [TraversalUnit.Grants, accountResourceType.Grants, accountBuilder, parsePageToken_empty,
    Bag.ResourceTypeID, Bag.Current, Bag.Pop, Bag.Push, Bag.Marshal, resourceTypeAccount,
    resourceTypeUser, resourceTypeServiceUser, resourceTypeSite]

/-- C1, as stated, fails: on a console with one page of users, one page of
service users and two pages of sites, the account `Grants` traversal from the
empty token runs to the empty token and visits account, site, site,
service_user, user, not account, user, service_user, site, site. -/
theorem account_traversal_stated_order_fails :
    endsAfter (TraversalUnit.account.fetch exampleClient pagedRemote exampleAccount "user")
      1 "" = true ∧
    endsAfter (TraversalUnit.account.fetch exampleClient pagedRemote exampleAccount
      "service_user") 1 "" = true ∧
    endsAfter (TraversalUnit.account.fetch exampleClient pagedRemote exampleAccount "site")
      2 "" = true ∧
    traverse "account" (TraversalUnit.account.Grants exampleClient pagedRemote exampleAccount)
      5 Token.empty = ⟨["account", "site", "site", "service_user", "user"], true⟩ ∧
    (traverse "account" (TraversalUnit.account.Grants exampleClient pagedRemote exampleAccount)
      5 Token.empty).visited ≠ statedOrder 1 1 2 := by
  refine ⟨by decide, by decide, by decide, by decide, by decide⟩

/-- C1, amended: for every account and every number of pages (at least one) in
each phase, the account `Grants` traversal that starts from the empty page
token and feeds each returned token back reaches the empty token, and the
states of its calls are, in order: account once, then site for every page of
sites, then service_user for every page of service users, then user for every
page of users (the frame pushed last is served first). -/
theorem account_traversal_order (c : Client) (remote : Remote) (resource : Resource)
    (pu ps pt fuel : Nat)
    (hu : endsAfter (TraversalUnit.account.fetch c remote resource "user") pu "" = true)
    (hs : endsAfter (TraversalUnit.account.fetch c remote resource "service_user") ps "" = true)
    (ht : endsAfter (TraversalUnit.account.fetch c remote resource "site") pt "" = true)
    (hfuel : 1 + pu + ps + pt ≤ fuel) :
    traverse "account" (TraversalUnit.account.Grants c remote resource) fuel Token.empty =
      ⟨"account" :: (List.replicate pt "site" ++ List.replicate ps "service_user" ++
          List.replicate pu "user"), true⟩ := by
  obtain ⟨extra, rfl⟩ : ∃ extra, fuel = (pt + (ps + (pu + extra))) + 1 :=
    ⟨fuel - (1 + pu + ps + pt), by omega⟩
  rw [traverse_step_ok _ _ _ _ _ _ _ (account_grants_root c remote resource), stateOf_empty]
  have h3 := traverse_phase .account c remote resource "site" pt "" ""
    [⟨"", "service_user", ""⟩, ⟨"", "user", ""⟩] (ps + (pu + extra)) ht
  have h2 := traverse_phase .account c remote resource "service_user" ps "" ""
    [⟨"", "user", ""⟩] (pu + extra) hs
  have h1 := traverse_phase .account c remote resource "user" pu "" "" [] extra hu
  simp only [TraversalUnit.root] at h1 h2 h3
  simp [Token.empty, h3, h2, h1]

/-- C1, amended, on the console with one page of users, one page of service
users and two pages of sites. -/
theorem account_traversal_order_witness :
    traverse "account" (TraversalUnit.account.Grants exampleClient pagedRemote exampleAccount)
        7 Token.empty =
      ⟨"account" :: (List.replicate 2 "site" ++ List.replicate 1 "service_user" ++
          List.replicate 1 "user"), true⟩ :=
  account_traversal_order exampleClient pagedRemote exampleAccount 1 1 2 7
    (by decide) (by decide) (by decide) (by decide)

/-! ### Client calls: query and decoded errors -/

theorem Values.holds_Add_self (vs : Values) (key value : String) :
    Values.holds (Values.Add vs key value) key value = true := by
  unfold Values.Add Values.holds
  by_cases h : vs.any (fun kv => kv.1 == key) = true
  · rw [if_pos h]
    rw [List.any_eq_true] at h ⊢
    obtain ⟨kv, hmem, hk⟩ := h
    refine ⟨(kv.1, kv.2 ++ [value]), ?_, ?_⟩
    · rw [List.mem_map]
      exact ⟨kv, hmem, by simp [hk]⟩
    · simp at hk
      simp [hk]
  · rw [if_neg h]
    simp

theorem Values.holds_Add_mono (vs : Values) (key value k v : String)
    (h : Values.holds vs k v = true) : Values.holds (Values.Add vs key value) k v = true := by
  unfold Values.holds at h ⊢
  unfold Values.Add
  rw [List.any_eq_true] at h
  obtain ⟨kv, hmem, hk⟩ := h
  split
  · rw [List.any_eq_true]
    by_cases hkey : kv.1 == key
    · refine ⟨(kv.1, kv.2 ++ [value]), ?_, ?_⟩
      · rw [List.mem_map]
        exact ⟨kv, hmem, by simp [hkey]⟩
      · simp at hk ⊢
        exact ⟨hk.1, Or.inl hk.2⟩
    · refine ⟨kv, ?_, hk⟩
      rw [List.mem_map]
      exact ⟨kv, hmem, by simp [hkey]⟩
  · rw [List.any_eq_true]
    exact ⟨kv, List.mem_append_left _ hmem, hk⟩

theorem foldl_Add_holds (params : ParamsMap) :
    ∀ (acc : Values) (k v : String),
      (Values.holds acc k v = true ∨ (k, v) ∈ params) →
      Values.holds (params.foldl (fun acc kv => Values.Add acc kv.1 kv.2) acc) k v = true := by
  induction params with
  | nil =>
    intro acc k v h
    rcases h with h | h
    · exact h
    · simp at h
  | cons kv rest ih =>
    intro acc k v h
    simp only [List.foldl_cons]
    apply ih
    rcases h with h | h
    · exact Or.inl (Values.holds_Add_mono _ _ _ _ _ h)
    · rw [List.mem_cons] at h
      rcases h with h | h
      · left
        rw [← h]
        exact Values.holds_Add_self _ _ _
      · exact Or.inr h

theorem createParams_holds (params : ParamsMap) :
    Values.holds (createParams params) "skipCount" "true" = true ∧
    ∀ k v, (k, v) ∈ params → Values.holds (createParams params) k v = true := by
  unfold createParams
  exact ⟨Values.holds_Add_self _ _ _,
    fun k v h => Values.holds_Add_mono _ _ _ _ _ (foldl_Add_holds params [] k v (Or.inr h))⟩

/-- C11, as stated, fails on the nil map: the request `GetUsers` sends for it
has no query at all, so it does not contain `skipCount=true`. -/
theorem nil_params_send_no_skipCount :
    (exampleClient.GetUsers emptyRemote none).sent.map Request.Query = [none] ∧
    (exampleClient.GetUsers emptyRemote none).sent.map
      (fun req => Values.holds (req.Query.getD []) "skipCount" "true") = [false] := by
  constructor <;> decide

/-- C11, amended: for every non-nil parameter map handed to one of the five
client calls, the request that is sent carries a query that contains
`skipCount=true` together with every key/value pair of the map; for the nil map
the request carries no query. (The request is sent when
`http.NewRequestWithContext` accepts the URL; no request is sent otherwise.) -/
theorem query_holds_params (e : Endpoint) (c : Client) (remote : Remote) (params : ParamsMap) :
    (∃ q, (e.call c remote (some params)).sent =
        (if (remote.newRequest (c.baseUrl ++ e.path)).isNone = true then
          [{ Method := "GET", URL := c.baseUrl ++ e.path, Query := some q,
             Header := [("Accept", "application/json"),
                        ("Authorization", "ApiToken " ++ c.token)] }]
         else []) ∧
      Values.holds q "skipCount" "true" = true ∧
      ∀ k v, (k, v) ∈ params → Values.holds q k v = true) ∧
    (e.call c remote none).sent =
      (if (remote.newRequest (c.baseUrl ++ e.path)).isNone = true then
        [{ Method := "GET", URL := c.baseUrl ++ e.path, Query := none,
           Header := [("Accept", "application/json"),
                      ("Authorization", "ApiToken " ++ c.token)] }]
       else []) := by
  refine ⟨⟨createParams params, ?_, createParams_holds params⟩, ?_⟩
  · rw [Endpoint.call_sent, sentFor_ite]; rfl
  · rw [Endpoint.call_sent, sentFor_ite]; rfl

theorem GetUsers_result (c : Client) (remote : Remote) (params : Option ParamsMap) :
    (c.GetUsers remote params).result =
      expectedGet "users" Response.Errors Response.Data (fun r => r.Pagination.NextCursor)
        (c.doRequest remote.newRequest remote.users (c.baseUrl ++ usersEndpoint)
          (queryOf params)).result := by
  unfold Client.GetUsers expectedGet
  simp only [doRequest_eq]
  cases c.answerFor remote remote.users usersEndpoint params with
  | error err => rfl
  | ok res =>
    cases hE : res.Errors with
    | some errs => simp only [hE]; rfl
    | none =>
      simp only [hE]
      by_cases hn : res.Pagination.NextCursor = "" <;> simp [hn]

theorem GetServiceUsers_result (c : Client) (remote : Remote) (params : Option ParamsMap) :
    (c.GetServiceUsers remote params).result =
      expectedGet "service users" Response.Errors Response.Data (fun r => r.Pagination.NextCursor)
        (c.doRequest remote.newRequest remote.serviceUsers (c.baseUrl ++ serviceUsersEndpoint)
          (queryOf params)).result := by
  unfold Client.GetServiceUsers expectedGet
  simp only [doRequest_eq]
  cases c.answerFor remote remote.serviceUsers serviceUsersEndpoint params with
  | error err => rfl
  | ok res =>
    cases hE : res.Errors with
    | some errs => simp only [hE]; rfl
    | none =>
      simp only [hE]
      by_cases hn : res.Pagination.NextCursor = "" <;> simp [hn]

theorem GetAccounts_result (c : Client) (remote : Remote) (params : Option ParamsMap) :
    (c.GetAccounts remote params).result =
      expectedGet "accounts" Response.Errors Response.Data (fun r => r.Pagination.NextCursor)
        (c.doRequest remote.newRequest remote.accounts (c.baseUrl ++ accountsEndpoint)
          (queryOf params)).result := by
  unfold Client.GetAccounts expectedGet
  simp only [doRequest_eq]
  cases c.answerFor remote remote.accounts accountsEndpoint params with
  | error err => rfl
  | ok res =>
    cases hE : res.Errors with
    | some errs => simp only [hE]; rfl
    | none =>
      simp only [hE]
      by_cases hn : res.Pagination.NextCursor = "" <;> simp [hn]

theorem GetSites_result (c : Client) (remote : Remote) (params : Option ParamsMap) :
    (c.GetSites remote params).result =
      expectedGet "sites" SitesResponse.Errors SitesResponse.Sites (fun r => r.Pagination.NextCursor)
        (c.doRequest remote.newRequest remote.sites (c.baseUrl ++ sitesEndpoint)
          (queryOf params)).result := by
  unfold Client.GetSites expectedGet
  simp only [doRequest_eq]
  cases c.answerFor remote remote.sites sitesEndpoint params with
  | error err => rfl
  | ok res =>
    cases hE : res.Errors with
    | some errs => simp only [hE]; rfl
    | none =>
      simp only [hE]
      by_cases hn : res.Pagination.NextCursor = "" <;> simp [hn]

theorem GetPredefinedRoles_result (c : Client) (remote : Remote) (params : Option ParamsMap) :
    (c.GetPredefinedRoles remote params).result =
      expectedGet "roles" Response.Errors Response.Data (fun r => r.Pagination.NextCursor)
        (c.doRequest remote.newRequest remote.roles (c.baseUrl ++ rolesEndpoint)
          (queryOf params)).result := by
  unfold Client.GetPredefinedRoles expectedGet
  simp only [doRequest_eq]
  cases c.answerFor remote remote.roles rolesEndpoint params with
  | error err => rfl
  | ok res =>
    cases hE : res.Errors with
    | some errs => simp only [hE]; rfl
    | none =>
      simp only [hE]
      by_cases hn : res.Pagination.NextCursor = "" <;> simp [hn]

theorem expectedGet_ok_inv {R T : Type} (operation : String)
    (errorsOf : R → Option (List Error)) (dataOf : R → List T) (cursorOf : R → String)
    (decoded : Except Err R) (p : List T × String)
    (h : expectedGet operation errorsOf dataOf cursorOf decoded = .ok p) :
    ∃ res, decoded = .ok res := by
  cases decoded with
  | error err => simp [expectedGet] at h
  | ok res => exact ⟨res, rfl⟩

theorem GetUsers_sent_of_ok (c : Client) (remote : Remote) (params : Option ParamsMap)
    (p : _) (h : (c.GetUsers remote params).result = .ok p) :
    c.sentFor remote usersEndpoint params = [c.requestFor usersEndpoint params] := by
  rw [GetUsers_result, doRequest_eq] at h
  obtain ⟨res, hres⟩ := expectedGet_ok_inv _ _ _ _ _ _ h
  exact sentFor_of_ok c remote remote.users usersEndpoint params res hres

theorem GetServiceUsers_sent_of_ok (c : Client) (remote : Remote) (params : Option ParamsMap)
    (p : _) (h : (c.GetServiceUsers remote params).result = .ok p) :
    c.sentFor remote serviceUsersEndpoint params = [c.requestFor serviceUsersEndpoint params] := by
  rw [GetServiceUsers_result, doRequest_eq] at h
  obtain ⟨res, hres⟩ := expectedGet_ok_inv _ _ _ _ _ _ h
  exact sentFor_of_ok c remote remote.serviceUsers serviceUsersEndpoint params res hres

theorem GetPredefinedRoles_sent_of_ok (c : Client) (remote : Remote) (params : Option ParamsMap)
    (p : _) (h : (c.GetPredefinedRoles remote params).result = .ok p) :
    c.sentFor remote rolesEndpoint params = [c.requestFor rolesEndpoint params] := by
  rw [GetPredefinedRoles_result, doRequest_eq] at h
  obtain ⟨res, hres⟩ := expectedGet_ok_inv _ _ _ _ _ _ h
  exact sentFor_of_ok c remote remote.roles rolesEndpoint params res hres

/-- C17: for each of the five client calls, once the request and the decoding
have succeeded (`doRequest` returned the decoded body) the call fails exactly
when the decoded `errors` field is non-nil; with the field nil (key absent or
null) it succeeds and returns the decoded records and the decoded `nextCursor`
unchanged. A body with one record, a cursor and no `errors` key succeeds with
that record and cursor; the same body with `"errors": []` fails. -/
theorem get_result_by_decoded_errors (c : Client) (remote : Remote)
    (params : Option ParamsMap) :
    (c.GetUsers remote params).result =
      expectedGet "users" Response.Errors Response.Data (fun r => r.Pagination.NextCursor)
        (c.doRequest remote.newRequest remote.users (c.baseUrl ++ usersEndpoint)
          (queryOf params)).result ∧
    (c.GetServiceUsers remote params).result =
      expectedGet "service users" Response.Errors Response.Data
        (fun r => r.Pagination.NextCursor)
        (c.doRequest remote.newRequest remote.serviceUsers
          (c.baseUrl ++ serviceUsersEndpoint) (queryOf params)).result ∧
    (c.GetAccounts remote params).result =
      expectedGet "accounts" Response.Errors Response.Data (fun r => r.Pagination.NextCursor)
        (c.doRequest remote.newRequest remote.accounts (c.baseUrl ++ accountsEndpoint)
          (queryOf params)).result ∧
    (c.GetSites remote params).result =
      expectedGet "sites" SitesResponse.Errors SitesResponse.Sites
        (fun r => r.Pagination.NextCursor)
        (c.doRequest remote.newRequest remote.sites (c.baseUrl ++ sitesEndpoint)
          (queryOf params)).result ∧
    (c.GetPredefinedRoles remote params).result =
      expectedGet "roles" Response.Errors Response.Data (fun r => r.Pagination.NextCursor)
        (c.doRequest remote.newRequest remote.roles (c.baseUrl ++ rolesEndpoint)
          (queryOf params)).result ∧
    (exampleClient.GetUsers nextPageRemote params).result =
      .ok ([⟨"a@example.com", "account", "1", none, "Ann Lee"⟩], "next") ∧
    (exampleClient.GetUsers emptyErrorsRemote params).result =
      .error (.text "failed to get users: []") :=
  ⟨GetUsers_result c remote params, GetServiceUsers_result c remote params,
    GetAccounts_result c remote params, GetSites_result c remote params,
    GetPredefinedRoles_result c remote params,
    by rw [GetUsers_result]; rfl, by rw [GetUsers_result]; rfl⟩

/-! ### Grants: the grants of a page -/

theorem mapRecords_ok_inv {α β γ : Type} (f : α → β) (t : Traced (List α × γ))
    (out : List β) (g : γ) (h : (t.mapRecords f).result = .ok (out, g)) :
    ∃ records, t.result = .ok (records, g) ∧ records.map f = out := by
  unfold Traced.mapRecords at h
  cases hr : t.result with
  | error err => simp [hr] at h
  | ok p =>
    obtain ⟨records, g1⟩ := p
    simp [hr] at h
    exact ⟨records, by rw [h.2], h.1⟩

theorem grantLoop_eq {α : Type} (mapper : α → Except Err Resource) (mapFailure : String)
    (membership : α → String) (resource : Resource) (rid : α → ResourceId)
    (hmap : ∀ x, ∃ r, mapper x = .ok r ∧ r.Id = rid x) (records : List α) :
    grantLoop mapper mapFailure membership resource records =
      .ok (records.map fun x => NewGrant resource (membership x) (rid x)) := by
  induction records with
  | nil => rfl
  | cons x rest ih =>
    obtain ⟨r, hr, hid⟩ := hmap x
    simp [grantLoop, hr, ih, hid]

theorem grantsPhase_eq {α : Type} (fetched : Traced (List α × String))
    (listFailure mapFailure : String) (mapper : α → Except Err Resource)
    (membership : α → String) (resource : Resource) (rid : α → ResourceId)
    (cur : PageState) (rest : List PageState) (records : List α) (next : String)
    (hmap : ∀ x, ∃ r, mapper x = .ok r ∧ r.Id = rid x)
    (hres : fetched.result = .ok (records, next)) :
    grantsPhase fetched listFailure mapFailure mapper membership resource (cur :: rest) =
      ⟨.ok (records.map (fun x => NewGrant resource (membership x) (rid x)),
            .frames (advance cur rest next)), fetched.sent⟩ := by
  have hg := grantLoop_eq mapper mapFailure membership resource rid hmap records
  unfold grantsPhase
  by_cases hn : next = ""
  · simp [hres, Bag.Next, Bag.Marshal, hg, hn, advance]
  · simp [hres, Bag.Next, Bag.Push, Bag.Marshal, hg, hn, advance]

/-- One `Grants` call in a child state, with the grants it returns: one grant
per fetched record, in the order of the records, on the given resource, to the
principal of the state's resource type with the record's id. -/
theorem grants_child_records (u : TraversalUnit) (c : Client) (remote : Remote)
    (resource : Resource) (cur : PageState) (rest : List PageState)
    (fetched : Traced (List Holder × String)) (holders : List Holder) (next : String)
    (hfetch : u.fetchHolders c remote resource cur.ResourceTypeID cur.Token = some fetched)
    (hres : fetched.result = .ok (holders, next)) :
    u.Grants c remote resource (.frames (cur :: rest)) =
      ⟨.ok (holders.map (fun h =>
              NewGrant resource (u.membership h) ⟨cur.ResourceTypeID, h.ID⟩),
            .frames (advance cur rest next)), fetched.sent⟩ := by
  unfold TraversalUnit.fetchHolders at hfetch
  by_cases h1 : cur.ResourceTypeID = "user"
  · simp only [h1, if_true, Option.some.injEq] at hfetch
    subst hfetch
    obtain ⟨records, hr, hm⟩ := mapRecords_ok_inv _ _ _ _ hres
    subst hm
    cases u
    ·
      have hg := grantsPhase_eq (c.GetUsers remote
          (some [(TraversalUnit.filter .account, resource.Id.Resource), (cursor, cur.Token)]))
        ("failed to list users for account " ++ resource.Id.Resource)
        ("error creating user resource for account " ++ resource.Id.Resource)
        (fun u => userResource u (some resource.Id)) (fun _ => accountMembership)
        resource (fun x => ⟨"user", x.ID⟩) cur rest records next
        (fun x => ⟨_, rfl, rfl⟩) hr
      simp only [TraversalUnit.filter] at hg
      simp [TraversalUnit.Grants, accountResourceType.Grants, accountBuilder,
        parsePageToken_frames, Bag.ResourceTypeID, Bag.Current, h1, resourceTypeAccount,
        resourceTypeRole, resourceTypeSite, resourceTypeUser, resourceTypeServiceUser, hg,
        TraversalUnit.membership, TraversalUnit.filter, Traced.mapRecords, List.map_map,
        Function.comp_def]
    ·
      have hg := grantsPhase_eq (c.GetUsers remote
          (some [(TraversalUnit.filter .role, resource.Id.Resource), (cursor, cur.Token)]))
        ("failed to list users for role " ++ resource.Id.Resource)
        ("error creating user resource for role " ++ resource.Id.Resource)
        (fun u => userResource u (some resource.Id)) (fun u => membershipsAt u.Scope)
        resource (fun x => ⟨"user", x.ID⟩) cur rest records next
        (fun x => ⟨_, rfl, rfl⟩) hr
      simp only [TraversalUnit.filter] at hg
      simp [TraversalUnit.Grants, roleResourceType.Grants, roleBuilder,
        parsePageToken_frames, Bag.ResourceTypeID, Bag.Current, h1, resourceTypeAccount,
        resourceTypeRole, resourceTypeSite, resourceTypeUser, resourceTypeServiceUser, hg,
        TraversalUnit.membership, TraversalUnit.filter, Traced.mapRecords, List.map_map,
        Function.comp_def]
    ·
      have hg := grantsPhase_eq (c.GetUsers remote
          (some [(TraversalUnit.filter .site, resource.Id.Resource), (cursor, cur.Token)]))
        ("failed to list users for site " ++ resource.Id.Resource)
        ("error creating user resource for site " ++ resource.Id.Resource)
        (fun u => userResource u (some resource.Id)) (fun _ => siteMembership)
        resource (fun x => ⟨"user", x.ID⟩) cur rest records next
        (fun x => ⟨_, rfl, rfl⟩) hr
      simp only [TraversalUnit.filter] at hg
      simp [TraversalUnit.Grants, siteResourceType.Grants, siteBuilder,
        parsePageToken_frames, Bag.ResourceTypeID, Bag.Current, h1, resourceTypeAccount,
        resourceTypeRole, resourceTypeSite, resourceTypeUser, resourceTypeServiceUser, hg,
        TraversalUnit.membership, TraversalUnit.filter, Traced.mapRecords, List.map_map,
        Function.comp_def]
  · by_cases h2 : cur.ResourceTypeID = "service_user"
    · simp only [h2, if_true, Option.some.injEq] at hfetch
      simp only [show ¬ ("service_user" = "user") by decide, if_false,
        Option.some.injEq] at hfetch
      subst hfetch
      obtain ⟨records, hr, hm⟩ := mapRecords_ok_inv _ _ _ _ hres
      subst hm
      cases u
      ·
        have hg := grantsPhase_eq (c.GetServiceUsers remote
            (some [(TraversalUnit.filter .account, resource.Id.Resource), (cursor, cur.Token)]))
          ("failed to list service users for account " ++ resource.Id.Resource)
          ("error creating service user resource for account " ++ resource.Id.Resource)
          (fun u => serviceUserResource u (some resource.Id)) (fun _ => accountMembership)
          resource (fun x => ⟨"service_user", x.ID⟩) cur rest records next
          (fun x => ⟨_, rfl, rfl⟩) hr
        simp only [TraversalUnit.filter] at hg
        simp [TraversalUnit.Grants, accountResourceType.Grants, accountBuilder,
          parsePageToken_frames, Bag.ResourceTypeID, Bag.Current, h2, resourceTypeAccount,
          resourceTypeRole, resourceTypeSite, resourceTypeUser, resourceTypeServiceUser, hg,
          TraversalUnit.membership, TraversalUnit.filter, Traced.mapRecords, List.map_map,
        Function.comp_def]
      ·
        have hg := grantsPhase_eq (c.GetServiceUsers remote
            (some [(TraversalUnit.filter .role, resource.Id.Resource), (cursor, cur.Token)]))
          ("failed to list service users for role " ++ resource.Id.Resource)
          ("error creating service user resource for role " ++ resource.Id.Resource)
          (fun u => serviceUserResource u (some resource.Id)) (fun u => membershipsAt u.Scope)
          resource (fun x => ⟨"service_user", x.ID⟩) cur rest records next
          (fun x => ⟨_, rfl, rfl⟩) hr
        simp only [TraversalUnit.filter] at hg
        simp [TraversalUnit.Grants, roleResourceType.Grants, roleBuilder,
          parsePageToken_frames, Bag.ResourceTypeID, Bag.Current, h2, resourceTypeAccount,
          resourceTypeRole, resourceTypeSite, resourceTypeUser, resourceTypeServiceUser, hg,
          TraversalUnit.membership, TraversalUnit.filter, Traced.mapRecords, List.map_map,
        Function.comp_def]
      ·
        have hg := grantsPhase_eq (c.GetServiceUsers remote
            (some [(TraversalUnit.filter .site, resource.Id.Resource), (cursor, cur.Token)]))
          ("failed to list service users for site " ++ resource.Id.Resource)
          ("error creating service user resource for site " ++ resource.Id.Resource)
          (fun u => serviceUserResource u (some resource.Id)) (fun _ => siteMembership)
          resource (fun x => ⟨"service_user", x.ID⟩) cur rest records next
          (fun x => ⟨_, rfl, rfl⟩) hr
        simp only [TraversalUnit.filter] at hg
        simp [TraversalUnit.Grants, siteResourceType.Grants, siteBuilder,
          parsePageToken_frames, Bag.ResourceTypeID, Bag.Current, h2, resourceTypeAccount,
          resourceTypeRole, resourceTypeSite, resourceTypeUser, resourceTypeServiceUser, hg,
          TraversalUnit.membership, TraversalUnit.filter, Traced.mapRecords, List.map_map,
        Function.comp_def]
    · simp only [h1, h2, if_false] at hfetch
      split at hfetch
      · rename_i h3
        obtain ⟨h3, hu⟩ := h3
        subst hu
        simp only [Option.some.injEq] at hfetch
        subst hfetch
        obtain ⟨records, hr, hm⟩ := mapRecords_ok_inv _ _ _ _ hres
        subst hm
        have hg := grantsPhase_eq (c.GetSites remote
            (some [(TraversalUnit.filter .account, resource.Id.Resource), (cursor, cur.Token)]))
          ("failed to list sites for account " ++ resource.Id.Resource)
          ("error creating site resource for account " ++ resource.Id.Resource)
          (fun u => siteResource u (some resource.Id)) (fun _ => accountMembership)
          resource (fun x => ⟨"site", x.ID⟩) cur rest records next
          (fun x => ⟨_, rfl, rfl⟩) hr
        simp only [TraversalUnit.filter] at hg
        simp [TraversalUnit.Grants, accountResourceType.Grants, accountBuilder,
          parsePageToken_frames, Bag.ResourceTypeID, Bag.Current, h3, resourceTypeAccount,
          resourceTypeRole, resourceTypeSite, resourceTypeUser, resourceTypeServiceUser, hg,
          TraversalUnit.membership, TraversalUnit.filter, Traced.mapRecords, List.map_map,
        Function.comp_def]
      · exact absurd hfetch (by simp)

theorem membershipsAt_cases (scope : String) :
    (scope ∈ ["account", "site", "tenant"] ∧ membershipsAt scope = scope ++ " scope" ∧
      membershipsAt scope ∈ ["account scope", "site scope", "tenant scope"]) ∨
    (scope ∉ ["account", "site", "tenant"] ∧ membershipsAt scope = "" ∧
      "" ∉ ["account scope", "site scope", "tenant scope"]) := by
  by_cases h1 : scope = "account"
  · subst h1; left; decide
  · by_cases h2 : scope = "site"
    · subst h2; left; decide
    · by_cases h3 : scope = "tenant"
      · subst h3; left; decide
      · right
        refine ⟨by simp [h1, h2, h3], ?_, by decide⟩
        have e1 : (scope == "account") = false := by simp [h1]
        have e2 : (scope == "site") = false := by simp [h2]
        have e3 : (scope == "tenant") = false := by simp [h3]
        simp only [membershipsAt, memberships, List.lookup, e1, e2, e3]
        rfl

/-- C14: in the user, service-user or site state of account `Grants`, and in
the user or service-user state of site `Grants`, a fetched page of `n` records
gives exactly `n` grants in the order of the records; the i-th grant is the
entitlement "member" (the one entitlement the unit declares) on the given
resource, granted to the principal whose resource type is that of the state and
whose id is the id of the i-th record. Resource mapping always succeeds here. -/
theorem member_grants_per_record (u : TraversalUnit) (c : Client) (remote : Remote)
    (resource : Resource) (cur : PageState) (rest : List PageState)
    (fetched : Traced (List Holder × String)) (holders : List Holder) (next : String)
    (order : RangeOrder memberships)
    (hu : u ≠ .role)
    (hfetch : u.fetchHolders c remote resource cur.ResourceTypeID cur.Token = some fetched)
    (hres : fetched.result = .ok (holders, next)) :
    ∃ grants tok,
      u.Grants c remote resource (.frames (cur :: rest)) = ⟨.ok (grants, tok), fetched.sent⟩ ∧
      grants = holders.map (fun h =>
        ({ resource := resource, entitlement := "member",
           principal := ⟨cur.ResourceTypeID, h.ID⟩ } : Grant)) ∧
      grants.length = holders.length ∧
      (u.Entitlements c order resource).map Entitlement.Slug = ["member"] ∧
      (u.Entitlements c order resource).map Entitlement.Resource = [resource] := by
  have hg := grants_child_records u c remote resource cur rest fetched holders next hfetch hres
  refine ⟨_, _, hg, ?_, by simp, ?_, ?_⟩
  · cases u
    · rfl
    · exact absurd rfl hu
    · rfl
  · cases u
    · rfl
    · exact absurd rfl hu
    · rfl
  · cases u
    · rfl
    · exact absurd rfl hu
    · rfl

/-- C14 on the first page of sites of the example account. -/
theorem member_grants_per_record_witness :
    ∃ grants tok,
      TraversalUnit.account.Grants exampleClient pagedRemote exampleAccount
          (.frames (⟨"", "site", ""⟩ :: [⟨"", "user", ""⟩])) =
        ⟨.ok (grants, tok),
          ((exampleClient.GetSites pagedRemote
            (some [(accountsFilter, "acc1"), (cursor, "")])).mapRecords
              fun x => (⟨x.ID, ""⟩ : Holder)).sent⟩ ∧
      grants = [(⟨"s1", ""⟩ : Holder)].map (fun h =>
        ({ resource := exampleAccount, entitlement := "member",
           principal := ⟨(⟨"", "site", ""⟩ : PageState).ResourceTypeID, h.ID⟩ } : Grant)) ∧
      grants.length = [(⟨"s1", ""⟩ : Holder)].length ∧
      (TraversalUnit.account.Entitlements exampleClient tenantFirstOrder exampleAccount).map
        Entitlement.Slug = ["member"] ∧
      (TraversalUnit.account.Entitlements exampleClient tenantFirstOrder exampleAccount).map
        Entitlement.Resource = [exampleAccount] :=
  member_grants_per_record .account exampleClient pagedRemote exampleAccount
    ⟨"", "site", ""⟩ [⟨"", "user", ""⟩] _ [⟨"s1", ""⟩] "page2" tenantFirstOrder
    (by decide) rfl rfl

theorem roleEntitlements_slugs (c : Client) (order : RangeOrder memberships)
    (resource : Resource) :
    (((roleBuilder c).Entitlements order resource).map Entitlement.Slug).Perm
      ["account scope", "site scope", "tenant scope"] := by
  have h : ((roleBuilder c).Entitlements order resource).map Entitlement.Slug =
      order.visited.map Prod.snd := by
    simp [roleResourceType.Entitlements, NewAssignmentEntitlement]
  rw [h]
  exact order.all.map Prod.snd

/-- C18: every grant role `Grants` emits for a fetched user or service user
carries the entitlement `memberships[scope]`. For a scope among "account",
"site", "tenant" this is "<scope> scope", one of the three entitlements role
`Entitlements` returns for the same role, in whatever order the call ranges over
the map `memberships`; for any other scope it is the empty name, which is none
of the three. -/
theorem role_grant_entitlement (c : Client) (remote : Remote)
    (resource : Resource) (cur : PageState) (rest : List PageState)
    (fetched : Traced (List Holder × String)) (holders : List Holder) (next : String)
    (order : RangeOrder memberships)
    (hfetch : TraversalUnit.role.fetchHolders c remote resource cur.ResourceTypeID cur.Token =
      some fetched)
    (hres : fetched.result = .ok (holders, next)) :
    ∃ grants tok,
      (roleBuilder c).Grants remote resource (.frames (cur :: rest)) =
        ⟨.ok (grants, tok), fetched.sent⟩ ∧
      grants = holders.map (fun h =>
        ({ resource := resource, entitlement := membershipsAt h.Scope,
           principal := ⟨cur.ResourceTypeID, h.ID⟩ } : Grant)) ∧
      (((roleBuilder c).Entitlements order resource).map Entitlement.Slug).Perm
        ["account scope", "site scope", "tenant scope"] ∧
      (∀ e ∈ (roleBuilder c).Entitlements order resource, e.Resource = resource) ∧
      ∀ scope : String,
        (scope ∈ ["account", "site", "tenant"] ∧ membershipsAt scope = scope ++ " scope" ∧
          membershipsAt scope ∈
            ((roleBuilder c).Entitlements order resource).map Entitlement.Slug) ∨
        (scope ∉ ["account", "site", "tenant"] ∧ membershipsAt scope = "" ∧
          "" ∉ ((roleBuilder c).Entitlements order resource).map Entitlement.Slug) := by
  have hg := grants_child_records .role c remote resource cur rest fetched holders next
    hfetch hres
  have hslugs := roleEntitlements_slugs c order resource
  refine ⟨_, _, hg, rfl, hslugs, ?_, ?_⟩
  · intro e he
    simp only [roleResourceType.Entitlements, List.mem_map] at he
    obtain ⟨kv, _, rfl⟩ := he
    rfl
  · intro scope
    rcases membershipsAt_cases scope with ⟨h1, h2, h3⟩ | ⟨h1, h2, h3⟩
    · exact Or.inl ⟨h1, h2, hslugs.mem_iff.mpr h3⟩
    · exact Or.inr ⟨h1, h2, fun hmem => h3 (hslugs.mem_iff.mp hmem)⟩

/-- C18 on a page of two users, one with the scope "site" and one with the
scope "global", and a call of `Entitlements` that visits the map in the order
tenant, account, site. -/
theorem role_grant_entitlement_witness :
    ∃ grants tok,
      (roleBuilder exampleClient).Grants scopedRemote exampleRole
          (.frames (⟨"", "user", ""⟩ :: [])) =
        ⟨.ok (grants, tok),
          ((exampleClient.GetUsers scopedRemote
            (some [(rolesFilter, "42"), (cursor, "")])).mapRecords
              fun x => (⟨x.ID, x.Scope⟩ : Holder)).sent⟩ ∧
      grants = [(⟨"u1", "site"⟩ : Holder), ⟨"u2", "global"⟩].map (fun h =>
        ({ resource := exampleRole, entitlement := membershipsAt h.Scope,
           principal := ⟨(⟨"", "user", ""⟩ : PageState).ResourceTypeID, h.ID⟩ } : Grant)) ∧
      (((roleBuilder exampleClient).Entitlements tenantFirstOrder exampleRole).map
        Entitlement.Slug).Perm ["account scope", "site scope", "tenant scope"] ∧
      (∀ e ∈ (roleBuilder exampleClient).Entitlements tenantFirstOrder exampleRole,
        e.Resource = exampleRole) ∧
      ∀ scope : String,
        (scope ∈ ["account", "site", "tenant"] ∧ membershipsAt scope = scope ++ " scope" ∧
          membershipsAt scope ∈
            ((roleBuilder exampleClient).Entitlements tenantFirstOrder exampleRole).map
              Entitlement.Slug) ∨
        (scope ∉ ["account", "site", "tenant"] ∧ membershipsAt scope = "" ∧
          "" ∉ ((roleBuilder exampleClient).Entitlements tenantFirstOrder exampleRole).map
            Entitlement.Slug) :=
  role_grant_entitlement exampleClient scopedRemote exampleRole ⟨"", "user", ""⟩ [] _
    [⟨"u1", "site"⟩, ⟨"u2", "global"⟩] "" tenantFirstOrder rfl rfl

/-- C19: when `Grants` of the account, role or site unit runs in a child state
and the fetched page comes back with a non-empty `nextCursor`, the returned
page token has the same frame as current frame, with the same resource type and
its cursor set to `nextCursor`, and the pending frames below it are unchanged
in content and order. -/
theorem grants_keeps_pending_frames (u : TraversalUnit) (c : Client) (remote : Remote)
    (resource : Resource) (cur : PageState) (rest : List PageState)
    (fetched : Traced (Nat × String)) (n : Nat) (next : String)
    (hfetch : u.fetch c remote resource cur.ResourceTypeID cur.Token = some fetched)
    (hpage : fetched.result = .ok (n, next)) (hne : next ≠ "") :
    ∃ grants tok,
      u.Grants c remote resource (.frames (cur :: rest)) = ⟨.ok (grants, tok), fetched.sent⟩ ∧
      tok = .frames (⟨next, cur.ResourceTypeID, cur.ResourceID⟩ :: rest) ∧
      Bag.Unmarshal tok = .ok (⟨next, cur.ResourceTypeID, cur.ResourceID⟩ :: rest) ∧
      Bag.ResourceTypeID (⟨next, cur.ResourceTypeID, cur.ResourceID⟩ :: rest) =
        cur.ResourceTypeID ∧
      Bag.PageToken (⟨next, cur.ResourceTypeID, cur.ResourceID⟩ :: rest) = next ∧
      Bag.Pop (⟨next, cur.ResourceTypeID, cur.ResourceID⟩ :: rest) = rest := by
  obtain ⟨grants, hg, _⟩ :=
    grants_child_step u c remote resource cur rest fetched n next hfetch hpage
  refine ⟨grants, _, hg, ?_, ?_, rfl, rfl, rfl⟩
  · simp [advance, hne]
  · simp [advance, hne, Bag.Unmarshal]

/-- C19 on the first page of sites of the example account. -/
theorem grants_keeps_pending_frames_witness :
    ∃ grants tok,
      TraversalUnit.account.Grants exampleClient pagedRemote exampleAccount
          (.frames (⟨"", "site", ""⟩ :: [⟨"", "service_user", ""⟩, ⟨"", "user", ""⟩])) =
        ⟨.ok (grants, tok),
          (Endpoint.sites.call exampleClient pagedRemote
            (some [(accountsFilter, "acc1"), (cursor, "")])).sent⟩ ∧
      tok = .frames (⟨"page2", "site", ""⟩ :: [⟨"", "service_user", ""⟩, ⟨"", "user", ""⟩]) ∧
      Bag.Unmarshal tok =
        .ok (⟨"page2", "site", ""⟩ :: [⟨"", "service_user", ""⟩, ⟨"", "user", ""⟩]) ∧
      Bag.ResourceTypeID
        (⟨"page2", "site", ""⟩ :: [⟨"", "service_user", ""⟩, ⟨"", "user", ""⟩]) = "site" ∧
      Bag.PageToken
        (⟨"page2", "site", ""⟩ :: [⟨"", "service_user", ""⟩, ⟨"", "user", ""⟩]) = "page2" ∧
      Bag.Pop (⟨"page2", "site", ""⟩ :: [⟨"", "service_user", ""⟩, ⟨"", "user", ""⟩]) =
        [⟨"", "service_user", ""⟩, ⟨"", "user", ""⟩] :=
  grants_keeps_pending_frames .account exampleClient pagedRemote exampleAccount
    ⟨"", "site", ""⟩ [⟨"", "service_user", ""⟩, ⟨"", "user", ""⟩]
    (Endpoint.sites.call exampleClient pagedRemote
      (some [(accountsFilter, "acc1"), (cursor, "")])) 1 "page2" rfl rfl (by decide)

/-! ### Requests per call -/

theorem listPage_sent {α : Type} (fetched : Traced (List α × String)) (wrap : Err → Err)
    (mapper : α → Except Err Resource) (bag : Bag) :
    (listPage fetched wrap mapper bag).sent = fetched.sent := by
  unfold listPage
  split
  · rfl
  · split
    · rfl
    · split <;> rfl

theorem grantsPhase_sent {α : Type} (fetched : Traced (List α × String))
    (listFailure mapFailure : String) (mapper : α → Except Err Resource)
    (membership : α → String) (resource : Resource) (bag : Bag) :
    (grantsPhase fetched listFailure mapFailure mapper membership resource bag).sent =
      fetched.sent := by
  unfold grantsPhase
  split
  · rfl
  · split
    · rfl
    · split
      · rfl
      · split <;> rfl

theorem roleListFinish_sent (allRoles : List Role) (bag : Bag) (sent : List Request) :
    (roleListFinish allRoles bag sent).sent = sent := by
  unfold roleListFinish
  split
  · rfl
  · split <;> rfl

theorem parsePageToken_garbled (raw : String) (rid : ResourceId) :
    ∃ err, parsePageToken (.garbled raw) rid = .error err :=
  ⟨_, rfl⟩

theorem parsePageToken_decodes (stack : List PageState) (rid : ResourceId) :
    ∃ bag page, parsePageToken (.frames stack) rid = .ok (bag, page) ∧
      Bag.ResourceTypeID bag = stateOf rid.ResourceType (.frames stack) := by
  cases stack with
  | nil =>
    refine ⟨_, _, parsePageToken_empty rid, ?_⟩
    have := stateOf_empty rid.ResourceType
    simpa [Token.empty, Bag.ResourceTypeID, Bag.Current] using this.symm
  | cons cur rest =>
    refine ⟨_, _, parsePageToken_frames cur rest rid, ?_⟩
    simp [stateOf_frames, Bag.ResourceTypeID, Bag.Current]

theorem stateOf_garbled (root raw : String) : stateOf root (.garbled raw) = "" := rfl

theorem user_list_sent (c : Client) (remote : Remote) (parent : ResourceId)
    (stack : List PageState) :
    ∃ params, ((userBuilder c).List remote (some parent) (.frames stack)).sent =
      c.sentFor remote usersEndpoint params := by
  obtain ⟨bag, page, hp, _⟩ := parsePageToken_decodes stack ⟨"user", ""⟩
  refine ⟨some [(cursor, page)], ?_⟩
  simp only [userResourceType.List, userBuilder, resourceTypeUser, hp, listPage_sent,
    GetUsers_sent]

theorem serviceUser_list_sent (c : Client) (remote : Remote) (parent : ResourceId)
    (stack : List PageState) :
    ∃ params, ((serviceUserBuilder c).List remote (some parent) (.frames stack)).sent =
      c.sentFor remote serviceUsersEndpoint params := by
  obtain ⟨bag, page, hp, _⟩ := parsePageToken_decodes stack ⟨"service_user", ""⟩
  refine ⟨some [(cursor, page)], ?_⟩
  simp only [serviceUserResourceType.List, serviceUserBuilder, resourceTypeServiceUser, hp, listPage_sent,
    GetServiceUsers_sent]

theorem site_list_sent (c : Client) (remote : Remote) (parent : ResourceId)
    (stack : List PageState) :
    ∃ params, ((siteBuilder c).List remote (some parent) (.frames stack)).sent =
      c.sentFor remote sitesEndpoint params := by
  obtain ⟨bag, page, hp, _⟩ := parsePageToken_decodes stack ⟨"site", ""⟩
  refine ⟨some [(cursor, page)], ?_⟩
  simp only [siteResourceType.List, siteBuilder, resourceTypeSite, hp, listPage_sent,
    GetSites_sent]

theorem account_list_sent (c : Client) (remote : Remote) (parentId : Option ResourceId)
    (stack : List PageState) :
    ∃ params, ((accountBuilder c).List remote parentId (.frames stack)).sent =
      c.sentFor remote accountsEndpoint params := by
  obtain ⟨bag, page, hp, _⟩ := parsePageToken_decodes stack ⟨"account", ""⟩
  refine ⟨some [(cursor, page)], ?_⟩
  simp only [accountResourceType.List, accountBuilder, resourceTypeAccount, hp, listPage_sent,
    GetAccounts_sent]

/-- The requests of a call that reaches the client call of the endpoint `e`. -/
theorem sent_shape_one (c : Client) (remote : Remote) (sent : List Request)
    (requested : Option Endpoint) (e : Endpoint) (hb : requested = some e)
    (h : ∃ params, sent = c.sentFor remote e.path params) :
    sent.length =
        c.requestCountFor remote requested ∧
      ∀ req ∈ sent, req.Method = "GET" := by
  obtain ⟨params, rfl⟩ := h
  subst hb
  rw [sentFor_ite]
  unfold Client.requestCountFor
  split <;> simp_all [Client.requestFor]

/-- The requests of a call that reaches no client call. -/
theorem sent_shape_none (c : Client) (remote : Remote) (sent : List Request)
    (requested : Option Endpoint) (hb : requested = none) (h : sent = []) :
    sent.length =
        c.requestCountFor remote requested ∧
      ∀ req ∈ sent, req.Method = "GET" := by
  subst h
  subst hb
  simp [Client.requestCountFor]

theorem account_grants_shape (c : Client) (remote : Remote) (resource : Resource)
    (parentId : Option ResourceId) (pToken : Token) :
    (ResourceUnit.account.run .grants c remote resource parentId pToken).sent.length =
        ResourceUnit.account.requestCount .grants c remote parentId pToken ∧
      ∀ req ∈ (ResourceUnit.account.run .grants c remote resource parentId pToken).sent,
        req.Method = "GET" := by
  unfold ResourceUnit.requestCount
  cases pToken with
  | garbled raw => exact sent_shape_none c remote _ _ rfl rfl
  | frames stack =>
    obtain ⟨bag, page, hp, hst⟩ := parsePageToken_decodes stack ⟨"account", ""⟩
    simp only [] at hst
    by_cases h0 : stateOf "account" (.frames stack) = "account"
    · apply sent_shape_none
      · simp [ResourceUnit.requested, h0]
      · simp [ResourceUnit.run, count_sent, accountResourceType.Grants, accountBuilder,
          resourceTypeAccount, hp, hst, h0, Bag.Marshal]
    · by_cases h1 : stateOf "account" (.frames stack) = "user"
      · apply sent_shape_one c remote _ _ .users
        · simp [ResourceUnit.requested, h1]
        · refine ⟨some [(accountsFilter, resource.Id.Resource), (cursor, page)], ?_⟩
          simp [ResourceUnit.run, count_sent, accountResourceType.Grants, accountBuilder,
            resourceTypeAccount, resourceTypeUser, hp, hst, h1, grantsPhase_sent, GetUsers_sent,
            Endpoint.path]
      · by_cases h2 : stateOf "account" (.frames stack) = "service_user"
        · apply sent_shape_one c remote _ _ .serviceUsers
          · simp [ResourceUnit.requested, h2]
          · refine ⟨some [(accountsFilter, resource.Id.Resource), (cursor, page)], ?_⟩
            simp [ResourceUnit.run, count_sent, accountResourceType.Grants, accountBuilder,
              resourceTypeAccount, resourceTypeUser, resourceTypeServiceUser, hp, hst, h2,
              grantsPhase_sent, GetServiceUsers_sent, Endpoint.path]
        · by_cases h3 : stateOf "account" (.frames stack) = "site"
          · apply sent_shape_one c remote _ _ .sites
            · simp [ResourceUnit.requested, h3]
            · refine ⟨some [(accountsFilter, resource.Id.Resource), (cursor, page)], ?_⟩
              simp [ResourceUnit.run, count_sent, accountResourceType.Grants, accountBuilder,
                resourceTypeAccount, resourceTypeUser, resourceTypeServiceUser, resourceTypeSite, hp, hst,
                h3, grantsPhase_sent, GetSites_sent, Endpoint.path]
          · apply sent_shape_none
            · simp [ResourceUnit.requested, h1, h2, h3]
            · simp [ResourceUnit.run, count_sent, accountResourceType.Grants, accountBuilder,
                resourceTypeAccount, resourceTypeUser, resourceTypeServiceUser, resourceTypeSite, hp, hst,
                h0, h1, h2, h3]

theorem role_grants_shape (c : Client) (remote : Remote) (resource : Resource)
    (parentId : Option ResourceId) (pToken : Token) :
    (ResourceUnit.role.run .grants c remote resource parentId pToken).sent.length =
        ResourceUnit.role.requestCount .grants c remote parentId pToken ∧
      ∀ req ∈ (ResourceUnit.role.run .grants c remote resource parentId pToken).sent,
        req.Method = "GET" := by
  unfold ResourceUnit.requestCount
  cases pToken with
  | garbled raw => exact sent_shape_none c remote _ _ rfl rfl
  | frames stack =>
    obtain ⟨bag, page, hp, hst⟩ := parsePageToken_decodes stack ⟨"role", ""⟩
    simp only [] at hst
    by_cases h0 : stateOf "role" (.frames stack) = "role"
    · apply sent_shape_none
      · simp [ResourceUnit.requested, h0]
      · simp [ResourceUnit.run, count_sent, roleResourceType.Grants, roleBuilder,
          resourceTypeRole, hp, hst, h0, Bag.Marshal]
    · by_cases h1 : stateOf "role" (.frames stack) = "user"
      · apply sent_shape_one c remote _ _ .users
        · simp [ResourceUnit.requested, h1]
        · refine ⟨some [(rolesFilter, resource.Id.Resource), (cursor, page)], ?_⟩
          simp [ResourceUnit.run, count_sent, roleResourceType.Grants, roleBuilder,
            resourceTypeRole, resourceTypeUser, hp, hst, h1, grantsPhase_sent, GetUsers_sent,
            Endpoint.path]
      · by_cases h2 : stateOf "role" (.frames stack) = "service_user"
        · apply sent_shape_one c remote _ _ .serviceUsers
          · simp [ResourceUnit.requested, h2]
          · refine ⟨some [(rolesFilter, resource.Id.Resource), (cursor, page)], ?_⟩
            simp [ResourceUnit.run, count_sent, roleResourceType.Grants, roleBuilder,
              resourceTypeRole, resourceTypeUser, resourceTypeServiceUser, hp, hst, h2,
              grantsPhase_sent, GetServiceUsers_sent, Endpoint.path]
        · apply sent_shape_none
          · simp [ResourceUnit.requested, h1, h2]
          · simp [ResourceUnit.run, count_sent, roleResourceType.Grants, roleBuilder,
              resourceTypeRole, resourceTypeUser, resourceTypeServiceUser, hp, hst, h0, h1, h2]

theorem site_grants_shape (c : Client) (remote : Remote) (resource : Resource)
    (parentId : Option ResourceId) (pToken : Token) :
    (ResourceUnit.site.run .grants c remote resource parentId pToken).sent.length =
        ResourceUnit.site.requestCount .grants c remote parentId pToken ∧
      ∀ req ∈ (ResourceUnit.site.run .grants c remote resource parentId pToken).sent,
        req.Method = "GET" := by
  unfold ResourceUnit.requestCount
  cases pToken with
  | garbled raw => exact sent_shape_none c remote _ _ rfl rfl
  | frames stack =>
    obtain ⟨bag, page, hp, hst⟩ := parsePageToken_decodes stack ⟨"site", ""⟩
    simp only [] at hst
    by_cases h0 : stateOf "site" (.frames stack) = "site"
    · apply sent_shape_none
      · simp [ResourceUnit.requested, h0]
      · simp [ResourceUnit.run, count_sent, siteResourceType.Grants, siteBuilder,
          resourceTypeSite, hp, hst, h0, Bag.Marshal]
    · by_cases h1 : stateOf "site" (.frames stack) = "user"
      · apply sent_shape_one c remote _ _ .users
        · simp [ResourceUnit.requested, h1]
        · refine ⟨some [(sitesFilter, resource.Id.Resource), (cursor, page)], ?_⟩
          simp [ResourceUnit.run, count_sent, siteResourceType.Grants, siteBuilder,
            resourceTypeSite, resourceTypeUser, hp, hst, h1, grantsPhase_sent, GetUsers_sent,
            Endpoint.path]
      · by_cases h2 : stateOf "site" (.frames stack) = "service_user"
        · apply sent_shape_one c remote _ _ .serviceUsers
          · simp [ResourceUnit.requested, h2]
          · refine ⟨some [(sitesFilter, resource.Id.Resource), (cursor, page)], ?_⟩
            simp [ResourceUnit.run, count_sent, siteResourceType.Grants, siteBuilder,
              resourceTypeSite, resourceTypeUser, resourceTypeServiceUser, hp, hst, h2,
              grantsPhase_sent, GetServiceUsers_sent, Endpoint.path]
        · apply sent_shape_none
          · simp [ResourceUnit.requested, h1, h2]
          · simp [ResourceUnit.run, count_sent, siteResourceType.Grants, siteBuilder,
              resourceTypeSite, resourceTypeUser, resourceTypeServiceUser, hp, hst, h0, h1, h2]

theorem role_list_shape (c : Client) (remote : Remote) (resource : Resource)
    (parentId : Option ResourceId) (pToken : Token) :
    (ResourceUnit.role.run .list c remote resource parentId pToken).sent.length =
        ResourceUnit.role.requestCount .list c remote parentId pToken ∧
      ∀ req ∈ (ResourceUnit.role.run .list c remote resource parentId pToken).sent,
        req.Method = "GET" := by
  unfold ResourceUnit.requestCount
  cases pToken with
  | garbled raw => exact sent_shape_none c remote _ _ rfl rfl
  | frames stack =>
    obtain ⟨bag, page, hp, hst⟩ := parsePageToken_decodes stack ⟨"role", ""⟩
    simp only [] at hst
    by_cases h0 : stateOf "role" (.frames stack) = "role"
    · apply sent_shape_one c remote _ _ .roles
      · simp [ResourceUnit.requested, h0]
      · refine ⟨some [(cursor, page)], ?_⟩
        simp only [ResourceUnit.run, count_sent, roleResourceType.List, roleBuilder,
          resourceTypeRole, hp, hst, h0, if_true, Endpoint.path]
        split
        · exact GetPredefinedRoles_sent _ _ _
        · split
          · exact GetPredefinedRoles_sent _ _ _
          · rw [roleListFinish_sent]
            exact GetPredefinedRoles_sent _ _ _
    · by_cases h1 : stateOf "role" (.frames stack) = "user"
      · apply sent_shape_one c remote _ _ .users
        · simp [ResourceUnit.requested, h1]
        · refine ⟨some [(cursor, page)], ?_⟩
          simp only [ResourceUnit.run, count_sent, roleResourceType.List, roleBuilder,
            resourceTypeRole, resourceTypeUser, hp, hst, h1, if_true,
            show ¬ ("user" = "role") by decide, if_false, Endpoint.path]
          split
          · exact GetUsers_sent _ _ _
          · split
            · exact GetUsers_sent _ _ _
            · rw [roleListFinish_sent]
              exact GetUsers_sent _ _ _
      · by_cases h2 : stateOf "role" (.frames stack) = "service_user"
        · apply sent_shape_one c remote _ _ .serviceUsers
          · simp [ResourceUnit.requested, h0, h1, h2]
          · refine ⟨some [(cursor, page)], ?_⟩
            simp only [ResourceUnit.run, count_sent, roleResourceType.List, roleBuilder,
              resourceTypeRole, resourceTypeUser, resourceTypeServiceUser, hp, hst, h2,
              if_true, show ¬ ("service_user" = "role") by decide,
              show ¬ ("service_user" = "user") by decide, if_false, Endpoint.path]
            split
            · exact GetServiceUsers_sent _ _ _
            · split
              · exact GetServiceUsers_sent _ _ _
              · rw [roleListFinish_sent]
                exact GetServiceUsers_sent _ _ _
        · apply sent_shape_none
          · simp [ResourceUnit.requested, h0, h1, h2]
          · simp [ResourceUnit.run, count_sent, roleResourceType.List, roleBuilder,
              resourceTypeRole, resourceTypeUser, resourceTypeServiceUser, hp, hst, h0, h1, h2]

theorem requested_isSome (unit : ResourceUnit) (call : PagedCall)
    (parentId : Option ResourceId) (pToken : Token) :
    (unit.requested call parentId pToken).isSome = unit.reachesClient call parentId pToken := by
  cases unit <;> cases call <;>
    simp only [ResourceUnit.requested, ResourceUnit.reachesClient]
  · cases pToken <;> rfl
  · by_cases h1 : stateOf "account" pToken = "user"
    · simp [h1]
    · by_cases h2 : stateOf "account" pToken = "service_user"
      · simp [h2]
      · by_cases h3 : stateOf "account" pToken = "site" <;> simp [h1, h2, h3]
  · cases parentId <;> cases pToken <;> rfl
  · rfl
  · cases parentId <;> cases pToken <;> rfl
  · rfl
  · by_cases h1 : stateOf "role" pToken = "role"
    · simp [h1]
    · by_cases h2 : stateOf "role" pToken = "user"
      · simp [h2]
      · by_cases h3 : stateOf "role" pToken = "service_user" <;> simp [h1, h2, h3]
  · by_cases h1 : stateOf "role" pToken = "user"
    · simp [h1]
    · by_cases h2 : stateOf "role" pToken = "service_user" <;> simp [h1, h2]
  · cases parentId <;> cases pToken <;> rfl
  · by_cases h1 : stateOf "site" pToken = "user"
    · simp [h1]
    · by_cases h2 : stateOf "site" pToken = "service_user" <;> simp [h1, h2]

/-- C12, as stated, fails: `Grants` of the user unit sends no request, `Grants`
of the account unit sends none on the empty page token (the root state), and
`List` of the site unit sends none without a parent id. -/
theorem some_calls_send_no_request :
    (ResourceUnit.user.run .grants exampleClient emptyRemote exampleAccount none
        Token.empty).sent.length = 0 ∧
    (ResourceUnit.account.run .grants exampleClient emptyRemote exampleAccount none
        Token.empty).sent.length = 0 ∧
    (ResourceUnit.site.run .list exampleClient emptyRemote exampleAccount none
        Token.empty).sent.length = 0 ∧
    ¬ (∀ (unit : ResourceUnit) (call : PagedCall) (c : Client) (remote : Remote)
        (resource : Resource) (parentId : Option ResourceId) (pToken : Token),
        (unit.run call c remote resource parentId pToken).sent.length = 1) := by
  refine ⟨rfl, rfl, rfl, ?_⟩
  intro h
  have := h .user .grants exampleClient emptyRemote exampleAccount none Token.empty
  exact absurd this (by decide)

/-- C12, amended: every call of `List` and of `Grants`, on each of the five
traversal units, for every page token and every parent or resource, issues at
most one outbound HTTP request, a GET. It issues exactly one when the call
reaches a client function and `http.NewRequestWithContext` accepts the URL of
the endpoint; the calls that reach a client function are `List` of the account
unit, and of the user, service-user and site units with a parent id, on a token
that decodes; `List` of the role unit in the role, user or service_user state;
`Grants` of the account, role and site units in a child state. It issues none
otherwise: `Grants` of the user and service-user units, `List` without a parent
id, `Grants` in the root state, an unhandled state, a token that does not
decode, a URL that does not parse (account `List` on the base URL
"https://host.example/%zz/" sends nothing, and one request on
"https://host.example/"). -/
theorem requests_per_call (unit : ResourceUnit) (call : PagedCall) (c : Client)
    (remote : Remote) (resource : Resource) (parentId : Option ResourceId) (pToken : Token) :
    (unit.run call c remote resource parentId pToken).sent.length =
        c.requestCountFor remote (unit.requested call parentId pToken) ∧
    (unit.run call c remote resource parentId pToken).sent.length ≤ 1 ∧
    (∀ req ∈ (unit.run call c remote resource parentId pToken).sent, req.Method = "GET") ∧
    (unit.requested call parentId pToken).isSome = unit.reachesClient call parentId pToken ∧
    (ResourceUnit.account.run .list badUrlClient emptyRemote resource parentId
      Token.empty).sent = [] ∧
    (ResourceUnit.account.run .list exampleClient emptyRemote resource parentId
      Token.empty).sent.length = 1 := by
  have key : (unit.run call c remote resource parentId pToken).sent.length =
        unit.requestCount call c remote parentId pToken ∧
      ∀ req ∈ (unit.run call c remote resource parentId pToken).sent, req.Method = "GET" := by
    cases unit <;> cases call
    · cases pToken with
      | garbled raw => exact sent_shape_none c remote _ _ rfl rfl
      | frames stack =>
        exact sent_shape_one c remote _ _ .accounts rfl
          (account_list_sent c remote parentId stack)
    · exact account_grants_shape c remote resource parentId pToken
    · cases parentId with
      | none => exact sent_shape_none c remote _ _ rfl rfl
      | some parent =>
        cases pToken with
        | garbled raw => exact sent_shape_none c remote _ _ rfl rfl
        | frames stack =>
          exact sent_shape_one c remote _ _ .users rfl (user_list_sent c remote parent stack)
    · exact sent_shape_none c remote _ _ rfl rfl
    · cases parentId with
      | none => exact sent_shape_none c remote _ _ rfl rfl
      | some parent =>
        cases pToken with
        | garbled raw => exact sent_shape_none c remote _ _ rfl rfl
        | frames stack =>
          exact sent_shape_one c remote _ _ .serviceUsers rfl
            (serviceUser_list_sent c remote parent stack)
    · exact sent_shape_none c remote _ _ rfl rfl
    · exact role_list_shape c remote resource parentId pToken
    · exact role_grants_shape c remote resource parentId pToken
    · cases parentId with
      | none => exact sent_shape_none c remote _ _ rfl rfl
      | some parent =>
        cases pToken with
        | garbled raw => exact sent_shape_none c remote _ _ rfl rfl
        | frames stack =>
          exact sent_shape_one c remote _ _ .sites rfl (site_list_sent c remote parent stack)
    · exact site_grants_shape c remote resource parentId pToken
  refine ⟨key.1, ?_, key.2, requested_isSome unit call parentId pToken, rfl, rfl⟩
  rw [key.1]
  unfold ResourceUnit.requestCount Client.requestCountFor
  split
  · simp
  · split <;> simp

/-! ### Site parents -/

/-- C13 at a failing input: site `List` sends no account filter and
`siteResource` never reads `AccountID`, so the site "s2" of the account "acc2"
is returned as a child of the account "acc1", and, by the same call with the
other parent, as a child of "acc2" as well: the same site is listed under two
accounts. For every site and every parent the resource carries that parent. -/
theorem site_listed_under_any_parent (st : Site) (parent : ResourceId) :
    siteResource st (some parent) =
      .ok { Id := ⟨"site", st.ID⟩, ParentResourceId := some parent, DisplayName := st.Name,
            Annotations := [] } ∧
    (siteBuilder exampleClient).List foreignSiteRemote (some ⟨"account", "acc1"⟩) Token.empty =
      ⟨.ok ([{ Id := ⟨"site", "s2"⟩, ParentResourceId := some ⟨"account", "acc1"⟩,
               DisplayName := "Lab", Annotations := [] }], Token.empty),
       [{ Method := "GET", URL := "https://host.example/sites",
          Query := some [("cursor", [""]), ("skipCount", ["true"])],
          Header := [("Accept", "application/json"), ("Authorization", "ApiToken t")] }]⟩ ∧
    (siteBuilder exampleClient).List foreignSiteRemote (some ⟨"account", "acc2"⟩) Token.empty =
      ⟨.ok ([{ Id := ⟨"site", "s2"⟩, ParentResourceId := some ⟨"account", "acc2"⟩,
               DisplayName := "Lab", Annotations := [] }], Token.empty),
       [{ Method := "GET", URL := "https://host.example/sites",
          Query := some [("cursor", [""]), ("skipCount", ["true"])],
          Header := [("Accept", "application/json"), ("Authorization", "ApiToken t")] }]⟩ :=
  ⟨rfl, rfl, rfl⟩

/-! ### Number of calls of a Grants traversal -/

theorem traverse_succ (root : String) (grants : Token → GrantsResult) (fuel : Nat)
    (pToken : Token) :
    traverse root grants (fuel + 1) pToken =
      match (grants pToken).result with
      | .error _ => ⟨[stateOf root pToken], false⟩
      | .ok (_, next) =>
        if next = Token.empty then ⟨[stateOf root pToken], true⟩
        else
          ⟨stateOf root pToken :: (traverse root grants fuel next).visited,
            (traverse root grants fuel next).finished⟩ := rfl

theorem traverse_length_le (root : String) (grants : Token → GrantsResult) :
    ∀ (fuel : Nat) (pToken : Token), (traverse root grants fuel pToken).visited.length ≤ fuel := by
  intro fuel
  induction fuel with
  | zero => intro pToken; simp [traverse]
  | succ n ih =>
    intro pToken
    rw [traverse_succ]
    cases hr : (grants pToken).result with
    | error err => simp
    | ok p =>
      obtain ⟨gs, next⟩ := p
      by_cases hn : next = Token.empty
      · simp [hn]
      · simp only [hn, if_false, List.length_cons]
        exact Nat.succ_le_succ (ih next)

theorem traverse_stable (root : String) (grants : Token → GrantsResult) :
    ∀ (fuel : Nat) (pToken : Token) (extra : Nat),
      (traverse root grants fuel pToken).finished = true →
      traverse root grants (fuel + extra) pToken = traverse root grants fuel pToken := by
  intro fuel
  induction fuel with
  | zero => intro pToken extra h; simp [traverse] at h
  | succ n ih =>
    intro pToken extra h
    have hfuel : n + 1 + extra = (n + extra) + 1 := by omega
    rw [hfuel, traverse_succ, traverse_succ]
    rw [traverse_succ] at h
    cases hr : (grants pToken).result with
    | error err => rfl
    | ok p =>
      obtain ⟨gs, next⟩ := p
      simp only [hr] at h
      by_cases hn : next = Token.empty
      · simp [hn]
      · simp only [hn, if_false] at h ⊢
        rw [ih next extra h]

theorem role_grants_root (c : Client) (remote : Remote) (resource : Resource) :
    TraversalUnit.role.Grants c remote resource Token.empty =
      ⟨.ok ([], .frames [⟨"", "service_user", ""⟩, ⟨"", "user", ""⟩]), []⟩ := by
  simp [TraversalUnit.Grants, roleResourceType.Grants, roleBuilder, parsePageToken_empty,
    Bag.ResourceTypeID, Bag.Current, Bag.Pop, Bag.Push, Bag.Marshal, resourceTypeRole,
    resourceTypeUser, resourceTypeServiceUser]

theorem site_grants_root (c : Client) (remote : Remote) (resource : Resource) :
    TraversalUnit.site.Grants c remote resource Token.empty =
      ⟨.ok ([], .frames [⟨"", "service_user", ""⟩, ⟨"", "user", ""⟩]), []⟩ := by
  simp [TraversalUnit.Grants, siteResourceType.Grants, siteBuilder, parsePageToken_empty,
    Bag.ResourceTypeID, Bag.Current, Bag.Pop, Bag.Push, Bag.Marshal, resourceTypeSite,
    resourceTypeUser, resourceTypeServiceUser]

/-- With enough fuel the traversal of a unit from the empty token finishes, and
the number of its calls is one for the root state plus the pages of every child
state. -/
theorem traverse_from_root (u : TraversalUnit) (c : Client) (remote : Remote)
    (resource : Resource) (pages : String → Nat)
    (hpages : ∀ s ∈ u.children, endsAfter (u.fetch c remote resource s) (pages s) "" = true)
    (extra : Nat) :
    ∃ visited,
      traverse u.root (u.Grants c remote resource) (1 + (u.children.map pages).sum + extra)
        Token.empty = ⟨visited, true⟩ ∧
      visited.length = 1 + (u.children.map pages).sum := by
  cases u
  · have hu := hpages "user" (by simp [TraversalUnit.children])
    have hs := hpages "service_user" (by simp [TraversalUnit.children])
    have ht := hpages "site" (by simp [TraversalUnit.children])
    have hfuel : 1 + (TraversalUnit.account.children.map pages).sum + extra =
        (pages "site" + (pages "service_user" + (pages "user" + extra))) + 1 := by
      simp [TraversalUnit.children]; omega
    rw [hfuel, traverse_step_ok _ _ _ _ _ _ _ (account_grants_root c remote resource),
      stateOf_empty]
    have h3 := traverse_phase .account c remote resource "site" (pages "site") "" ""
      [⟨"", "service_user", ""⟩, ⟨"", "user", ""⟩]
      (pages "service_user" + (pages "user" + extra)) ht
    have h2 := traverse_phase .account c remote resource "service_user"
      (pages "service_user") "" "" [⟨"", "user", ""⟩] (pages "user" + extra) hs
    have h1 := traverse_phase .account c remote resource "user" (pages "user") "" "" []
      extra hu
    refine ⟨"account" :: (List.replicate (pages "site") "site" ++
      List.replicate (pages "service_user") "service_user" ++
      List.replicate (pages "user") "user"), ?_, ?_⟩
    · simp only [TraversalUnit.root] at h1 h2 h3 ⊢
      simp [Token.empty, h3, h2, h1]
    · simp [TraversalUnit.children]; omega
  · have hu := hpages "user" (by simp [TraversalUnit.children])
    have hs := hpages "service_user" (by simp [TraversalUnit.children])
    have hfuel : 1 + (TraversalUnit.role.children.map pages).sum + extra =
        (pages "service_user" + (pages "user" + extra)) + 1 := by
      simp [TraversalUnit.children]; omega
    rw [hfuel, traverse_step_ok _ _ _ _ _ _ _ (role_grants_root c remote resource),
      stateOf_empty]
    have h2 := traverse_phase .role c remote resource "service_user"
      (pages "service_user") "" "" [⟨"", "user", ""⟩] (pages "user" + extra) hs
    have h1 := traverse_phase .role c remote resource "user" (pages "user") "" "" []
      extra hu
    refine ⟨"role" :: (List.replicate (pages "service_user") "service_user" ++
      List.replicate (pages "user") "user"), ?_, ?_⟩
    · simp only [TraversalUnit.root] at h1 h2 ⊢
      simp [Token.empty, h2, h1]
    · simp [TraversalUnit.children]; omega
  · have hu := hpages "user" (by simp [TraversalUnit.children])
    have hs := hpages "service_user" (by simp [TraversalUnit.children])
    have hfuel : 1 + (TraversalUnit.site.children.map pages).sum + extra =
        (pages "service_user" + (pages "user" + extra)) + 1 := by
      simp [TraversalUnit.children]; omega
    rw [hfuel, traverse_step_ok _ _ _ _ _ _ _ (site_grants_root c remote resource),
      stateOf_empty]
    have h2 := traverse_phase .site c remote resource "service_user"
      (pages "service_user") "" "" [⟨"", "user", ""⟩] (pages "user" + extra) hs
    have h1 := traverse_phase .site c remote resource "user" (pages "user") "" "" []
      extra hu
    refine ⟨"site" :: (List.replicate (pages "service_user") "service_user" ++
      List.replicate (pages "user") "user"), ?_, ?_⟩
    · simp only [TraversalUnit.root] at h1 h2 ⊢
      simp [Token.empty, h2, h1]
    · simp [TraversalUnit.children]; omega

/-- C15: when the listing of every child state of a unit ends after `pages s`
pages (each at least one), the `Grants` traversal from the empty page token gets
the empty page token back from its call number `1 + Σ pages`, and from no
earlier call: a traversal bounded to `fuel` calls finishes exactly when
`1 + Σ pages ≤ fuel`. The sum is `p_u + p_s + p_t` for the account unit and
`p_u + p_s` for the role and site units. -/
theorem traversal_call_count (u : TraversalUnit) (c : Client) (remote : Remote)
    (resource : Resource) (pages : String → Nat)
    (hpages : ∀ s ∈ u.children, endsAfter (u.fetch c remote resource s) (pages s) "" = true) :
    (∃ visited,
      traverse u.root (u.Grants c remote resource) (1 + (u.children.map pages).sum)
        Token.empty = ⟨visited, true⟩ ∧
      visited.length = 1 + (u.children.map pages).sum) ∧
    (∀ fuel, (traverse u.root (u.Grants c remote resource) fuel Token.empty).finished = true ↔
      1 + (u.children.map pages).sum ≤ fuel) ∧
    (∀ s ∈ u.children, 1 ≤ pages s) ∧
    1 + (u.children.map pages).sum =
      (match u with
        | .account => 1 + pages "user" + pages "service_user" + pages "site"
        | .role => 1 + pages "user" + pages "service_user"
        | .site => 1 + pages "user" + pages "service_user") := by
  have hroot := traverse_from_root u c remote resource pages hpages
  refine ⟨by simpa using hroot 0, ?_, ?_, ?_⟩
  · intro fuel
    constructor
    · intro hfin
      by_contra hlt
      push_neg at hlt
      obtain ⟨visited, hv, hl⟩ := hroot 0
      have hst := traverse_stable u.root (u.Grants c remote resource) fuel Token.empty
        (1 + (u.children.map pages).sum - fuel) hfin
      have hle := traverse_length_le u.root (u.Grants c remote resource) fuel Token.empty
      have hsum : fuel + (1 + (u.children.map pages).sum - fuel) =
          1 + (u.children.map pages).sum + 0 := by omega
      rw [hsum, hv] at hst
      rw [← hst] at hle
      simp only [] at hle
      omega
    · intro hle
      obtain ⟨visited, hv, _⟩ := hroot (fuel - (1 + (u.children.map pages).sum))
      have hsum : 1 + (u.children.map pages).sum + (fuel - (1 + (u.children.map pages).sum)) =
          fuel := by omega
      rw [hsum] at hv
      rw [hv]
  · intro s hs
    have h := hpages s hs
    cases hp : pages s with
    | zero => rw [hp] at h; simp [endsAfter] at h
    | succ n => omega
  · cases u <;> simp [TraversalUnit.children] <;> omega

/-- C15 for the account unit on the console with one page of users, one page
of service users and two pages of sites: five calls. -/
theorem traversal_call_count_witness :
    (∃ visited,
      traverse TraversalUnit.account.root
        (TraversalUnit.account.Grants exampleClient pagedRemote exampleAccount)
        (1 + (TraversalUnit.account.children.map pagedRemotePages).sum)
        Token.empty = ⟨visited, true⟩ ∧
      visited.length = 1 + (TraversalUnit.account.children.map pagedRemotePages).sum) ∧
    (∀ fuel, (traverse TraversalUnit.account.root
        (TraversalUnit.account.Grants exampleClient pagedRemote exampleAccount) fuel
        Token.empty).finished = true ↔
      1 + (TraversalUnit.account.children.map pagedRemotePages).sum ≤ fuel) ∧
    (∀ s ∈ TraversalUnit.account.children, 1 ≤ pagedRemotePages s) ∧
    1 + (TraversalUnit.account.children.map pagedRemotePages).sum =
      1 + pagedRemotePages "user" + pagedRemotePages "service_user" +
        pagedRemotePages "site" :=
  traversal_call_count .account exampleClient pagedRemote exampleAccount pagedRemotePages
    (by
      intro s hs
      simp only [TraversalUnit.children, List.mem_cons, List.mem_singleton,
        List.not_mem_nil, or_false] at hs
      rcases hs with rfl | rfl | rfl <;> decide)

/-! ### The role List traversal -/

/-- The resource `roleResource` builds, as a function of the record. -/
theorem roleResource_total :
    ∃ f : Role → Resource, ∀ role, roleResource role = .ok (f role) := by
  refine ⟨fun role =>
    if role.RoleName ≠ "" ∧ role.RoleID ≠ "" then
      { Id := { ResourceType := "role", Resource := role.RoleID }, ParentResourceId := none,
        DisplayName := role.RoleName,
        Annotations := [Anno.RoleTrait [RoleTraitOption.WithRoleProfile
          [("role_name", role.RoleName), ("role_id", role.RoleID)]]] }
    else
      { Id := { ResourceType := "role", Resource := role.ID }, ParentResourceId := none,
        DisplayName := role.Name,
        Annotations := [Anno.RoleTrait [RoleTraitOption.WithRoleProfile
          [("role_name", role.Name), ("role_id", role.ID)]]] }, ?_⟩
  intro role
  by_cases h : role.RoleName ≠ "" ∧ role.RoleID ≠ ""
  · rw [roleResource_scope role h]; beta_reduce; rw [if_pos h]
  · rw [roleResource_predefined role h]; beta_reduce; rw [if_neg h]

theorem resourceLoop_map {α : Type} (mapper : α → Except Err Resource) (f : α → Resource)
    (hf : ∀ x, mapper x = .ok (f x)) (records : List α) :
    resourceLoop mapper records = .ok (records.map f) := by
  induction records with
  | nil => rfl
  | cons x rest ih => simp [resourceLoop, hf, ih]

theorem roleListFinish_eq (f : Role → Resource) (hf : ∀ role, roleResource role = .ok (f role))
    (allRoles : List Role) (bag : Bag) (sent : List Request) :
    roleListFinish allRoles bag sent = ⟨.ok (allRoles.map f, .frames bag), sent⟩ := by
  simp [roleListFinish, resourceLoop_map roleResource f hf, Bag.Marshal]

theorem scopeRolesOf_append {α : Type} (scopeRoles : α → Option (List Role)) (a b : List α) :
    scopeRolesOf scopeRoles (a ++ b) = scopeRolesOf scopeRoles a ++ scopeRolesOf scopeRoles b := by
  induction a with
  | nil => rfl
  | cons x rest ih =>
    simp only [List.cons_append, scopeRolesOf]
    cases scopeRoles x with
    | none => simpa using ih
    | some roles => simp [ih]

theorem scopeRolesOf_length {α : Type} (scopeRoles : α → Option (List Role)) (a : List α) :
    (scopeRolesOf scopeRoles a).length = scopeRoleCount scopeRoles a := by
  induction a with
  | nil => rfl
  | cons x rest ih =>
    simp only [scopeRolesOf, scopeRoleCount, List.map_cons, List.sum_cons]
    cases scopeRoles x with
    | none => simpa [scopeRoleCount] using ih
    | some roles => simp [ih, scopeRoleCount]

/-- Role `List` in the role state on a single role frame: one request to the
predefined-roles endpoint with the cursor alone; the role frame stays while the
cursor is non-empty, and is replaced by the user and service_user frames
(service_user current) when it is empty. -/
theorem roleList_role_step (f : Role → Resource)
    (hf : ∀ role, roleResource role = .ok (f role)) (c : Client) (remote : Remote)
    (parentId : Option ResourceId) (page rid : String) (roles : List Role) (next : String)
    (hres : (c.GetPredefinedRoles remote (some [(cursor, page)])).result = .ok (roles, next)) :
    (roleBuilder c).List remote parentId (.frames [⟨page, "role", rid⟩]) =
      ⟨.ok (roles.map f,
          .frames (if next ≠ "" then [⟨next, "role", rid⟩]
                   else [⟨"", "service_user", ""⟩, ⟨"", "user", ""⟩])),
        [c.requestFor rolesEndpoint (some [(cursor, page)])]⟩ := by
  have hsent := GetPredefinedRoles_sent_of_ok c remote _ _ hres
  by_cases hn : next = ""
  · simp [roleResourceType.List, roleBuilder, parsePageToken_frames, Bag.ResourceTypeID,
      Bag.Current, resourceTypeRole, hres, Bag.Next, Bag.Pop, Bag.Push, hn,
      roleListFinish_eq f hf, hsent, GetPredefinedRoles_sent, resourceTypeUser,
      resourceTypeServiceUser]
  · simp [roleResourceType.List, roleBuilder, parsePageToken_frames, Bag.ResourceTypeID,
      Bag.Current, resourceTypeRole, hres, Bag.Next, Bag.Push, hn,
      roleListFinish_eq f hf, hsent, GetPredefinedRoles_sent]

theorem roleList_empty (c : Client) (remote : Remote) (parentId : Option ResourceId) :
    (roleBuilder c).List remote parentId Token.empty =
      (roleBuilder c).List remote parentId (.frames [⟨"", "role", ""⟩]) := by
  simp [roleResourceType.List, parsePageToken_empty, parsePageToken_frames, resourceTypeRole]

/-- Role `List` in the user state: one request to the users endpoint with the
cursor alone, one resource per scope role of the fetched users. -/
theorem roleList_user_step (f : Role → Resource)
    (hf : ∀ role, roleResource role = .ok (f role)) (c : Client) (remote : Remote)
    (parentId : Option ResourceId) (page rid : String) (rest : List PageState)
    (users : List User) (next : String)
    (hres : (c.GetUsers remote (some [(cursor, page)])).result = .ok (users, next)) :
    (roleBuilder c).List remote parentId (.frames (⟨page, "user", rid⟩ :: rest)) =
      ⟨.ok ((scopeRolesOf User.ScopeRoles users).map f,
          .frames (advance ⟨page, "user", rid⟩ rest next)),
        [c.requestFor usersEndpoint (some [(cursor, page)])]⟩ := by
  have hsent := GetUsers_sent_of_ok c remote _ _ hres
  by_cases hn : next = ""
  · simp [roleResourceType.List, roleBuilder, parsePageToken_frames, Bag.ResourceTypeID,
      Bag.Current, resourceTypeRole, resourceTypeUser, hres, Bag.Next, hn, advance,
      roleListFinish_eq f hf, hsent, GetUsers_sent]
  · simp [roleResourceType.List, roleBuilder, parsePageToken_frames, Bag.ResourceTypeID,
      Bag.Current, resourceTypeRole, resourceTypeUser, hres, Bag.Next, Bag.Push, hn, advance,
      roleListFinish_eq f hf, hsent, GetUsers_sent]

/-- Role `List` in the service_user state: one request to the service-users
endpoint with the cursor alone, one resource per scope role of the fetched
service users. -/
theorem roleList_serviceUser_step (f : Role → Resource)
    (hf : ∀ role, roleResource role = .ok (f role)) (c : Client) (remote : Remote)
    (parentId : Option ResourceId) (page rid : String) (rest : List PageState)
    (serviceUsers : List ServiceUser) (next : String)
    (hres : (c.GetServiceUsers remote (some [(cursor, page)])).result =
      .ok (serviceUsers, next)) :
    (roleBuilder c).List remote parentId (.frames (⟨page, "service_user", rid⟩ :: rest)) =
      ⟨.ok ((scopeRolesOf ServiceUser.ScopeRoles serviceUsers).map f,
          .frames (advance ⟨page, "service_user", rid⟩ rest next)),
        [c.requestFor serviceUsersEndpoint (some [(cursor, page)])]⟩ := by
  have hsent := GetServiceUsers_sent_of_ok c remote _ _ hres
  by_cases hn : next = ""
  · simp [roleResourceType.List, roleBuilder, parsePageToken_frames, Bag.ResourceTypeID,
      Bag.Current, resourceTypeRole, resourceTypeUser, resourceTypeServiceUser, hres,
      Bag.Next, hn, advance, roleListFinish_eq f hf, hsent, GetServiceUsers_sent]
  · simp [roleResourceType.List, roleBuilder, parsePageToken_frames, Bag.ResourceTypeID,
      Bag.Current, resourceTypeRole, resourceTypeUser, resourceTypeServiceUser, hres,
      Bag.Next, Bag.Push, hn, advance, roleListFinish_eq f hf, hsent, GetServiceUsers_sent]

theorem listTraversal_step_ok (list : Token → ListResult) (fuel : Nat) (pToken next : Token)
    (rs : List Resource) (sent : List Request) (h : list pToken = ⟨.ok (rs, next), sent⟩) :
    listTraversal list (fuel + 1) pToken =
      if next = Token.empty then ⟨rs, sent, true⟩
      else ⟨rs ++ (listTraversal list fuel next).resources,
            sent ++ (listTraversal list fuel next).sent,
            (listTraversal list fuel next).finished⟩ := by
  simp [listTraversal, h]

theorem listTraversal_congr (list : Token → ListResult) (fuel : Nat) (t1 t2 : Token)
    (h : list t1 = list t2) : listTraversal list fuel t1 = listTraversal list fuel t2 := by
  cases fuel with
  | zero => rfl
  | succ n => simp [listTraversal, h]

/-- A whole phase of a `List` traversal in a child state whose listing ends
after `n` pages: `n` calls, one request each, after which the traversal is
complete (no frame pending) or goes on with the pending frames. -/
theorem listTraversal_phase {α : Type} (list : Token → ListResult) (state rid : String)
    (fetch : String → Traced (List α × String)) (out : List α → List Resource)
    (req : String → Request)
    (hstep : ∀ page rest records next, (fetch page).result = .ok (records, next) →
      list (.frames (⟨page, state, rid⟩ :: rest)) =
        ⟨.ok (out records, .frames (advance ⟨page, state, rid⟩ rest next)), [req page]⟩) :
    ∀ (n : Nat) (page : String) (pages : List (String × List α)) (rest : List PageState)
      (k : Nat),
      pagesFrom fetch n page = some pages →
      listTraversal list (n + k) (.frames (⟨page, state, rid⟩ :: rest)) =
        if rest = [] then
          ⟨(pages.map fun p => out p.2).flatten, pages.map fun p => req p.1, true⟩
        else
          ⟨(pages.map fun p => out p.2).flatten ++
              (listTraversal list k (.frames rest)).resources,
            (pages.map fun p => req p.1) ++ (listTraversal list k (.frames rest)).sent,
            (listTraversal list k (.frames rest)).finished⟩ := by
  intro n
  induction n with
  | zero => intro page pages rest k h; simp [pagesFrom] at h
  | succ n ih =>
    intro page pages rest k h
    unfold pagesFrom at h
    cases hr : (fetch page).result with
    | error err => simp [hr] at h
    | ok pr =>
      obtain ⟨records, next⟩ := pr
      simp only [hr] at h
      have hfuel : n + 1 + k = (n + k) + 1 := by omega
      rw [hfuel, listTraversal_step_ok _ _ _ _ _ _ (hstep page rest records next hr)]
      by_cases hn : next = ""
      · simp only [hn, if_true] at h
        by_cases h0 : n = 0
        · simp only [h0, if_true, Option.some.injEq] at h
          subst h
          subst h0
          subst hn
          by_cases hrest : rest = []
          · subst hrest
            simp [advance, Token.empty]
          · simp [advance, frames_eq_empty, hrest]
        · simp [h0] at h
      · simp only [hn, if_false] at h
        cases hp : pagesFrom fetch n next with
        | none => simp [hp] at h
        | some more =>
          simp only [hp, Option.some.injEq] at h
          subst h
          have hadv : advance ⟨page, state, rid⟩ rest next = ⟨next, state, rid⟩ :: rest := by
            simp [advance, hn]
          rw [hadv, ih next more rest k hp]
          by_cases hrest : rest = []
          · simp [hrest, Token.empty]
          · simp [hrest, Token.empty]

/-- The role phase of the role `List` traversal: `n` calls to the
predefined-roles endpoint, after which the service_user and user frames are
pending, service_user being current. -/
theorem listTraversal_role_phase (f : Role → Resource)
    (hf : ∀ role, roleResource role = .ok (f role)) (c : Client) (remote : Remote)
    (parentId : Option ResourceId) (rid : String) :
    ∀ (n : Nat) (page : String) (pages : List (String × List Role)) (k : Nat),
      pagesFrom (fun page => c.GetPredefinedRoles remote (some [(cursor, page)])) n page =
        some pages →
      listTraversal ((roleBuilder c).List remote parentId) (n + k)
          (.frames [⟨page, "role", rid⟩]) =
        ⟨(pages.map fun p => p.2.map f).flatten ++
            (listTraversal ((roleBuilder c).List remote parentId) k
              (.frames [⟨"", "service_user", ""⟩, ⟨"", "user", ""⟩])).resources,
          (pages.map fun p => c.requestFor rolesEndpoint (some [(cursor, p.1)])) ++
            (listTraversal ((roleBuilder c).List remote parentId) k
              (.frames [⟨"", "service_user", ""⟩, ⟨"", "user", ""⟩])).sent,
          (listTraversal ((roleBuilder c).List remote parentId) k
            (.frames [⟨"", "service_user", ""⟩, ⟨"", "user", ""⟩])).finished⟩ := by
  intro n
  induction n with
  | zero => intro page pages k h; simp [pagesFrom] at h
  | succ n ih =>
    intro page pages k h
    unfold pagesFrom at h
    cases hr : (c.GetPredefinedRoles remote (some [(cursor, page)])).result with
    | error err => simp [hr] at h
    | ok pr =>
      obtain ⟨records, next⟩ := pr
      simp only [hr] at h
      have hfuel : n + 1 + k = (n + k) + 1 := by omega
      rw [hfuel, listTraversal_step_ok _ _ _ _ _ _
        (roleList_role_step f hf c remote parentId page rid records next hr)]
      by_cases hn : next = ""
      · simp only [hn, if_true] at h
        by_cases h0 : n = 0
        · simp only [h0, if_true, Option.some.injEq] at h
          subst h
          subst h0
          subst hn
          simp [Token.empty]
        · simp [h0] at h
      · simp only [hn, if_false] at h
        cases hp : pagesFrom (fun page => c.GetPredefinedRoles remote (some [(cursor, page)]))
            n next with
        | none => simp [hp] at h
        | some more =>
          simp only [hp, Option.some.injEq] at h
          subst h
          rw [if_pos hn, ih next more k hp]
          simp [Token.empty]

theorem flatten_records_map {α β : Type} (g : α → β) (pages : List (String × List α)) :
    (pages.map fun p => p.2.map g).flatten = (recordsOf pages).map g := by
  induction pages with
  | nil => rfl
  | cons p rest ih => simp [recordsOf] at ih ⊢; exact ih

theorem flatten_scopeRoles_map {α : Type} (scopeRoles : α → Option (List Role))
    (f : Role → Resource) (pages : List (String × List α)) :
    (pages.map fun p => (scopeRolesOf scopeRoles p.2).map f).flatten =
      (scopeRolesOf scopeRoles (recordsOf pages)).map f := by
  induction pages with
  | nil => rfl
  | cons p rest ih =>
    have hrec : recordsOf (p :: rest) = p.2 ++ recordsOf rest := by simp [recordsOf]
    rw [hrec, scopeRolesOf_append, List.map_append, ← ih]
    simp

theorem pagesFrom_length {α : Type} (fetch : String → Traced (List α × String)) :
    ∀ (n : Nat) (page : String) (pages : List (String × List α)),
      pagesFrom fetch n page = some pages → pages.length = n := by
  intro n
  induction n with
  | zero => intro page pages h; simp [pagesFrom] at h
  | succ n ih =>
    intro page pages h
    unfold pagesFrom at h
    cases hr : (fetch page).result with
    | error err => simp [hr] at h
    | ok pr =>
      obtain ⟨records, next⟩ := pr
      simp only [hr] at h
      by_cases hn : next = ""
      · simp only [hn, if_true] at h
        by_cases h0 : n = 0
        · simp only [h0, if_true, Option.some.injEq] at h
          subst h
          simp [h0]
        · simp [h0] at h
      · simp only [hn, if_false] at h
        cases hp : pagesFrom fetch n next with
        | none => simp [hp] at h
        | some more =>
          simp only [hp, Option.some.injEq] at h
          subst h
          simp [ih next more hp]

/-- The whole role `List` traversal from the empty token, with enough fuel. -/
theorem roleList_whole_run (f : Role → Resource)
    (hf : ∀ role, roleResource role = .ok (f role)) (c : Client) (remote : Remote)
    (parentId : Option ResourceId) (pr ps pu extra : Nat)
    (rolePages : List (String × List Role)) (suPages : List (String × List ServiceUser))
    (userPages : List (String × List User))
    (hr : pagesFrom (fun page => c.GetPredefinedRoles remote (some [(cursor, page)])) pr "" =
      some rolePages)
    (hs : pagesFrom (fun page => c.GetServiceUsers remote (some [(cursor, page)])) ps "" =
      some suPages)
    (hu : pagesFrom (fun page => c.GetUsers remote (some [(cursor, page)])) pu "" =
      some userPages) :
    listTraversal ((roleBuilder c).List remote parentId) (pr + (ps + (pu + extra)))
        Token.empty =
      ⟨(recordsOf rolePages ++ scopeRolesOf ServiceUser.ScopeRoles (recordsOf suPages) ++
          scopeRolesOf User.ScopeRoles (recordsOf userPages)).map f,
        (rolePages.map fun p => c.requestFor rolesEndpoint (some [(cursor, p.1)])) ++
          (suPages.map fun p => c.requestFor serviceUsersEndpoint (some [(cursor, p.1)])) ++
          (userPages.map fun p => c.requestFor usersEndpoint (some [(cursor, p.1)])),
        true⟩ := by
  have e0 := listTraversal_congr ((roleBuilder c).List remote parentId)
    (pr + (ps + (pu + extra))) Token.empty (.frames [⟨"", "role", ""⟩])
    (roleList_empty c remote parentId)
  have h1 := listTraversal_role_phase f hf c remote parentId "" pr "" rolePages
    (ps + (pu + extra)) hr
  have h2 := listTraversal_phase ((roleBuilder c).List remote parentId) "service_user" ""
    (fun page => c.GetServiceUsers remote (some [(cursor, page)]))
    (fun records => (scopeRolesOf ServiceUser.ScopeRoles records).map f)
    (fun page => c.requestFor serviceUsersEndpoint (some [(cursor, page)]))
    (fun page rest records next hres =>
      roleList_serviceUser_step f hf c remote parentId page "" rest records next hres)
    ps "" suPages [⟨"", "user", ""⟩] (pu + extra) hs
  have h3 := listTraversal_phase ((roleBuilder c).List remote parentId) "user" ""
    (fun page => c.GetUsers remote (some [(cursor, page)]))
    (fun records => (scopeRolesOf User.ScopeRoles records).map f)
    (fun page => c.requestFor usersEndpoint (some [(cursor, page)]))
    (fun page rest records next hres =>
      roleList_user_step f hf c remote parentId page "" rest records next hres)
    pu "" userPages [] extra hu
  rw [e0, h1, h2, h3]
  simp [flatten_records_map, flatten_scopeRoles_map, List.map_append, List.append_assoc]

theorem scopeRolesOf_entries {α : Type} (scopeRoles : α → Option (List Role))
    (records : List α) :
    scopeRolesOf scopeRoles records = scopeRoleEntries scopeRoles records := by
  induction records with
  | nil => rfl
  | cons x rest ih =>
    simp only [scopeRolesOf, scopeRoleEntries, List.map_cons, List.flatten_cons]
    cases scopeRoles x with
    | none => simpa [scopeRoleEntries] using ih
    | some roles => simp [ih, scopeRoleEntries]

theorem map_ok_of_total {α β : Type} (mapper : α → Except Err β) (f : α → β)
    (hf : ∀ x, mapper x = .ok (f x)) (l : List α) :
    l.map mapper = (l.map f).map Except.ok := by
  induction l with
  | nil => rfl
  | cons x rest ih => simp [hf, ih]

/-- C16, as stated, fails on the order of the two user listings: on a console
with two pages of predefined roles, one page of service users and one page of
users, the role `List` traversal from the empty token requests roles, roles,
service users, users (not roles, roles, users, service users), and returns the
scope roles of the service users ("42") before those of the users ("42",
"43"), not after them. -/
theorem role_list_serves_service_users_first :
    (listTraversal ((roleBuilder exampleClient).List rolesRemote none) 4 Token.empty).finished =
      true ∧
    (listTraversal ((roleBuilder exampleClient).List rolesRemote none) 4
        Token.empty).sent.map Request.URL =
      ["https://host.example/rbac/roles", "https://host.example/rbac/roles",
       "https://host.example/service-users", "https://host.example/users"] ∧
    (listTraversal ((roleBuilder exampleClient).List rolesRemote none) 4
        Token.empty).sent.map Request.URL ≠
      ["https://host.example/rbac/roles", "https://host.example/rbac/roles",
       "https://host.example/users", "https://host.example/service-users"] ∧
    (listTraversal ((roleBuilder exampleClient).List rolesRemote none) 4
        Token.empty).resources.map (fun r => r.Id.Resource) = ["7", "8", "42", "42", "43"] ∧
    (listTraversal ((roleBuilder exampleClient).List rolesRemote none) 4
        Token.empty).resources.map (fun r => r.Id.Resource) ≠ ["7", "8", "42", "43", "42"] := by
  refine ⟨by decide, by decide, by decide, by decide, by decide⟩

/-- C16, amended: when the predefined-roles, service-users and users listings
(each requested with the cursor alone, no filter) end after `pr`, `ps` and `pu`
pages, the role `List` traversal from the empty page token pages the
predefined-roles endpoint to exhaustion, then all service users and then all
users to exhaustion, and ends on the empty page token. The resources returned
over the traversal are exactly: the resource of every predefined role record,
then the resource of every entry of the scope roles of every service user, then
the resource of every entry of the scope roles of every user, in page order and
without de-duplication; their number is `R` plus the sum of the scope-role
lengths. -/
theorem role_list_traversal (c : Client) (remote : Remote)
    (parentId : Option ResourceId) (pr ps pu fuel : Nat)
    (rolePages : List (String × List Role)) (suPages : List (String × List ServiceUser))
    (userPages : List (String × List User))
    (hr : pagesFrom (fun page => c.GetPredefinedRoles remote (some [(cursor, page)])) pr "" =
      some rolePages)
    (hs : pagesFrom (fun page => c.GetServiceUsers remote (some [(cursor, page)])) ps "" =
      some suPages)
    (hu : pagesFrom (fun page => c.GetUsers remote (some [(cursor, page)])) pu "" =
      some userPages)
    (hfuel : pr + ps + pu ≤ fuel) :
    (listTraversal ((roleBuilder c).List remote parentId) fuel Token.empty).finished = true ∧
    (recordsOf rolePages ++
        scopeRoleEntries ServiceUser.ScopeRoles (recordsOf suPages) ++
        scopeRoleEntries User.ScopeRoles (recordsOf userPages)).map roleResource =
      (listTraversal ((roleBuilder c).List remote parentId) fuel Token.empty).resources.map
        Except.ok ∧
    (listTraversal ((roleBuilder c).List remote parentId) fuel Token.empty).resources.length =
      (recordsOf rolePages).length +
        (scopeRoleCount ServiceUser.ScopeRoles (recordsOf suPages) +
          scopeRoleCount User.ScopeRoles (recordsOf userPages)) ∧
    (listTraversal ((roleBuilder c).List remote parentId) fuel Token.empty).sent =
      (rolePages.map fun p => c.requestFor rolesEndpoint (some [(cursor, p.1)])) ++
        (suPages.map fun p => c.requestFor serviceUsersEndpoint (some [(cursor, p.1)])) ++
        (userPages.map fun p => c.requestFor usersEndpoint (some [(cursor, p.1)])) ∧
    rolePages.length = pr ∧ suPages.length = ps ∧ userPages.length = pu := by
  obtain ⟨f, hf⟩ := roleResource_total
  obtain ⟨extra, rfl⟩ : ∃ extra, fuel = pr + (ps + (pu + extra)) :=
    ⟨fuel - (pr + ps + pu), by omega⟩
  rw [roleList_whole_run f hf c remote parentId pr ps pu extra rolePages suPages
    userPages hr hs hu]
  refine ⟨rfl, ?_, ?_, rfl,
    pagesFrom_length _ _ _ _ hr, pagesFrom_length _ _ _ _ hs, pagesFrom_length _ _ _ _ hu⟩
  · simp only [scopeRolesOf_entries]
    exact map_ok_of_total roleResource f hf _
  · simp [scopeRolesOf_length, Nat.add_assoc]

/-- C16, amended, on the console with two pages of predefined roles (two
roles), one page of two service users (one scope role) and one page of one user
(two scope roles): four calls, five resources. -/
theorem role_list_traversal_witness :
    (listTraversal ((roleBuilder exampleClient).List rolesRemote none) 4
      Token.empty).finished = true ∧
    (recordsOf [("", [(⟨"", "", "", "7", "Viewer"⟩ : Role)]),
                ("r2", [⟨"", "", "", "8", "Admin"⟩])] ++
        scopeRoleEntries ServiceUser.ScopeRoles (recordsOf [("",
          [(⟨"su1", "", "Bot One", some [⟨"Acme", "IR Team", "42", "", ""⟩],
             "account"⟩ : ServiceUser),
           ⟨"su2", "", "Bot Two", none, "site"⟩])]) ++
        scopeRoleEntries User.ScopeRoles (recordsOf [("",
          [(⟨"a@example.com", "account", "u1",
             some [⟨"Acme", "IR Team", "42", "", ""⟩, ⟨"Acme", "SOC", "43", "", ""⟩],
             "Ann Lee"⟩ : User)])])).map roleResource =
      (listTraversal ((roleBuilder exampleClient).List rolesRemote none) 4
        Token.empty).resources.map Except.ok ∧
    (listTraversal ((roleBuilder exampleClient).List rolesRemote none) 4
        Token.empty).resources.length =
      (recordsOf [("", [(⟨"", "", "", "7", "Viewer"⟩ : Role)]),
                  ("r2", [⟨"", "", "", "8", "Admin"⟩])]).length +
        (scopeRoleCount ServiceUser.ScopeRoles (recordsOf [("",
            [(⟨"su1", "", "Bot One", some [⟨"Acme", "IR Team", "42", "", ""⟩],
               "account"⟩ : ServiceUser),
             ⟨"su2", "", "Bot Two", none, "site"⟩])]) +
          scopeRoleCount User.ScopeRoles (recordsOf [("",
            [(⟨"a@example.com", "account", "u1",
               some [⟨"Acme", "IR Team", "42", "", ""⟩, ⟨"Acme", "SOC", "43", "", ""⟩],
               "Ann Lee"⟩ : User)])])) ∧
    (listTraversal ((roleBuilder exampleClient).List rolesRemote none) 4 Token.empty).sent =
      ([("", [(⟨"", "", "", "7", "Viewer"⟩ : Role)]),
        ("r2", [⟨"", "", "", "8", "Admin"⟩])].map
          fun p => exampleClient.requestFor rolesEndpoint (some [(cursor, p.1)])) ++
        ([("", [(⟨"su1", "", "Bot One", some [⟨"Acme", "IR Team", "42", "", ""⟩],
               "account"⟩ : ServiceUser),
             ⟨"su2", "", "Bot Two", none, "site"⟩])].map
          fun p => exampleClient.requestFor serviceUsersEndpoint (some [(cursor, p.1)])) ++
        ([("", [(⟨"a@example.com", "account", "u1",
               some [⟨"Acme", "IR Team", "42", "", ""⟩, ⟨"Acme", "SOC", "43", "", ""⟩],
               "Ann Lee"⟩ : User)])].map
          fun p => exampleClient.requestFor usersEndpoint (some [(cursor, p.1)])) ∧
    [("", [(⟨"", "", "", "7", "Viewer"⟩ : Role)]),
      ("r2", [⟨"", "", "", "8", "Admin"⟩])].length = 2 ∧
    [("", [(⟨"su1", "", "Bot One", some [⟨"Acme", "IR Team", "42", "", ""⟩],
           "account"⟩ : ServiceUser),
         ⟨"su2", "", "Bot Two", none, "site"⟩])].length = 1 ∧
    [("", [(⟨"a@example.com", "account", "u1",
           some [⟨"Acme", "IR Team", "42", "", ""⟩, ⟨"Acme", "SOC", "43", "", ""⟩],
           "Ann Lee"⟩ : User)])].length = 1 :=
  role_list_traversal exampleClient rolesRemote none 2 1 1 4 _ _ _ rfl rfl rfl (by decide)

end BatonSentinelOne
